import Mathlib

/-!
# Staff Hub: data access, session, configuration, totals and export

A shallow embedding of the generic entity accessor built by `createEntityAPI`
and of the query objects it hands to the Supabase client
(`src/api/entities.js`), of `User.me`, of the configuration loader and the
navigation helpers (`ConfigurationManager.jsx`, `Layout.jsx`), of the unpaid
commission totals and of the lead export (`Leads.jsx`).

* A JavaScript record is an association list of its own enumerable keys, in
  `Object.keys` order.
* The Supabase query builder is a record that accumulates the verb, the
  filter predicates, the order clauses and the result modifiers.
* `await query` is a call of the store: a function from the built query and
  the store state to a `{ data, error }` response and the next state.
* A rejected promise (`throw error`) is `Except.error`.
* A Number is an IEEE-754 binary64 value. An integer-valued number is written
  `num n`; a number that is not an integer is `float x`, `x` a value of the
  format, and the sums of commission amounts are rounded as the format does.
* The hosted database is not part of the repository. Statements about what
  the accessor does with a response hold for every store; statements about
  the rows of a collection are made over the reference store of this file.
-/

namespace ByteHub

/-! ## Numbers (IEEE-754 binary64) -/

/-- The binary digits of `n` counted with `fuel` halvings. -/
def bitLengthAux : Nat → Nat → Nat
  | 0, _ => 0
  | fuel + 1, n => if n = 0 then 0 else bitLengthAux fuel (n / 2) + 1

/-- The number of binary digits of a natural number; 0 has none. -/
def bitLength (n : Nat) : Nat :=
  bitLengthAux n n

/-- A Number of JavaScript: a value of the IEEE-754 binary64 format.
`fin negative mantissa exponent` is the finite number
`± mantissa × 2^exponent`. In a value of the format either
`2^52 ≤ mantissa < 2^53` and `-1074 ≤ exponent ≤ 971` (normal), or
`0 < mantissa < 2^52` and `exponent = -1074` (subnormal), or the mantissa and
the exponent are 0 (`+0` and `-0`). -/
inductive Double where
  | nan
  | inf (negative : Bool)
  | fin (negative : Bool) (mantissa : Nat) (exponent : Int)
  deriving DecidableEq, Repr

/-- The number `+0`. -/
def Double.zero : Double :=
  Double.fin false 0 0

/-- The integer `fl` with `2^fl ≤ p / q < 2^(fl + 1)`, for `p` and `q` other
than 0: the difference of the numbers of binary digits, or one less. -/
def floorLog2 (p q : Nat) : Int :=
  let d : Int := (bitLength p : Int) - (bitLength q : Int)
  if q * 2 ^ d.toNat ≤ p * 2 ^ (-d).toNat then d else d - 1

/-- The multiple of `2^e` nearest to `± p / q`, a tie going to the even
multiple, as a number whose last mantissa digit counts `2^e`; a mantissa
that reaches `2^53` moves to the next exponent, and an exponent above 971
gives the infinity. -/
def Double.roundAt (negative : Bool) (p q : Nat) (e : Int) : Double :=
  let n := p * 2 ^ (-e).toNat
  let dd := q * 2 ^ e.toNat
  let m0 := n / dd
  let r := n % dd
  let m := if dd < 2 * r ∨ (2 * r = dd ∧ m0 % 2 = 1) then m0 + 1 else m0
  if m = 0 then Double.fin negative 0 0
  else if m = 2 ^ 53 then
    (if 971 < e + 1 then Double.inf negative else Double.fin negative (2 ^ 52) (e + 1))
  else if 971 < e then Double.inf negative
  else Double.fin negative m e

/-- The value of the format nearest to `± p / q` (`q` not 0), a tie going to
the even mantissa and a result of `2^1024` or more to the infinity: the
rounding of every arithmetic result and of a decimal literal. The mantissa
has 53 binary digits, fewer below `2^-1022`, where the exponent stays -1074. -/
def Double.round (negative : Bool) (p q : Nat) : Double :=
  if p = 0 then Double.fin negative 0 0
  else Double.roundAt negative p q (max (floorLog2 p q - 52) (-1074))

/-- The Number of an integer. -/
def Double.ofInt (n : Int) : Double :=
  Double.round (decide (n < 0)) n.natAbs 1

/-- The Number of the decimal `n / 10^digits`: `ofDecimal 5025 2` is `50.25`. -/
def Double.ofDecimal (n : Int) (digits : Nat) : Double :=
  Double.round (decide (n < 0)) n.natAbs (10 ^ digits)

/-- The integer `± mantissa × 2^(exponent - lo)` of a finite number whose
exponent is `lo` or more; 0 for NaN and the infinities. -/
def Double.scaled (lo : Int) : Double → Int
  | Double.fin negative m e =>
    if negative then -((m * 2 ^ (e - lo).toNat : Nat) : Int)
    else ((m * 2 ^ (e - lo).toNat : Nat) : Int)
  | _ => 0

/-- `x + y`: NaN with a NaN operand and for opposite infinities, the
infinity with one infinite operand, else the exact sum rounded; an exact sum
of 0 is `-0` when both operands are negative and `+0` otherwise. -/
def Double.add : Double → Double → Double
  | Double.nan, _ => Double.nan
  | _, Double.nan => Double.nan
  | Double.inf a, Double.inf b => if a = b then Double.inf a else Double.nan
  | Double.inf a, _ => Double.inf a
  | _, Double.inf b => Double.inf b
  | Double.fin s1 m1 e1, Double.fin s2 m2 e2 =>
    let e := min e1 e2
    let v := (Double.fin s1 m1 e1).scaled e + (Double.fin s2 m2 e2).scaled e
    if v = 0 then Double.fin (s1 && s2) 0 0
    else Double.round (decide (v < 0)) (v.natAbs * 2 ^ e.toNat) (2 ^ (-e).toNat)

/-- `-x`. -/
def Double.neg : Double → Double
  | Double.nan => Double.nan
  | Double.inf a => Double.inf (!a)
  | Double.fin s m e => Double.fin (!s) m e

/-- `x - y`, which is `x + (-y)`. -/
def Double.sub (x y : Double) : Double :=
  x.add y.neg

/-- The order of numbers as column values: by value, NaN after every other
number. -/
def Double.le : Double → Double → Bool
  | _, Double.nan => true
  | Double.nan, _ => false
  | Double.inf true, _ => true
  | _, Double.inf false => true
  | Double.inf false, _ => false
  | _, Double.inf true => false
  | Double.fin s1 m1 e1, Double.fin s2 m2 e2 =>
    decide ((Double.fin s1 m1 e1).scaled (min e1 e2) ≤ (Double.fin s2 m2 e2).scaled (min e1 e2))

/-- The value of the format a finite triple stands for. -/
def Double.normalize : Double → Double
  | Double.fin s m e => Double.round s (m * 2 ^ e.toNat) (2 ^ (-e).toNat)
  | x => x

/-- The least `j` from `j` on with `q ≤ m × 10^j`, tried `fuel` times. -/
def decimalShift : Nat → Nat → Nat → Nat → Nat
  | 0, j, _, _ => j
  | fuel + 1, j, m, q => if q ≤ m * 10 ^ j then j else decimalShift fuel (j + 1) m q

/-- The `n` with `10^(n-1) ≤ m × 2^e < 10^n`, for `m` other than 0. -/
def decimalExponent (m : Nat) (e : Int) : Int :=
  if 0 ≤ e then ((toString (m * 2 ^ e.toNat)).length : Int)
  else if 2 ^ (-e).toNat ≤ m then ((toString (m / 2 ^ (-e).toNat)).length : Int)
  else 1 - (decimalShift 400 1 m (2 ^ (-e).toNat) : Int)

/-- The decimal `s × 10^(n-k)` of `k` digits that reads back as the number
`m × 2^e`, if there is one, as the pair of `s` and `n`. Of the two decimals of
`k` digits around the number the nearer one is taken, the even one on a tie. -/
def shortestDecimal (m : Nat) (e : Int) (n : Int) (k : Nat) : Option (Nat × Int) :=
  let up := ((k : Int) - n).toNat
  let down := (n - (k : Int)).toNat
  let p := m * 2 ^ e.toNat * 10 ^ up
  let q := 2 ^ (-e).toNat * 10 ^ down
  let lo := p / q
  let hi := lo + 1
  let okLo := decide (Double.round false (lo * 10 ^ down) (10 ^ up) = Double.fin false m e)
  let okHi := decide (Double.round false (hi * 10 ^ down) (10 ^ up) = Double.fin false m e)
  let r := p % q
  let preferLo := decide (2 * r < q) || (decide (2 * r = q) && lo % 2 == 0)
  if okLo && (!okHi || preferLo) then some (lo, n)
  else if okHi then (if hi = 10 ^ k then some (10 ^ (k - 1), n + 1) else some (hi, n))
  else none

/-- The text of the decimal `s × 10^(n-k)`, `k` being the number of digits of
`s`: plain digits up to 21 integer digits and down to six zeros behind the
point, the exponent form otherwise. -/
def renderDecimal (s : Nat) (n : Int) : String :=
  let ds := (toString s).data
  let k := ds.length
  if (k : Int) ≤ n ∧ n ≤ 21 then String.mk (ds ++ List.replicate (n - k).toNat '0')
  else if 0 < n ∧ n ≤ 21 then String.mk (ds.take n.toNat ++ '.' :: ds.drop n.toNat)
  else if -6 < n ∧ n ≤ 0 then String.mk ('0' :: '.' :: List.replicate (-n).toNat '0' ++ ds)
  else
    let sign := if n - 1 < 0 then "-" else "+"
    let digits := if k = 1 then String.mk ds else String.mk (ds.take 1 ++ '.' :: ds.drop 1)
    digits ++ "e" ++ sign ++ toString (n - 1).natAbs

/-- `Number::toString(x)`: the shortest decimal that reads back as `x`. -/
def Double.toString (x : Double) : String :=
  match x.normalize with
  | Double.nan => "NaN"
  | Double.inf false => "Infinity"
  | Double.inf true => "-Infinity"
  | Double.fin s m e =>
    if m = 0 then "0"
    else
      let n := decimalExponent m e
      match (List.range 17).findSome? (fun i => shortestDecimal m e n (i + 1)) with
      | some (digits, n1) => (if s then "-" else "") ++ renderDecimal digits n1
      | none => "NaN"

/-! ## JavaScript values and records -/

/-- JavaScript values that occur as column, field and criterion values:
the primitives, arrays and plain objects (own keys in key order). A number
with an integer value is `num n`; `float x` is a number that is not an
integer: a finite value with a fraction, `-0`, NaN or an infinity. -/
inductive JsValue where
  | undefined
  | null
  | bool (b : Bool)
  | num (n : Int)
  | float (x : Double)
  | str (s : String)
  | arr (items : List JsValue)
  | obj (fields : List (String × JsValue))

mutual
/-- Structural equality of two values, decided by recursion on the first. -/
def JsValue.decEq : (x y : JsValue) → Decidable (x = y)
  | JsValue.undefined, JsValue.undefined => isTrue rfl
  | JsValue.undefined, JsValue.null => isFalse (fun he => JsValue.noConfusion he)
  | JsValue.undefined, JsValue.bool _ => isFalse (fun he => JsValue.noConfusion he)
  | JsValue.undefined, JsValue.num _ => isFalse (fun he => JsValue.noConfusion he)
  | JsValue.undefined, JsValue.float _ => isFalse (fun he => JsValue.noConfusion he)
  | JsValue.undefined, JsValue.str _ => isFalse (fun he => JsValue.noConfusion he)
  | JsValue.undefined, JsValue.arr _ => isFalse (fun he => JsValue.noConfusion he)
  | JsValue.undefined, JsValue.obj _ => isFalse (fun he => JsValue.noConfusion he)
  | JsValue.null, JsValue.undefined => isFalse (fun he => JsValue.noConfusion he)
  | JsValue.null, JsValue.null => isTrue rfl
  | JsValue.null, JsValue.bool _ => isFalse (fun he => JsValue.noConfusion he)
  | JsValue.null, JsValue.num _ => isFalse (fun he => JsValue.noConfusion he)
  | JsValue.null, JsValue.float _ => isFalse (fun he => JsValue.noConfusion he)
  | JsValue.null, JsValue.str _ => isFalse (fun he => JsValue.noConfusion he)
  | JsValue.null, JsValue.arr _ => isFalse (fun he => JsValue.noConfusion he)
  | JsValue.null, JsValue.obj _ => isFalse (fun he => JsValue.noConfusion he)
  | JsValue.bool _, JsValue.undefined => isFalse (fun he => JsValue.noConfusion he)
  | JsValue.bool _, JsValue.null => isFalse (fun he => JsValue.noConfusion he)
  | JsValue.bool a, JsValue.bool b =>
    if h : a = b then isTrue (congrArg JsValue.bool h)
    else isFalse (fun he => h (JsValue.bool.inj he))
  | JsValue.bool _, JsValue.num _ => isFalse (fun he => JsValue.noConfusion he)
  | JsValue.bool _, JsValue.float _ => isFalse (fun he => JsValue.noConfusion he)
  | JsValue.bool _, JsValue.str _ => isFalse (fun he => JsValue.noConfusion he)
  | JsValue.bool _, JsValue.arr _ => isFalse (fun he => JsValue.noConfusion he)
  | JsValue.bool _, JsValue.obj _ => isFalse (fun he => JsValue.noConfusion he)
  | JsValue.num _, JsValue.undefined => isFalse (fun he => JsValue.noConfusion he)
  | JsValue.num _, JsValue.null => isFalse (fun he => JsValue.noConfusion he)
  | JsValue.num _, JsValue.bool _ => isFalse (fun he => JsValue.noConfusion he)
  | JsValue.num a, JsValue.num b =>
    if h : a = b then isTrue (congrArg JsValue.num h)
    else isFalse (fun he => h (JsValue.num.inj he))
  | JsValue.num _, JsValue.float _ => isFalse (fun he => JsValue.noConfusion he)
  | JsValue.num _, JsValue.str _ => isFalse (fun he => JsValue.noConfusion he)
  | JsValue.num _, JsValue.arr _ => isFalse (fun he => JsValue.noConfusion he)
  | JsValue.num _, JsValue.obj _ => isFalse (fun he => JsValue.noConfusion he)
  | JsValue.float _, JsValue.undefined => isFalse (fun he => JsValue.noConfusion he)
  | JsValue.float _, JsValue.null => isFalse (fun he => JsValue.noConfusion he)
  | JsValue.float _, JsValue.bool _ => isFalse (fun he => JsValue.noConfusion he)
  | JsValue.float _, JsValue.num _ => isFalse (fun he => JsValue.noConfusion he)
  | JsValue.float a, JsValue.float b =>
    if h : a = b then isTrue (congrArg JsValue.float h)
    else isFalse (fun he => h (JsValue.float.inj he))
  | JsValue.float _, JsValue.str _ => isFalse (fun he => JsValue.noConfusion he)
  | JsValue.float _, JsValue.arr _ => isFalse (fun he => JsValue.noConfusion he)
  | JsValue.float _, JsValue.obj _ => isFalse (fun he => JsValue.noConfusion he)
  | JsValue.str _, JsValue.undefined => isFalse (fun he => JsValue.noConfusion he)
  | JsValue.str _, JsValue.null => isFalse (fun he => JsValue.noConfusion he)
  | JsValue.str _, JsValue.bool _ => isFalse (fun he => JsValue.noConfusion he)
  | JsValue.str _, JsValue.num _ => isFalse (fun he => JsValue.noConfusion he)
  | JsValue.str _, JsValue.float _ => isFalse (fun he => JsValue.noConfusion he)
  | JsValue.str a, JsValue.str b =>
    if h : a = b then isTrue (congrArg JsValue.str h)
    else isFalse (fun he => h (JsValue.str.inj he))
  | JsValue.str _, JsValue.arr _ => isFalse (fun he => JsValue.noConfusion he)
  | JsValue.str _, JsValue.obj _ => isFalse (fun he => JsValue.noConfusion he)
  | JsValue.arr _, JsValue.undefined => isFalse (fun he => JsValue.noConfusion he)
  | JsValue.arr _, JsValue.null => isFalse (fun he => JsValue.noConfusion he)
  | JsValue.arr _, JsValue.bool _ => isFalse (fun he => JsValue.noConfusion he)
  | JsValue.arr _, JsValue.num _ => isFalse (fun he => JsValue.noConfusion he)
  | JsValue.arr _, JsValue.float _ => isFalse (fun he => JsValue.noConfusion he)
  | JsValue.arr _, JsValue.str _ => isFalse (fun he => JsValue.noConfusion he)
  | JsValue.arr a, JsValue.arr b =>
    match JsValue.decEqItems a b with
    | isTrue h => isTrue (congrArg JsValue.arr h)
    | isFalse h => isFalse (fun he => h (JsValue.arr.inj he))
  | JsValue.arr _, JsValue.obj _ => isFalse (fun he => JsValue.noConfusion he)
  | JsValue.obj _, JsValue.undefined => isFalse (fun he => JsValue.noConfusion he)
  | JsValue.obj _, JsValue.null => isFalse (fun he => JsValue.noConfusion he)
  | JsValue.obj _, JsValue.bool _ => isFalse (fun he => JsValue.noConfusion he)
  | JsValue.obj _, JsValue.num _ => isFalse (fun he => JsValue.noConfusion he)
  | JsValue.obj _, JsValue.float _ => isFalse (fun he => JsValue.noConfusion he)
  | JsValue.obj _, JsValue.str _ => isFalse (fun he => JsValue.noConfusion he)
  | JsValue.obj _, JsValue.arr _ => isFalse (fun he => JsValue.noConfusion he)
  | JsValue.obj a, JsValue.obj b =>
    match JsValue.decEqFields a b with
    | isTrue h => isTrue (congrArg JsValue.obj h)
    | isFalse h => isFalse (fun he => h (JsValue.obj.inj he))
/-- Structural equality of two arrays of values. -/
def JsValue.decEqItems : (x y : List JsValue) → Decidable (x = y)
  | [], [] => isTrue rfl
  | [], _ :: _ => isFalse (fun he => List.noConfusion he)
  | _ :: _, [] => isFalse (fun he => List.noConfusion he)
  | a :: as, b :: bs =>
    match JsValue.decEq a b, JsValue.decEqItems as bs with
    | isTrue h, isTrue hs => isTrue (by rw [h, hs])
    | isFalse h, _ => isFalse (fun he => h (List.cons.inj he).1)
    | _, isFalse hs => isFalse (fun he => hs (List.cons.inj he).2)
/-- Structural equality of the fields of two objects. -/
def JsValue.decEqFields : (x y : List (String × JsValue)) → Decidable (x = y)
  | [], [] => isTrue rfl
  | [], _ :: _ => isFalse (fun he => List.noConfusion he)
  | _ :: _, [] => isFalse (fun he => List.noConfusion he)
  | (k, a) :: as, (l, b) :: bs =>
    if hk : k = l then
      match JsValue.decEq a b, JsValue.decEqFields as bs with
      | isTrue h, isTrue hs => isTrue (by rw [hk, h, hs])
      | isFalse h, _ => isFalse (fun he => h (Prod.mk.inj (List.cons.inj he).1).2)
      | _, isFalse hs => isFalse (fun he => hs (List.cons.inj he).2)
    else isFalse (fun he => hk (Prod.mk.inj (List.cons.inj he).1).1)
end

instance : DecidableEq JsValue := JsValue.decEq

/-- A plain object: its own enumerable keys with their values, in key order. -/
abbrev Row := List (String × JsValue)

/-- `Object.keys(obj)`. -/
def objectKeys (obj : Row) : List String :=
  obj.map Prod.fst

/-- Property read `obj[key]`: `undefined` when the key is not an own key. -/
def getProp (obj : Row) (key : String) : JsValue :=
  match obj.lookup key with
  | some v => v
  | none => JsValue.undefined

/-- `value === null || value === undefined`. -/
def isNullish (value : JsValue) : Bool :=
  match value with
  | JsValue.null => true
  | JsValue.undefined => true
  | _ => false

/-- `String.prototype.startsWith`, on the characters of both strings. -/
def startsWith (s searchString : String) : Bool :=
  searchString.data.isPrefixOf s.data

/-- `String.prototype.slice(start)`: the characters from position `start` on.
The accessor only calls it as `slice(1)` behind a leading `-`, where one
character is one UTF-16 code unit. -/
def slice (s : String) (start : Nat) : String :=
  String.mk (s.data.drop start)

/-! ## The query builder -/

/-- One filter of a query: `.eq(column, value)` or `.is(column, value)`. -/
inductive Filter where
  | eq (column : String) (value : JsValue)
  | is (column : String) (value : JsValue)
  deriving DecidableEq

/-- One `.order(column, { ascending })` clause. -/
structure OrderClause where
  column : String
  ascending : Bool
  deriving DecidableEq, Repr

/-- What the request does to the table. `start` is the builder returned by
`supabase.from(table)` before any verb is chosen. -/
inductive Verb where
  | start
  | select (columns : String)
  | insert (values : Row)
  | update (values : Row)
  | delete
  deriving DecidableEq

/-- The request accumulated by the builder chain. -/
structure Query where
  table : String
  verb : Verb
  filters : List Filter
  orders : List OrderClause
  returning : Bool
  single : Bool
  deriving DecidableEq

/-- `supabase.from(tableName)`. -/
def supabaseFrom (tableName : String) : Query :=
  { table := tableName, verb := Verb.start, filters := [], orders := [],
    returning := false, single := false }

/-- `.select(columns)`: chooses the read verb on a fresh builder, and asks a
mutation to return the rows it wrote. -/
def Query.select (q : Query) (columns : String) : Query :=
  match q.verb with
  | Verb.start => { q with verb := Verb.select columns }
  | _ => { q with returning := true }

/-- `.eq(column, value)`. -/
def Query.eq (q : Query) (column : String) (value : JsValue) : Query :=
  { q with filters := q.filters ++ [Filter.eq column value] }

/-- `.is(column, value)`. -/
def Query.is (q : Query) (column : String) (value : JsValue) : Query :=
  { q with filters := q.filters ++ [Filter.is column value] }

/-- `.order(column, { ascending })`. -/
def Query.order (q : Query) (column : String) (ascending : Bool) : Query :=
  { q with orders := q.orders ++ [OrderClause.mk column ascending] }

/-- `.insert(values)`. -/
def Query.insert (q : Query) (values : Row) : Query :=
  { q with verb := Verb.insert values }

/-- `.update(values)`. -/
def Query.update (q : Query) (values : Row) : Query :=
  { q with verb := Verb.update values }

/-- `.delete()`. -/
def Query.delete (q : Query) : Query :=
  { q with verb := Verb.delete }

/-- `.maybeSingle()`. -/
def Query.maybeSingle (q : Query) : Query :=
  { q with single := true }

/-! ## Responses and the store -/

/-- The error object of a response. -/
structure PostgrestError where
  message : String
  code : String
  deriving DecidableEq, Repr

/-- The `data` field of a response, as the accessor can receive it. -/
inductive Data where
  | undefined
  | null
  | rows (rs : List Row)
  | row (r : Row)
  deriving DecidableEq

/-- The `{ data, error }` object a query resolves to. A null or undefined
`error` is `none`. -/
structure Response where
  data : Data
  error : Option PostgrestError
  deriving DecidableEq

deriving instance DecidableEq for Except

/-- The backing store: `await query` in store state `s`. -/
abbrev Store (σ : Type) := Query → σ → Response × σ

/-- `data || []`: arrays and objects are truthy, null and undefined are not. -/
def orEmpty (data : Data) : Data :=
  match data with
  | Data.undefined => Data.rows []
  | Data.null => Data.rows []
  | d => d

/-! ## `createEntityAPI(tableName)` -/

/-- The query `list(order)` has built when it reaches `await`. An absent
`order` is `none`; `if (order)` is false for it and for the empty string. -/
def listQuery (tableName : String) (order : Option String) : Query :=
  let query := (supabaseFrom tableName).select "*"
  match order with
  | none => query
  | some order =>
    if order = "" then query
    else
      let ascending := !startsWith order "-"
      let col := if ascending then order else slice order 1
      query.order col ascending

/-- `list(order)`. -/
def list {σ : Type} (store : Store σ) (tableName : String)
    (order : Option String) (s : σ) : Except PostgrestError Data × σ :=
  let (resp, s1) := store (listQuery tableName order) s
  match resp.error with
  | some error => (Except.error error, s1)
  | none => (Except.ok (orEmpty resp.data), s1)

/-- The query `filter(criteria, order)` has built when it reaches `await`.
An absent `criteria` is `none` and takes the default `{}`. -/
def filterQuery (tableName : String) (criteria : Option Row)
    (order : Option String) : Query :=
  let criteria := criteria.getD []
  let query := (supabaseFrom tableName).select "*"
  let query := (objectKeys criteria).foldl (fun query key =>
    let value := getProp criteria key
    if isNullish value then query.is key JsValue.null
    else query.eq key value) query
  match order with
  | none => query
  | some order =>
    if order = "" then query
    else
      let ascending := !startsWith order "-"
      let col := if ascending then order else slice order 1
      query.order col ascending

/-- `filter(criteria, order)`. -/
def filter {σ : Type} (store : Store σ) (tableName : String)
    (criteria : Option Row) (order : Option String) (s : σ) :
    Except PostgrestError Data × σ :=
  let (resp, s1) := store (filterQuery tableName criteria order) s
  match resp.error with
  | some error => (Except.error error, s1)
  | none => (Except.ok (orEmpty resp.data), s1)

/-- The query of `create(values)`. -/
def createQuery (tableName : String) (values : Row) : Query :=
  (((supabaseFrom tableName).insert values).select "*").maybeSingle

/-- `create(values)`. -/
def create {σ : Type} (store : Store σ) (tableName : String)
    (values : Row) (s : σ) : Except PostgrestError Data × σ :=
  let (resp, s1) := store (createQuery tableName values) s
  match resp.error with
  | some error => (Except.error error, s1)
  | none => (Except.ok resp.data, s1)

/-- The query of `update(id, values)`. -/
def updateQuery (tableName : String) (id : JsValue) (values : Row) : Query :=
  ((((supabaseFrom tableName).update values).eq "id" id).select "*").maybeSingle

/-- `update(id, values)`. -/
def update {σ : Type} (store : Store σ) (tableName : String)
    (id : JsValue) (values : Row) (s : σ) : Except PostgrestError Data × σ :=
  let (resp, s1) := store (updateQuery tableName id values) s
  match resp.error with
  | some error => (Except.error error, s1)
  | none => (Except.ok resp.data, s1)

/-- The query of `delete(id)`. -/
def deleteQuery (tableName : String) (id : JsValue) : Query :=
  ((supabaseFrom tableName).delete).eq "id" id

/-- `delete(id)`. -/
def delete {σ : Type} (store : Store σ) (tableName : String)
    (id : JsValue) (s : σ) : Except PostgrestError Bool × σ :=
  let (resp, s1) := store (deleteQuery tableName id) s
  match resp.error with
  | some error => (Except.error error, s1)
  | none => (Except.ok true, s1)

/-- `User.list()`: the `users` table read with no order. -/
def User.listQuery : Query :=
  (supabaseFrom "users").select "*"

/-- `User.list()`. -/
def User.list {σ : Type} (store : Store σ) (s : σ) :
    Except PostgrestError Data × σ :=
  let (resp, s1) := store User.listQuery s
  match resp.error with
  | some error => (Except.error error, s1)
  | none => (Except.ok (orEmpty resp.data), s1)

/-! ## A reference store

The hosted database is outside the repository. The model below fixes the
behaviour the accessor relies on: a table is a list of rows in storage order,
`eq` and `is` filters are evaluated per row and joined by AND, `id` is the
primary key (never null, never shared by two rows), and `maybeSingle` answers
null for no row, the row for one row and an error for several. -/

/-- The state of the reference store: the rows of every table. -/
abbrev Db := String → List Row

/-- The value of a column of a stored row: SQL NULL when the row has no value
for it. -/
def column (r : Row) (c : String) : JsValue :=
  match getProp r c with
  | JsValue.undefined => JsValue.null
  | v => v

/-- Whether a row passes one filter. `eq` is SQL equality, which no NULL
satisfies; `is` compares with the given NULL or boolean. -/
def Filter.holds (r : Row) : Filter → Bool
  | Filter.eq c v => !isNullish v && decide (column r c = v)
  | Filter.is c v => decide (column r c = v)

/-- Whether a row passes every filter of a request. -/
def passes (filters : List Filter) (r : Row) : Bool :=
  filters.all (Filter.holds r)

/-- The sort order of column values: numbers, strings and booleans in their
own order, values of different kinds by kind, NULL after everything. -/
def valueLe : JsValue → JsValue → Bool
  | JsValue.num a, JsValue.num b => decide (a ≤ b)
  | JsValue.num a, JsValue.float y => (Double.ofInt a).le y
  | JsValue.float x, JsValue.num b => x.le (Double.ofInt b)
  | JsValue.float x, JsValue.float y => x.le y
  | JsValue.str a, JsValue.str b => decide (a ≤ b)
  | JsValue.bool a, JsValue.bool b => !a || b
  | _, JsValue.null => true
  | _, JsValue.undefined => true
  | JsValue.null, _ => false
  | JsValue.undefined, _ => false
  | JsValue.bool _, _ => true
  | _, JsValue.bool _ => false
  | JsValue.num _, _ => true
  | _, JsValue.num _ => false
  | JsValue.float _, _ => true
  | _, JsValue.float _ => false
  | JsValue.str _, _ => true
  | _, JsValue.str _ => false
  | JsValue.arr _, _ => true
  | _, JsValue.arr _ => false
  | JsValue.obj _, JsValue.obj _ => true

/-- Whether row `a` may stand before row `b` under the order clauses, the
first clause being the most significant. -/
def rowLe : List OrderClause → Row → Row → Bool
  | [], _, _ => true
  | c :: cs, a, b =>
    let x := column a c.column
    let y := column b c.column
    if x = y then rowLe cs a b
    else if c.ascending then valueLe x y else valueLe y x

/-- Insertion of a row into a list sorted by the order clauses. -/
def insertRow (cs : List OrderClause) (a : Row) : List Row → List Row
  | [] => [a]
  | b :: l => if rowLe cs a b then a :: b :: l else b :: insertRow cs a l

/-- Stable sort of rows by the order clauses. -/
def sortRows (cs : List OrderClause) (rs : List Row) : List Row :=
  rs.foldr (insertRow cs) []

/-- Write of one field: replaces the value of an own key, appends a new key. -/
def setProp (obj : Row) (key : String) (value : JsValue) : Row :=
  if (objectKeys obj).contains key then
    obj.map (fun kv => if kv.1 = key then (key, value) else kv)
  else obj ++ [(key, value)]

/-- The row after the fields of `values` are written into it. -/
def assign (r values : Row) : Row :=
  values.foldl (fun acc kv => setProp acc kv.1 kv.2) r

/-- The primary key of a stored row. -/
def idOf (r : Row) : JsValue :=
  column r "id"

/-- The largest integer used as an id, 0 when there is none. -/
def maxNumId : List Row → Int
  | [] => 0
  | r :: rs =>
    match idOf r with
    | JsValue.num n => max n (maxNumId rs)
    | _ => maxNumId rs

/-- The id the store assigns to an inserted row that brings none. -/
def freshId (rs : List Row) : JsValue :=
  JsValue.num (maxNumId rs + 1)

/-- The primary-key constraint on a table: every row has an id and no two
rows share one. -/
def validIds (rs : List Row) : Bool :=
  rs.all (fun r => !isNullish (idOf r)) && decide ((rs.map idOf).Nodup)

/-- The response for the rows a request produced: null when a mutation asked
for no rows back, else the `maybeSingle` answer or the array. -/
def shape (q : Query) (rs : List Row) : Response :=
  if !q.returning then { data := Data.null, error := none }
  else if q.single then
    match rs with
    | [] => { data := Data.null, error := none }
    | [r] => { data := Data.row r, error := none }
    | _ => { data := Data.null,
             error := some { message := "JSON object requested, multiple (or no) rows returned",
                             code := "PGRST116" } }
  else { data := Data.rows rs, error := none }

/-- The error of a write that breaks the primary-key constraint. -/
def duplicateKey : PostgrestError :=
  { message := "duplicate key value violates unique constraint", code := "23505" }

/-- Replacement of the rows of one table. -/
def setTable (db : Db) (t : String) (rs : List Row) : Db :=
  fun t1 => if t1 = t then rs else db t1

/-- The reference store. A request that ends in an error changes nothing. -/
def refStore : Store Db := fun q db =>
  let coll := db q.table
  match q.verb with
  | Verb.start =>
    ({ data := Data.null, error := some { message := "no verb", code := "PGRST100" } }, db)
  | Verb.select _ =>
    (shape { q with returning := true } (sortRows q.orders (coll.filter (passes q.filters))), db)
  | Verb.insert values =>
    let r := if isNullish (getProp values "id") then setProp values "id" (freshId coll) else values
    let resp := shape q [r]
    if validIds (coll ++ [r]) then
      match resp.error with
      | some e => ({ data := Data.null, error := some e }, db)
      | none => (resp, setTable db q.table (coll ++ [r]))
    else ({ data := Data.null, error := some duplicateKey }, db)
  | Verb.update values =>
    let next := coll.map (fun r => if passes q.filters r then assign r values else r)
    let resp := shape q ((coll.filter (passes q.filters)).map (fun r => assign r values))
    if next = coll ∨ validIds next then
      match resp.error with
      | some e => ({ data := Data.null, error := some e }, db)
      | none => (resp, setTable db q.table next)
    else ({ data := Data.null, error := some duplicateKey }, db)
  | Verb.delete =>
    let resp := shape q (coll.filter (passes q.filters))
    match resp.error with
    | some e => ({ data := Data.null, error := some e }, db)
    | none => (resp, setTable db q.table (coll.filter (fun r => !passes q.filters r)))

/-- A small table of leads used by the examples. -/
def sampleLeads : List Row :=
  [ [("id", JsValue.num 1), ("status", JsValue.str "booked"), ("notes", JsValue.null)],
    [("id", JsValue.num 2), ("status", JsValue.str "assigned"), ("notes", JsValue.str "call")],
    [("id", JsValue.num 3), ("status", JsValue.str "booked"), ("notes", JsValue.str "")] ]

/-- A store state holding the sample leads and nothing else. -/
def sampleDb : Db :=
  fun t => if t = "leads" then sampleLeads else []

/-! ## More of JavaScript: truthiness, spread, text -/

/-- Truthiness of a value: false for undefined, null, false, 0, -0, NaN and
the empty string, true for everything else. -/
def truthy (v : JsValue) : Bool :=
  match v with
  | JsValue.undefined => false
  | JsValue.null => false
  | JsValue.bool b => b
  | JsValue.num n => decide (n ≠ 0)
  | JsValue.float Double.nan => false
  | JsValue.float (Double.inf _) => true
  | JsValue.float (Double.fin _ m _) => decide (m ≠ 0)
  | JsValue.str s => decide (s ≠ "")
  | JsValue.arr _ => true
  | JsValue.obj _ => true

/-- A thrown `TypeError`. -/
structure TypeError where
  message : String
  deriving DecidableEq, Repr

/-- Property read `v.key` on a value that is neither null nor undefined: the
own property of an object, `undefined` on a primitive or an array. Inherited
properties are not modelled. -/
def field (v : JsValue) (key : String) : JsValue :=
  match v with
  | JsValue.obj fields => getProp fields key
  | _ => JsValue.undefined

/-- Property read `v.key` on any value: a `TypeError` on null and undefined. -/
def member (v : JsValue) (key : String) : Except TypeError JsValue :=
  match v with
  | JsValue.undefined =>
    Except.error { message := "Cannot read properties of undefined" }
  | JsValue.null => Except.error { message := "Cannot read properties of null" }
  | _ => Except.ok (field v key)

/-- `a || b`. -/
def orElse (a b : JsValue) : JsValue :=
  if truthy a then a else b

/-- `Array.prototype.filter` with a callback that can throw: the elements
are tested in order and the first throw ends the call. -/
def arrayFilter (p : JsValue → Except TypeError Bool) :
    List JsValue → Except TypeError (List JsValue)
  | [] => Except.ok []
  | item :: rest =>
    match p item with
    | Except.error e => Except.error e
    | Except.ok keep =>
      match arrayFilter p rest with
      | Except.error e => Except.error e
      | Except.ok kept => Except.ok (if keep then item :: kept else kept)

/-- Object spread `{ ...target, ...source }` on top of the fields `target`
already written: every own key of `source` is written with the value read
from `source`, a key already present keeping its place. -/
def spread (target source : Row) : Row :=
  (objectKeys source).foldl (fun acc key => setProp acc key (getProp source key)) target

mutual
/-- The text of a value in a template literal. -/
def toStr : JsValue → String
  | JsValue.undefined => "undefined"
  | JsValue.null => "null"
  | JsValue.bool true => "true"
  | JsValue.bool false => "false"
  | JsValue.num n => toString n
  | JsValue.float x => x.toString
  | JsValue.str s => s
  | JsValue.arr items => toStrItems items
  | JsValue.obj _ => "[object Object]"
/-- The text of an array: its elements' texts joined by commas, null and
undefined elements giving the empty text. -/
def toStrItems : List JsValue → String
  | [] => ""
  | [JsValue.undefined] => ""
  | [JsValue.null] => ""
  | [x] => toStr x
  | JsValue.undefined :: rest => "," ++ toStrItems rest
  | JsValue.null :: rest => "," ++ toStrItems rest
  | x :: rest => toStr x ++ "," ++ toStrItems rest
end

/-- `Array.prototype.join(separator)` on an array of strings. -/
def join (xs : List String) (separator : String) : String :=
  match xs with
  | [] => ""
  | [x] => x
  | x :: rest => x ++ separator ++ join rest separator

/-- A store that also keeps the list of the requests it was sent. -/
def logged {σ : Type} (store : Store σ) : Store (σ × List Query) :=
  fun q sl =>
    let (resp, s1) := store q sl.1
    (resp, (s1, sl.2 ++ [q]))

/-! ## `User.me` -/

/-- The user of an auth session. -/
structure AuthUser where
  id : JsValue
  email : JsValue
  user_metadata : Row
  deriving DecidableEq

/-- An auth session; `user` is `none` when the session has no user. -/
structure Session where
  user : Option AuthUser
  deriving DecidableEq

/-- The error object of the auth service. -/
structure AuthError where
  message : String
  status : Int
  deriving DecidableEq, Repr

/-- What `supabase.auth.getSession()` resolves to: `{ data: { session }, error }`,
a null session and a null error being `none`. -/
structure AuthResponse where
  session : Option Session
  error : Option AuthError
  deriving DecidableEq

/-- `profile || {}` for the answer of the `maybeSingle` profile read: the
row, or the empty object when there is none. `maybeSingle` never resolves to
an array; an array is given no fields here. -/
def orEmptyObject (data : Data) : Row :=
  match data with
  | Data.row r => r
  | _ => []

/-- The profile read of `User.me`. -/
def User.profileQuery (email : JsValue) : Query :=
  (((supabaseFrom "users").select "*").eq "email" email).maybeSingle

/-- `User.me()`, given what `getSession()` resolved to. `none` is the null
result. -/
def User.me {σ : Type} (getSession : AuthResponse) (store : Store σ) (s : σ) :
    Except AuthError (Option Row) × σ :=
  match getSession.error with
  | some sessionError => (Except.error sessionError, s)
  | none =>
    match getSession.session.bind (fun session => session.user) with
    | none => (Except.ok none, s)
    | some authUser =>
      let (resp, s1) := store (User.profileQuery authUser.email) s
      let combined :=
        spread (spread [("id", authUser.id), ("email", authUser.email)] authUser.user_metadata)
          (orEmptyObject resp.data)
      match resp.error with
      | some _ => (Except.ok (some combined), s1)
      | none => (Except.ok (some combined), s1)

/-- A signed-in user used by the examples. -/
def sampleUser : AuthUser :=
  { id := JsValue.str "u-1", email := JsValue.str "jo@example.com",
    user_metadata := [("full_name", JsValue.str "Jo"), ("role", JsValue.str "user")] }

/-- A store state with one profile row for the sample user. -/
def profileDb : Db :=
  fun t => if t = "users" then
    [[("id", JsValue.num 7), ("email", JsValue.str "jo@example.com"),
      ("role", JsValue.str "admin")]]
  else []

/-! ## Configuration (`ConfigurationManager.jsx`, `Layout.jsx`) -/

/-- `AppConfiguration = createEntityAPI('app_configurations')`: its table. -/
def AppConfiguration : String := "app_configurations"

/-- One navigation item literal. -/
def navItem (title page icon : String) (order : Int) : JsValue :=
  JsValue.obj [("title", JsValue.str title), ("page", JsValue.str page),
    ("icon", JsValue.str icon), ("is_active", JsValue.bool true), ("order", JsValue.num order)]

/-- One external tool literal. -/
def externalTool (title url description icon : String) : JsValue :=
  JsValue.obj [("title", JsValue.str title), ("url", JsValue.str url),
    ("description", JsValue.str description), ("icon", JsValue.str icon),
    ("is_active", JsValue.bool true)]

/-- `defaultNavItems` of `ConfigurationManager.jsx`. -/
def ConfigurationManager.defaultNavItems : List JsValue :=
  [ navItem "Dashboard" "Dashboard" "LayoutDashboard" 1,
    navItem "Leads" "Leads" "Users" 2,
    navItem "Resources" "Resources" "BookOpen" 3,
    navItem "Commissions" "Commissions" "TrendingUp" 4,
    navItem "Support" "Support" "MessageCircle" 5 ]

/-- `defaultExternalTools` of `ConfigurationManager.jsx`. -/
def ConfigurationManager.defaultExternalTools : List JsValue :=
  [ externalTool "AI Assistant" "https://ai.byteblitz.co.uk" "Internal GPT assistant" "Brain",
    externalTool "Automation" "https://n8n.byteblitz.co.uk" "Workflow dashboard" "Zap",
    externalTool "Email Campaigns" "https://mautic.byteblitz.co.uk" "Campaign management" "Mail",
    externalTool "CRM System" "https://crm.byteblitz.co.uk" "Client tracking" "Database",
    externalTool "Booking System" "https://cal.byteblitz.co.uk" "Schedule meetings" "Calendar" ]

/-- `defaultConfig` of `loadConfiguration`. -/
def ConfigurationManager.defaultConfig : Row :=
  [ ("app_name", JsValue.str "ByteBlitz Staff Hub"),
    ("app_tagline", JsValue.str "Digital Agency CRM"),
    ("primary_color", JsValue.str "#8B5CF6"),
    ("secondary_color", JsValue.str "#EC4899"),
    ("company_phone", JsValue.str "07359 735508"),
    ("navigation_items", JsValue.arr ConfigurationManager.defaultNavItems),
    ("external_tools", JsValue.arr ConfigurationManager.defaultExternalTools) ]

/-- The state of the `ConfigurationManager` component that `loadConfiguration`
writes: `config` (initially null) and `loading` (initially true). -/
structure ConfigurationManager.State where
  config : Data
  loading : Bool
  deriving DecidableEq

/-- The state of a freshly mounted `ConfigurationManager`. -/
def ConfigurationManager.initial : ConfigurationManager.State :=
  { config := Data.null, loading := true }

/-- `loadConfiguration()` of `ConfigurationManager.jsx`. A raised error is
caught and only logged, so the configuration stays what it was.
`configs.length > 0` holds exactly for a non-empty array; `list` resolves to
an array. -/
def ConfigurationManager.loadConfiguration {σ : Type} (store : Store σ)
    (st : ConfigurationManager.State) (s : σ) : ConfigurationManager.State × σ :=
  match list store AppConfiguration none s with
  | (Except.error _, s1) => ({ st with loading := false }, s1)
  | (Except.ok configs, s1) =>
    match configs with
    | Data.rows (first :: _) => ({ config := Data.row first, loading := false }, s1)
    | _ =>
      match create store AppConfiguration ConfigurationManager.defaultConfig s1 with
      | (Except.error _, s2) => ({ st with loading := false }, s2)
      | (Except.ok newConfig, s2) => ({ config := newConfig, loading := false }, s2)

/-- `defaultNavItems` of `Layout.jsx`. -/
def Layout.defaultNavItems : List JsValue :=
  [ navItem "Dashboard" "Dashboard" "LayoutDashboard" 1,
    navItem "Leads" "Leads" "Users" 2,
    navItem "Resources" "Resources" "BookOpen" 3,
    navItem "Commissions" "Commissions" "TrendingUp" 4,
    navItem "Support" "Support" "MessageCircle" 5 ]

/-- `defaultExternalTools` of `Layout.jsx`. -/
def Layout.defaultExternalTools : List JsValue :=
  [ externalTool "AI Assistant" "https://ai.byteblitz.co.uk" "Internal GPT assistant" "Brain",
    externalTool "Automation Hub" "https://n8n.byteblitz.co.uk" "Workflow automation" "Zap",
    externalTool "Email Campaigns" "https://mautic.byteblitz.co.uk" "Campaign management" "Mail",
    externalTool "CRM System" "https://crm.byteblitz.co.uk" "Client tracking" "Database",
    externalTool "Booking System" "https://cal.byteblitz.co.uk" "Schedule meetings" "Calendar" ]

/-- The keys of `iconMap` in `Layout.jsx`; an icon component is named by its
key. -/
def Layout.iconMap : List String :=
  ["LayoutDashboard", "Users", "BookOpen", "TrendingUp", "MessageCircle", "Settings",
   "ExternalLink", "Zap", "Brain", "Mail", "Database", "Calendar", "Shield"]

/-- `iconMap[icon] || LayoutDashboard`: the key is the text of `icon`. -/
def Layout.iconFor (icon : JsValue) : JsValue :=
  if toStr icon ∈ Layout.iconMap then JsValue.str (toStr icon)
  else JsValue.str "LayoutDashboard"

/-- `item.is_active !== false`. -/
def Layout.isActive (item : JsValue) : Except TypeError Bool :=
  match member item "is_active" with
  | Except.error e => Except.error e
  | Except.ok flag => Except.ok (decide (flag ≠ JsValue.bool false))

/-- The number `item.order || 0` is in the comparator of the sort. An integer
is itself and `true` is 1; undefined, null, `false` and the empty string give
0. The conversion of other strings, arrays and objects, which can be NaN, and
an order that is not an integer are not modelled: they count as 0. -/
def Layout.orderKey (item : JsValue) : Int :=
  match field item "order" with
  | JsValue.num n => n
  | JsValue.bool true => 1
  | _ => 0

/-- The order `(a, b) => (a.order || 0) - (b.order || 0)` sorts by: `a` may
stand before `b`. -/
def Layout.orderLe (a b : JsValue) : Prop :=
  Layout.orderKey a ≤ Layout.orderKey b

instance Layout.orderLe.decidable : DecidableRel Layout.orderLe :=
  fun a b => Int.decLe (Layout.orderKey a) (Layout.orderKey b)

/-- The object each navigation item is mapped to. `createPageUrl` comes from
`@/utils`. -/
def Layout.navLink (createPageUrl : JsValue → JsValue) (item : JsValue) : JsValue :=
  JsValue.obj [("title", field item "title"), ("url", createPageUrl (field item "page")),
    ("page", field item "page"), ("icon", Layout.iconFor (field item "icon"))]

/-- `config?.navigation_items`, `config` being null or a row. -/
def Layout.configField (config : Option Row) (key : String) : JsValue :=
  match config with
  | none => JsValue.undefined
  | some row => getProp row key

/-- `getNavigationItems()` of `Layout.jsx`: the links it returns, and the
contents of the array `navItems` after the call. `filter` returns a new
array and leaves its receiver; `sort` reorders its receiver, which here is
that new array, and is stable. A `navItems` that is not an array has no
`filter`. -/
def Layout.getNavigationItems (createPageUrl : JsValue → JsValue) (config : Option Row) :
    Except TypeError (List JsValue × List JsValue) :=
  let navItems := orElse (Layout.configField config "navigation_items")
    (JsValue.arr Layout.defaultNavItems)
  match navItems with
  | JsValue.arr items =>
    match arrayFilter Layout.isActive items with
    | Except.error e => Except.error e
    | Except.ok activeNavItems =>
      let activeNavItems := activeNavItems.insertionSort Layout.orderLe
      Except.ok (activeNavItems.map (Layout.navLink createPageUrl), items)
  | _ => Except.error { message := "navItems.filter is not a function" }

/-- `getExternalTools()` of `Layout.jsx`. -/
def Layout.getExternalTools (config : Option Row) : Except TypeError (List JsValue) :=
  let tools := orElse (Layout.configField config "external_tools")
    (JsValue.arr Layout.defaultExternalTools)
  match tools with
  | JsValue.arr items => arrayFilter Layout.isActive items
  | _ => Except.error { message := "tools.filter is not a function" }

/-- Four navigation items: one switched off, one without flag and order, two
out of order. -/
def sampleNavItems : List JsValue :=
  [ JsValue.obj [("title", JsValue.str "Support"), ("page", JsValue.str "Support"),
      ("icon", JsValue.str "MessageCircle"), ("is_active", JsValue.bool true),
      ("order", JsValue.num 5)],
    JsValue.obj [("title", JsValue.str "Leads"), ("page", JsValue.str "Leads"),
      ("icon", JsValue.str "Users"), ("is_active", JsValue.bool false),
      ("order", JsValue.num 2)],
    JsValue.obj [("title", JsValue.str "Home"), ("page", JsValue.str "Dashboard"),
      ("icon", JsValue.str "Rocket")],
    JsValue.obj [("title", JsValue.str "Resources"), ("page", JsValue.str "Resources"),
      ("icon", JsValue.str "BookOpen"), ("is_active", JsValue.bool true),
      ("order", JsValue.num 3)] ]

/-- Three external tools: one switched off, one without flag, one with a null
flag. -/
def sampleTools : List JsValue :=
  [ JsValue.obj [("title", JsValue.str "Wiki"), ("is_active", JsValue.bool false)],
    JsValue.obj [("title", JsValue.str "Mail")],
    JsValue.obj [("title", JsValue.str "CRM"), ("is_active", JsValue.null)] ]

/-- A configuration row with the sample navigation items and tools. -/
def sampleConfig : Row :=
  [ ("id", JsValue.num 1),
    ("navigation_items", JsValue.arr sampleNavItems),
    ("external_tools", JsValue.arr sampleTools) ]

/-! ## Commission totals (`Admin.jsx`, `CommissionManagement.jsx`, `Commissions.jsx`) -/

/-- `!sale.commission_paid`. -/
def notPaid (sale : Row) : Bool :=
  !truthy (getProp sale "commission_paid")

/-- `sum + (sale.commission_amount || 0)`. A number is added to a number
with the rounding of the format, and `true` adds 1. `none` is a result that
is not a number: with a string, an array or an object as amount `+` joins
texts, and so does every later `+`. -/
def addCommission (sum : Option Double) (sale : Row) : Option Double :=
  match sum with
  | none => none
  | some total =>
    match orElse (getProp sale "commission_amount") (JsValue.num 0) with
    | JsValue.num n => some (total.add (Double.ofInt n))
    | JsValue.float x => some (total.add x)
    | JsValue.bool true => some (total.add (Double.ofInt 1))
    | _ => none

/-- `unpaidCommissions` of `loadAdminData` in `Admin.jsx`. -/
def Admin.unpaidCommissions (sales : List Row) : Option Double :=
  (sales.filter (fun sale => notPaid sale)).foldl (fun sum sale => addCommission sum sale)
    (some Double.zero)

/-- `totalUnpaid` of `CommissionManagement.jsx`. -/
def CommissionManagement.totalUnpaid (sales : List Row) : Option Double :=
  let unpaidSales := sales.filter (fun sale => notPaid sale)
  unpaidSales.foldl (fun sum sale => addCommission sum sale) (some Double.zero)

/-- `pendingPayout` of `loadCommissionData` in `Commissions.jsx`. -/
def Commissions.pendingPayout (userSales : List Row) : Option Double :=
  (userSales.filter (fun sale => notPaid sale)).foldl
    (fun sum sale => addCommission sum sale) (some Double.zero)

/-- Two sales: 50 unpaid and 30 paid. -/
def sampleSales : List Row :=
  [ [("commission_amount", JsValue.num 50), ("commission_paid", JsValue.bool false)],
    [("commission_amount", JsValue.num 30), ("commission_paid", JsValue.bool true)] ]

/-! ## Lead export (`Leads.jsx`) -/

/-- The `filters` state of the `Leads` page. -/
structure Leads.Filters where
  status : String
  industry : String
  region : String
  deriving DecidableEq, Repr

/-- `getFilteredLeads()` of `Leads.jsx`. -/
def Leads.getFilteredLeads (leads : List Row) (filters : Leads.Filters) : List Row :=
  leads.filter (fun lead =>
    if filters.status ≠ "all" ∧ getProp lead "status" ≠ JsValue.str filters.status then false
    else if filters.industry ≠ "all" ∧ getProp lead "industry" ≠ JsValue.str filters.industry
      then false
    else if filters.region ≠ "all" ∧ getProp lead "region" ≠ JsValue.str filters.region
      then false
    else true)

/-- `csvContent` of `exportLeads()` in `Leads.jsx`, the text handed to the
download. -/
def Leads.exportLeads (leads : List Row) (filters : Leads.Filters) : String :=
  let filteredLeads := Leads.getFilteredLeads leads filters
  join
    ([join ["Company", "Contact", "Email", "Phone", "Industry", "Region", "Status", "Notes"] ","]
      ++ filteredLeads.map (fun lead =>
        join
          ([ getProp lead "company_name",
             getProp lead "contact_name",
             orElse (getProp lead "email") (JsValue.str ""),
             orElse (getProp lead "phone") (JsValue.str ""),
             getProp lead "industry",
             getProp lead "region",
             getProp lead "status",
             orElse (getProp lead "notes") (JsValue.str "") ].map
            (fun field => "\"" ++ toStr field ++ "\""))
          ","))
    "\n"

/-- Two leads: one with every field, one without email, phone and notes. -/
def sampleExport : List Row :=
  [ [("company_name", JsValue.str "Acme"), ("contact_name", JsValue.str "Jo"),
     ("email", JsValue.str "jo@acme.io"), ("phone", JsValue.str "0123"),
     ("industry", JsValue.str "Retail"), ("region", JsValue.str "North"),
     ("status", JsValue.str "booked"), ("notes", JsValue.str "call back")],
    [("company_name", JsValue.str "Bolt"), ("contact_name", JsValue.str "Al"),
     ("industry", JsValue.str "Tech"), ("region", JsValue.str "South"),
     ("status", JsValue.str "assigned")] ]

/-! ## Dashboard counts and commission stats (`Dashboard.jsx`, `Commissions.jsx`) -/

/-- `contactedLeads` of `loadDashboardData` in `Dashboard.jsx`. -/
def Dashboard.contactedLeads (userLeads : List Row) : Nat :=
  (userLeads.filter (fun lead =>
    decide (getProp lead "status" ∈
      [JsValue.str "contacted", JsValue.str "replied", JsValue.str "booked",
       JsValue.str "closed"]))).length

/-- `bookedLeads` of `loadDashboardData` in `Dashboard.jsx`. -/
def Dashboard.bookedLeads (userLeads : List Row) : Nat :=
  (userLeads.filter (fun lead => decide (getProp lead "status" = JsValue.str "booked"))).length

/-- The `stats` state of the `Commissions` page. A sum that is not a number
is `none`. -/
structure Commissions.Stats where
  totalEarned : Option Double
  pendingPayout : Option Double
  paidOut : Option Double
  totalSales : Nat
  deriving DecidableEq, Repr

/-- `totalEarned` of `loadCommissionData` in `Commissions.jsx`. -/
def Commissions.totalEarned (userSales : List Row) : Option Double :=
  userSales.foldl (fun sum sale => addCommission sum sale) (some Double.zero)

/-- `paidOut = totalEarned - pendingPayout`, the difference of two numbers
with the rounding of the format. It is `none` when one of the two sums is not
a number: the conversion of a text to a number is not modelled. -/
def Commissions.paidOut (userSales : List Row) : Option Double :=
  match Commissions.totalEarned userSales, Commissions.pendingPayout userSales with
  | some totalEarned, some pendingPayout => some (totalEarned.sub pendingPayout)
  | _, _ => none

/-- The object `loadCommissionData` passes to `setStats`. -/
def Commissions.stats (userSales : List Row) : Commissions.Stats :=
  { totalEarned := Commissions.totalEarned userSales,
    pendingPayout := Commissions.pendingPayout userSales,
    paidOut := Commissions.paidOut userSales,
    totalSales := userSales.length }

/-! ## Lead filters (`LeadFilters.jsx`) -/

/-- `getActiveFiltersCount()` of `LeadFilters.jsx`. -/
def LeadFilters.getActiveFiltersCount (filters : Leads.Filters) : Nat :=
  ([filters.status, filters.industry, filters.region].filter
    (fun value => decide (value ≠ "all"))).length

/-- The filter state `clearFilters()` of `LeadFilters.jsx` hands to
`onFiltersChange`. -/
def LeadFilters.clearFilters : Leads.Filters :=
  { status := "all", industry := "all", region := "all" }

/-! ## Resource tags (`AddResourceForm.jsx`) -/

/-- The pieces of a text between the occurrences of a separator character;
the empty text has the one piece that is empty. -/
def splitChars (separator : Char) : List Char → List (List Char)
  | [] => [[]]
  | c :: rest =>
    if c = separator then [] :: splitChars separator rest
    else
      match splitChars separator rest with
      | [] => [[c]]
      | piece :: pieces => (c :: piece) :: pieces

/-- `String.prototype.split(separator)` for a separator of one character. -/
def split (s : String) (separator : Char) : List String :=
  (splitChars separator s.data).map String.mk

/-- The white space and line terminator characters that `trim` removes. -/
def isWhiteSpace (c : Char) : Bool :=
  decide (c.toNat ∈ [0x9, 0xA, 0xB, 0xC, 0xD, 0x20, 0xA0, 0x1680, 0x2000, 0x2001, 0x2002,
    0x2003, 0x2004, 0x2005, 0x2006, 0x2007, 0x2008, 0x2009, 0x200A, 0x2028, 0x2029, 0x202F,
    0x205F, 0x3000, 0xFEFF])

/-- The characters of a text without the white space at its two ends. -/
def trimChars (cs : List Char) : List Char :=
  ((cs.dropWhile isWhiteSpace).reverse.dropWhile isWhiteSpace).reverse

/-- `String.prototype.trim()`. -/
def trim (s : String) : String :=
  String.mk (trimChars s.data)

/-- The `formData` state of `AddResourceForm`. -/
structure AddResourceForm.FormData where
  title : String
  description : String
  category : String
  content : String
  file_url : String
  video_url : String
  tags : String
  deriving DecidableEq, Repr

/-- `formData.tags.split(',').map(tag => tag.trim()).filter(Boolean)`. -/
def AddResourceForm.tags (formData : AddResourceForm.FormData) : List String :=
  (((split formData.tags ',').map (fun tag => trim tag)).filter (fun tag => decide (tag ≠ "")))

/-- `dataToSubmit` of `handleSubmit`: the form data with `tags` replaced by
the tag list and `is_active` added. -/
def AddResourceForm.dataToSubmit (formData : AddResourceForm.FormData) : Row :=
  [ ("title", JsValue.str formData.title),
    ("description", JsValue.str formData.description),
    ("category", JsValue.str formData.category),
    ("content", JsValue.str formData.content),
    ("file_url", JsValue.str formData.file_url),
    ("video_url", JsValue.str formData.video_url),
    ("tags", JsValue.arr ((AddResourceForm.tags formData).map JsValue.str)),
    ("is_active", JsValue.bool true) ]

/-- `handleSubmit` of `AddResourceForm.jsx`: what is handed to `onSubmit`,
`none` when the form returns without submitting. -/
def AddResourceForm.handleSubmit (formData : AddResourceForm.FormData) : Option Row :=
  if formData.title = "" ∨ formData.category = "" then none
  else some (AddResourceForm.dataToSubmit formData)

/-! ## Pages and routes (`pages/index.jsx`) -/

/-- The keys of `PAGES`, in key order. -/
def PAGES : List String :=
  ["Dashboard", "Leads", "Resources", "Admin", "Commissions", "Support"]

/-- `String.prototype.toLowerCase()` on the letters A to Z. The six page
names are written with ASCII letters other than `k`, and no character outside
ASCII lowers to one of those letters, so two texts compared with a page name
compare as `toLowerCase` makes them. -/
def toLowerCase (s : String) : String :=
  String.mk (s.data.map Char.toLower)

/-- `String.prototype.endsWith(searchString)`. -/
def endsWith (s searchString : String) : Bool :=
  searchString.data.isSuffixOf s.data

/-- The value of `urlLastPart` in `_getCurrentPage` when the page is looked
up: the text behind the last `/` of the url without a `/` at its end, cut at
its first `?`. -/
def urlLastPart (url : String) : String :=
  let url := if endsWith url "/" then String.mk url.data.dropLast else url
  let urlLastPart := ((split url '/').getLast?).getD ""
  if '?' ∈ urlLastPart.data then ((split urlLastPart '?').head?).getD "" else urlLastPart

/-- `_getCurrentPage(url)`. -/
def _getCurrentPage (url : String) : String :=
  let pageName := PAGES.find? (fun page => toLowerCase page == toLowerCase (urlLastPart url))
  match pageName with
  | some page => page
  | none => (PAGES.head?).getD ""

/-- The `<Route>` elements of `PagesContent`, in their order: the path and
the page that is its element. -/
def PagesContent.routes : List (String × String) :=
  [ ("/", "Dashboard"), ("/Dashboard", "Dashboard"), ("/Leads", "Leads"),
    ("/Resources", "Resources"), ("/Admin", "Admin"), ("/Commissions", "Commissions"),
    ("/Support", "Support") ]

/-- A path without the slashes at its end and with the letters A to Z
lowered. -/
def routeKey (path : String) : List Char :=
  ((path.data.reverse.dropWhile (fun c => c = '/')).reverse).map Char.toLower

/-- Reference model of the router, which is outside the repository: a route
matches a location when the two paths are equal up to the case of letters and
up to slashes at the end. -/
def matchesRoute (routePath pathname : String) : Bool :=
  decide (routeKey routePath = routeKey pathname)

/-- The page `<Routes>` renders for a location: the element of the matching
route, nothing when no route matches. -/
def PagesContent.element (pathname : String) : Option String :=
  (PagesContent.routes.find? (fun route => matchesRoute route.1 pathname)).map Prod.snd

/-! ## What the navigation shell shows (`Layout.jsx`) -/

/-- The values `Layout` derives from `config` for rendering: the branding
with its fallbacks, the navigation links and the external tools. -/
structure Layout.Shown where
  appName : JsValue
  appTagline : JsValue
  logoUrl : JsValue
  primaryColor : JsValue
  secondaryColor : JsValue
  supportPhone : JsValue
  navigationItems : Except TypeError (List JsValue)
  externalTools : Except TypeError (List JsValue)
  deriving DecidableEq

/-- The values `Layout` shows for a `config` that is null or a row. -/
def Layout.shown (createPageUrl : JsValue → JsValue) (config : Option Row) : Layout.Shown :=
  { appName := orElse (Layout.configField config "app_name") (JsValue.str "ByteBlitz Staff Hub"),
    appTagline := orElse (Layout.configField config "app_tagline")
      (JsValue.str "Digital Agency CRM"),
    logoUrl := Layout.configField config "logo_url",
    primaryColor := orElse (Layout.configField config "primary_color") (JsValue.str "#8B5CF6"),
    secondaryColor := orElse (Layout.configField config "secondary_color")
      (JsValue.str "#EC4899"),
    supportPhone := orElse (Layout.configField config "company_phone")
      (JsValue.str "07359 735508"),
    navigationItems := (Layout.getNavigationItems createPageUrl config).map Prod.fst,
    externalTools := Layout.getExternalTools config }

/-! ## View loads (`Admin.jsx`, `AdminStats.jsx`, `CommissionManagement.jsx`,
`LeadAssignment.jsx`, `Leads.jsx`, `Layout.jsx`) -/

/-- `Lead = createEntityAPI('leads')`: its table. -/
def Lead : String := "leads"

/-- `LeadRequest = createEntityAPI('lead_requests')`: its table. -/
def LeadRequest : String := "lead_requests"

/-- `Sale = createEntityAPI('sales')`: its table. -/
def Sale : String := "sales"

/-- `SupportTicket = createEntityAPI('support_tickets')`: its table. -/
def SupportTicket : String := "support_tickets"

/-- A value a `catch` receives: an error of the auth service, an error of
the store, or a `TypeError`. -/
inductive Thrown where
  | auth (e : AuthError)
  | store (e : PostgrestError)
  | type (e : TypeError)
  deriving DecidableEq

/-- The loads handed to `Promise.all`, each run against the store: their
results in the order of the array. Every load is started, whether or not
another one fails. -/
def settle {σ : Type} (loads : List (σ → Except PostgrestError Data × σ)) (s : σ) :
    List (Except PostgrestError Data) × σ :=
  match loads with
  | [] => ([], s)
  | load :: rest =>
    let (result, s1) := load s
    let (results, s2) := settle rest s1
    (result :: results, s2)

/-- What the promise of `Promise.all` settles to: the array of the values
when every load succeeded, else a rejection. The rejection is that of the
first failed load of the array; which one it is matters to no caller, every
`catch` only logs it. -/
def joinResults : List (Except PostgrestError Data) → Except PostgrestError (List Data)
  | [] => Except.ok []
  | Except.error e :: _ => Except.error e
  | Except.ok value :: rest =>
    match joinResults rest with
    | Except.error e => Except.error e
    | Except.ok values => Except.ok (value :: values)

/-- `await Promise.all(loads)`. -/
def promiseAll {σ : Type} (loads : List (σ → Except PostgrestError Data × σ)) (s : σ) :
    Except PostgrestError (List Data) × σ :=
  ((joinResults (settle loads s).1), (settle loads s).2)

/-- The `stats` state of the admin page. -/
structure Admin.Stats where
  totalUsers : Nat
  totalLeads : Nat
  pendingRequests : Nat
  openTickets : Nat
  totalSales : Nat
  unpaidCommissions : Option Double
  deriving DecidableEq, Repr

/-- The state `loadAdminData` works on: `user`, `stats` and `loading` of the
component, the address assigned to `window.location.href` (`none` while none
is assigned), and what was logged with `console.error`. -/
structure Admin.State where
  user : Option Row
  stats : Admin.Stats
  loading : Bool
  location : Option String
  console : List Thrown
  deriving DecidableEq

/-- The state of a freshly mounted admin page. -/
def Admin.initial : Admin.State :=
  { user := none,
    stats := { totalUsers := 0, totalLeads := 0, pendingRequests := 0, openTickets := 0,
               totalSales := 0, unpaidCommissions := some Double.zero },
    loading := true, location := none, console := [] }

/-- The five loads `loadAdminData` joins. -/
def Admin.loads {σ : Type} (store : Store σ) : List (σ → Except PostgrestError Data × σ) :=
  [ User.list store,
    list store Lead none,
    filter store LeadRequest (some [("status", JsValue.str "pending")]) none,
    filter store SupportTicket (some [("status", JsValue.str "open")]) none,
    list store Sale none ]

/-- `loadAdminData()` of `Admin.jsx`. Reading `role` of a null user throws a
`TypeError`; the `return` of the role check leaves `loading` as it is.
`list` and `filter` resolve to arrays; a result that is no array is taken to
the `catch`, as `sales.filter` takes it. -/
def Admin.loadAdminData {σ : Type} (getSession : AuthResponse) (store : Store σ)
    (st : Admin.State) (s : σ) : Admin.State × σ :=
  match User.me getSession store s with
  | (Except.error e, s1) =>
    ({ st with console := st.console ++ [Thrown.auth e], loading := false }, s1)
  | (Except.ok none, s1) =>
    ({ st with
        console := st.console ++
          [Thrown.type { message := "Cannot read properties of null" }],
        loading := false }, s1)
  | (Except.ok (some currentUser), s1) =>
    if getProp currentUser "role" ≠ JsValue.str "admin" then
      ({ st with location := some "/" }, s1)
    else
      let st := { st with user := some currentUser }
      match promiseAll (Admin.loads store) s1 with
      | (Except.error e, s2) =>
        ({ st with console := st.console ++ [Thrown.store e], loading := false }, s2)
      | (Except.ok [Data.rows users, Data.rows leads, Data.rows requests, Data.rows tickets,
            Data.rows sales], s2) =>
        ({ st with
            stats := { totalUsers := users.length, totalLeads := leads.length,
                       pendingRequests := requests.length, openTickets := tickets.length,
                       totalSales := sales.length,
                       unpaidCommissions := Admin.unpaidCommissions sales },
            loading := false }, s2)
      | (Except.ok _, s2) =>
        ({ st with
            console := st.console ++ [Thrown.type { message := "sales.filter is not a function" }],
            loading := false }, s2)

/-- What the admin page renders: the loading skeleton, the access-denied
card, or the admin panel. -/
inductive Admin.View where
  | skeleton
  | accessDenied
  | panel
  deriving DecidableEq, Repr

/-- The render gate of `AdminPanel`: `loading` first, then
`user?.role !== 'admin'`. -/
def Admin.view (st : Admin.State) : Admin.View :=
  if st.loading then Admin.View.skeleton
  else if Layout.configField st.user "role" ≠ JsValue.str "admin" then Admin.View.accessDenied
  else Admin.View.panel

/-- The state `loadStats` of `AdminStats.jsx` works on; `stats` is null
(`none`) until a load succeeded. -/
structure AdminStats.State (Stats : Type) where
  stats : Option Stats
  loading : Bool
  console : List Thrown

/-- `loadStats()` of `AdminStats.jsx`. The object handed to `setStats` depends
on the current date and on floating point; it is the parameter `compute` of
the three arrays. A result that is no array is taken to the `catch`. -/
def AdminStats.loadStats {σ Stats : Type} (compute : List Row → List Row → List Row → Stats)
    (store : Store σ) (st : AdminStats.State Stats) (s : σ) : AdminStats.State Stats × σ :=
  let st := { st with loading := true }
  match promiseAll [User.list store, list store Lead none, list store Sale none] s with
  | (Except.error e, s1) =>
    ({ st with console := st.console ++ [Thrown.store e], loading := false }, s1)
  | (Except.ok [Data.rows users, Data.rows leads, Data.rows sales], s1) =>
    ({ st with stats := some (compute users leads sales), loading := false }, s1)
  | (Except.ok _, s1) =>
    ({ st with
        console := st.console ++ [Thrown.type { message := "sales.filter is not a function" }],
        loading := false }, s1)

/-- The state `loadData` of `CommissionManagement.jsx` works on. -/
structure CommissionManagement.State where
  sales : Data
  users : Data
  loading : Bool
  console : List Thrown
  deriving DecidableEq

/-- `loadData()` of `CommissionManagement.jsx`. -/
def CommissionManagement.loadData {σ : Type} (store : Store σ)
    (st : CommissionManagement.State) (s : σ) : CommissionManagement.State × σ :=
  match promiseAll [list store Sale (some "-created_date"), User.list store] s with
  | (Except.error e, s1) =>
    ({ st with console := st.console ++ [Thrown.store e], loading := false }, s1)
  | (Except.ok [allSales, allUsers], s1) =>
    ({ st with sales := allSales, users := allUsers, loading := false }, s1)
  | (Except.ok _, s1) => ({ st with loading := false }, s1)

/-- The state `loadData` of `LeadAssignment.jsx` works on. -/
structure LeadAssignment.State where
  leadRequests : Data
  users : Data
  loading : Bool
  console : List Thrown
  deriving DecidableEq

/-- `loadData()` of `LeadAssignment.jsx`. `setLeadRequests` runs before
`teamMembers.filter` is evaluated. -/
def LeadAssignment.loadData {σ : Type} (store : Store σ)
    (st : LeadAssignment.State) (s : σ) : LeadAssignment.State × σ :=
  match promiseAll [list store LeadRequest (some "-created_date"), User.list store] s with
  | (Except.error e, s1) =>
    ({ st with console := st.console ++ [Thrown.store e], loading := false }, s1)
  | (Except.ok [requests, teamMembers], s1) =>
    let st := { st with leadRequests := requests }
    match teamMembers with
    | Data.rows members =>
      ({ st with
          users := Data.rows (members.filter
            (fun u => decide (getProp u "role" = JsValue.str "user"))),
          loading := false }, s1)
    | _ =>
      ({ st with
          console := st.console ++
            [Thrown.type { message := "teamMembers.filter is not a function" }],
          loading := false }, s1)
  | (Except.ok _, s1) => ({ st with loading := false }, s1)

/-- The state `loadData` of `Leads.jsx` works on. -/
structure Leads.State where
  user : Option Row
  leads : Data
  leadRequests : Data
  loading : Bool
  console : List Thrown
  deriving DecidableEq

/-- The state of a freshly mounted leads page. -/
def Leads.initial : Leads.State :=
  { user := none, leads := Data.rows [], leadRequests := Data.rows [], loading := true,
    console := [] }

/-- `loadData()` of `Leads.jsx`. Reading `email` of a null user throws a
`TypeError`. -/
def Leads.loadData {σ : Type} (getSession : AuthResponse) (store : Store σ)
    (st : Leads.State) (s : σ) : Leads.State × σ :=
  match User.me getSession store s with
  | (Except.error e, s1) =>
    ({ st with console := st.console ++ [Thrown.auth e], loading := false }, s1)
  | (Except.ok currentUser, s1) =>
    let st := { st with user := currentUser }
    match currentUser with
    | none =>
      ({ st with
          console := st.console ++
            [Thrown.type { message := "Cannot read properties of null" }],
          loading := false }, s1)
    | some u =>
      match filter store Lead (some [("assigned_to", getProp u "email")])
          (some "-created_date") s1 with
      | (Except.error e, s2) =>
        ({ st with console := st.console ++ [Thrown.store e], loading := false }, s2)
      | (Except.ok userLeads, s2) =>
        let st := { st with leads := userLeads }
        match filter store LeadRequest (some [("requested_by", getProp u "email")])
            (some "-created_date") s2 with
        | (Except.error e, s3) =>
          ({ st with console := st.console ++ [Thrown.store e], loading := false }, s3)
        | (Except.ok userRequests, s3) =>
          ({ st with leadRequests := userRequests, loading := false }, s3)

/-- The state `loadUserAndConfig` of `Layout.jsx` works on: `user`, `config`
and `loading` of the component, and the error that left the function
uncaught, if one did. -/
structure Layout.State where
  user : Option Row
  config : Option Row
  loading : Bool
  uncaught : Option TypeError
  deriving DecidableEq

/-- The state of a freshly mounted shell. -/
def Layout.initial : Layout.State :=
  { user := none, config := none, loading := true, uncaught := none }

/-- The `catch` of `loadUserAndConfig`: it calls `User.loginWithRedirect`,
which the `User` object of `entities.js` (`list`, `me`, `update`) does not
define, so the call throws and the function ends there. -/
def Layout.loginRedirect (st : Layout.State) : Layout.State :=
  { st with uncaught := some { message := "User.loginWithRedirect is not a function" } }

/-- `loadUserAndConfig()` of `Layout.jsx`. -/
def Layout.loadUserAndConfig {σ : Type} (getSession : AuthResponse) (store : Store σ)
    (st : Layout.State) (s : σ) : Layout.State × σ :=
  match User.me getSession store s with
  | (Except.error _, s1) => (Layout.loginRedirect st, s1)
  | (Except.ok currentUser, s1) =>
    let st := { st with user := currentUser }
    match list store AppConfiguration none s1 with
    | (Except.error _, s2) => (Layout.loginRedirect st, s2)
    | (Except.ok configs, s2) =>
      match configs with
      | Data.rows (first :: _) => ({ st with config := some first, loading := false }, s2)
      | _ => ({ st with loading := false }, s2)

/-! ## Specification-side definitions and sample stores -/

/-- The predicate the specification assigns to one criterion: IS NULL for a
null or undefined value, equality with the value otherwise. -/
def criterionFilter (key : String) (value : JsValue) : Filter :=
  match value with
  | JsValue.null => Filter.is key JsValue.null
  | JsValue.undefined => Filter.is key JsValue.null
  | v => Filter.eq key v

/-- A store that answers every request with no data and no error. -/
def silentStore : Store Unit :=
  fun _ s => ({ data := Data.null, error := none }, s)

/-- A store that refuses every request with one fixed error. -/
def failingStore : Store Unit :=
  fun _ s => ({ data := Data.null, error := some { message := "connection lost", code := "08006" } }, s)

/-- What the specification asks of a row for a criteria object: on every
key, a NULL column when the value is null or undefined, a column equal to the
value otherwise. -/
def satisfies (criteria : Row) (r : Row) : Bool :=
  (objectKeys criteria).all (fun key =>
    match getProp criteria key with
    | JsValue.null => decide (column r key = JsValue.null)
    | JsValue.undefined => decide (column r key = JsValue.null)
    | v => decide (column r key = v))

/-- A store whose plain reads (no order, no `maybeSingle`) answer with the
rows of the table that pass every filter, in table order, and no error.
`rowsOf` reads the rows of a table off the store state. -/
def EvaluatesConjunctively {σ : Type} (store : Store σ)
    (rowsOf : σ → String → List Row) : Prop :=
  ∀ (q : Query) (s : σ) (columns : String),
    q.verb = Verb.select columns → q.orders = [] → q.single = false →
    (store q s).1 =
      { data := Data.rows ((rowsOf s q.table).filter (passes q.filters)), error := none }

/-- The order of a navigation item as the specification reads it: the integer
in `order`, 0 when there is none. -/
def orderOrZero (item : JsValue) : Int :=
  match field item "order" with
  | JsValue.num n => n
  | _ => 0

/-- Whether the `order` of an item is an integer or is missing (undefined or
null). -/
def hasNumericOrder (item : JsValue) : Bool :=
  match field item "order" with
  | JsValue.num _ => true
  | JsValue.undefined => true
  | JsValue.null => true
  | _ => false

/-- The exact value of a finite number, as a rational; 0 for NaN and the
infinities. -/
def Double.toRat : Double → ℚ
  | Double.fin negative m e => (if negative then -1 else 1) * (m : ℚ) * (2 : ℚ) ^ e
  | _ => 0

/-- Whether a number is finite. -/
def Double.isFinite : Double → Bool
  | Double.fin _ _ _ => true
  | _ => false

/-- Whether `x + y` is computed without rounding: the operands and the
result are finite and the value of the result is the sum of the values of
the operands, compared as integer multiples of the least power of two in
sight. -/
def Double.addExact (x y : Double) : Bool :=
  match x, y, x.add y with
  | Double.fin s1 m1 e1, Double.fin s2 m2 e2, Double.fin s m e =>
    decide ((Double.fin s m e).scaled (min e (min e1 e2)) =
      (Double.fin s1 m1 e1).scaled (min e (min e1 e2)) +
        (Double.fin s2 m2 e2).scaled (min e (min e1 e2)))
  | _, _, _ => false

/-- Whether no addition rounds when the numbers `xs` are added one after the
other to `acc`. -/
def noRounding : Double → List Double → Bool
  | _, [] => true
  | acc, x :: rest => acc.addExact x && noRounding (acc.add x) rest

/-- The sum of numbers as JavaScript computes it with `reduce` from 0: from
left to right, every addition rounded. -/
def floatSum (xs : List Double) : Double :=
  xs.foldl (fun sum x => sum.add x) Double.zero

/-- The commission amount of a sale as the specification reads it: the
number in `commission_amount`, 0 when there is none. -/
def amountOrZero (sale : Row) : Double :=
  match getProp sale "commission_amount" with
  | JsValue.num n => Double.ofInt n
  | JsValue.float x => x
  | _ => Double.zero

/-- The exact value of the commission amount of a sale. -/
def exactAmount (sale : Row) : ℚ :=
  (amountOrZero sale).toRat

/-- Whether the `commission_amount` of a sale is a finite number (an integer,
or a `float` that is finite and not a zero) or is missing (undefined or
null). -/
def hasNumericAmount (sale : Row) : Bool :=
  match getProp sale "commission_amount" with
  | JsValue.num _ => true
  | JsValue.float (Double.fin _ m _) => decide (m ≠ 0)
  | JsValue.undefined => true
  | JsValue.null => true
  | _ => false

/-- The commission amount of a sale whose amount is an integer: the integer
in `commission_amount`, 0 when there is none. -/
def integerAmount (sale : Row) : Int :=
  match getProp sale "commission_amount" with
  | JsValue.num n => n
  | _ => 0

/-- Whether the `commission_amount` of a sale is an integer or is missing
(undefined or null). -/
def hasIntegerAmount (sale : Row) : Bool :=
  match getProp sale "commission_amount" with
  | JsValue.num _ => true
  | JsValue.undefined => true
  | JsValue.null => true
  | _ => false

/-- A field between double quotes. -/
def quoted (v : JsValue) : String :=
  "\"" ++ toStr v ++ "\""

/-- A field that is the empty text when it is missing or empty. -/
def orBlank (v : JsValue) : JsValue :=
  if truthy v then v else JsValue.str ""

/-- The CSV line of a lead as the specification describes it: the eight
fields, each between double quotes, with commas between them. -/
def csvLine (lead : Row) : String :=
  quoted (getProp lead "company_name") ++ "," ++
  (quoted (getProp lead "contact_name") ++ "," ++
  (quoted (orBlank (getProp lead "email")) ++ "," ++
  (quoted (orBlank (getProp lead "phone")) ++ "," ++
  (quoted (getProp lead "industry") ++ "," ++
  (quoted (getProp lead "region") ++ "," ++
  (quoted (getProp lead "status") ++ "," ++
  quoted (orBlank (getProp lead "notes"))))))))

/-- The eight field texts `exportLeads` writes for a lead. -/
def csvFields (lead : Row) : List String :=
  [ toStr (getProp lead "company_name"),
    toStr (getProp lead "contact_name"),
    toStr (orBlank (getProp lead "email")),
    toStr (orBlank (getProp lead "phone")),
    toStr (getProp lead "industry"),
    toStr (getProp lead "region"),
    toStr (getProp lead "status"),
    toStr (orBlank (getProp lead "notes")) ]

/-- Where a reader of quoted CSV stands in a line: at the start of a field,
inside a quoted field, behind a quote met inside a quoted field, or inside a
field without quotes. -/
inductive CsvMode where
  | fieldStart
  | quotedField
  | quoteSeen
  | bare
  deriving DecidableEq, Repr

/-- A reader of one line of quoted CSV: fields are separated by commas, a
field may stand between double quotes, and inside such a field a double quote
is written twice. `current` is the text of the field being read, `done` the
fields read so far. A line that breaks these rules is not read (`none`). -/
def readCsvFrom : List Char → CsvMode → List Char → List String → Option (List String)
  | [], CsvMode.quotedField, _, _ => none
  | [], _, current, done => some (done ++ [String.mk current])
  | c :: rest, CsvMode.fieldStart, current, done =>
    if c = '"' then readCsvFrom rest CsvMode.quotedField [] done
    else if c = ',' then readCsvFrom rest CsvMode.fieldStart [] (done ++ [String.mk current])
    else readCsvFrom rest CsvMode.bare [c] done
  | c :: rest, CsvMode.quotedField, current, done =>
    if c = '"' then readCsvFrom rest CsvMode.quoteSeen current done
    else readCsvFrom rest CsvMode.quotedField (current ++ [c]) done
  | c :: rest, CsvMode.quoteSeen, current, done =>
    if c = '"' then readCsvFrom rest CsvMode.quotedField (current ++ ['"']) done
    else if c = ',' then readCsvFrom rest CsvMode.fieldStart [] (done ++ [String.mk current])
    else none
  | c :: rest, CsvMode.bare, current, done =>
    if c = ',' then readCsvFrom rest CsvMode.fieldStart [] (done ++ [String.mk current])
    else if c = '"' then none
    else readCsvFrom rest CsvMode.bare (current ++ [c]) done

/-- The fields of one line of quoted CSV. -/
def readCsvLine (line : String) : Option (List String) :=
  readCsvFrom line.data CsvMode.fieldStart [] []

/-- The filter state with every filter on `all`. -/
def allLeads : Leads.Filters :=
  { status := "all", industry := "all", region := "all" }

/-- A lead without a double quote in any field. -/
def plainLead : Row :=
  [("company_name", JsValue.str "Acme"), ("contact_name", JsValue.str "Jo"),
   ("email", JsValue.str "jo@acme.io"), ("phone", JsValue.str "0123"),
   ("industry", JsValue.str "Retail"), ("region", JsValue.str "North"),
   ("status", JsValue.str "booked"), ("notes", JsValue.str "call back, please")]

/-- The same lead with a double quote in its notes. -/
def quoteLead : Row :=
  [("company_name", JsValue.str "Acme"), ("contact_name", JsValue.str "Jo"),
   ("email", JsValue.str "jo@acme.io"), ("phone", JsValue.str "0123"),
   ("industry", JsValue.str "Retail"), ("region", JsValue.str "North"),
   ("status", JsValue.str "booked"), ("notes", JsValue.str "said \"yes\" twice")]

/-- A lead whose notes hold a quote, a comma and a quote. -/
def leadA : Row :=
  [("company_name", JsValue.str "Acme"), ("contact_name", JsValue.str "Jo"),
   ("industry", JsValue.str "Retail"), ("region", JsValue.str "North"),
   ("status", JsValue.str "booked"), ("notes", JsValue.str "x\",\"y")]

/-- A lead with other field values than `leadA`. -/
def leadB : Row :=
  [("company_name", JsValue.str "Acme"), ("contact_name", JsValue.str "Jo"),
   ("industry", JsValue.str "Retail"), ("region", JsValue.str "North\",\"booked"),
   ("status", JsValue.str "x"), ("notes", JsValue.str "y")]

/-- Leads in five states, two of them booked. -/
def sampleStatuses : List Row :=
  [ [("status", JsValue.str "assigned")], [("status", JsValue.str "booked")],
    [("status", JsValue.str "contacted")], [("status", JsValue.str "booked")],
    [("status", JsValue.str "not_interested")], [("status", JsValue.str "closed")] ]

/-- Leads of two regions and two industries. -/
def sampleLeadList : List Row :=
  [ [("id", JsValue.num 1), ("status", JsValue.str "booked"), ("industry", JsValue.str "Retail"),
     ("region", JsValue.str "North")],
    [("id", JsValue.num 2), ("status", JsValue.str "assigned"), ("industry", JsValue.str "Tech"),
     ("region", JsValue.str "North")],
    [("id", JsValue.num 3), ("status", JsValue.str "booked"), ("industry", JsValue.str "Tech"),
     ("region", JsValue.str "South")],
    [("id", JsValue.num 4), ("status", JsValue.str "booked"), ("industry", JsValue.str "Tech"),
     ("region", JsValue.str "North")] ]

/-- Three sales: 50 unpaid, 30 paid, and one paid without amount. -/
def sampleUserSales : List Row :=
  [ [("commission_amount", JsValue.num 50), ("commission_paid", JsValue.bool false)],
    [("commission_amount", JsValue.num 30), ("commission_paid", JsValue.bool true)],
    [("commission_paid", JsValue.bool true)] ]

/-- Three unpaid sales: 9007199254740992 (2^53), 1 and 1. -/
def largeSales : List Row :=
  [ [("commission_amount", JsValue.num 9007199254740992), ("commission_paid", JsValue.bool false)],
    [("commission_amount", JsValue.num 1), ("commission_paid", JsValue.bool false)],
    [("commission_amount", JsValue.num 1), ("commission_paid", JsValue.bool false)] ]

/-- Two unpaid sales: 0.10 and 0.20. -/
def penceSales : List Row :=
  [ [("commission_amount", JsValue.float (Double.ofDecimal 10 2)),
     ("commission_paid", JsValue.bool false)],
    [("commission_amount", JsValue.float (Double.ofDecimal 20 2)),
     ("commission_paid", JsValue.bool false)] ]

/-- Three sales: 0.01 paid, 0.03 unpaid and 0.25 paid. -/
def driftSales : List Row :=
  [ [("commission_amount", JsValue.float (Double.ofDecimal 1 2)),
     ("commission_paid", JsValue.bool true)],
    [("commission_amount", JsValue.float (Double.ofDecimal 3 2)),
     ("commission_paid", JsValue.bool false)],
    [("commission_amount", JsValue.float (Double.ofDecimal 25 2)),
     ("commission_paid", JsValue.bool true)] ]

/-- Two sales: 0.01 unpaid and 2.00 paid. -/
def twoPoundSales : List Row :=
  [ [("commission_amount", JsValue.float (Double.ofDecimal 1 2)),
     ("commission_paid", JsValue.bool false)],
    [("commission_amount", JsValue.num 2), ("commission_paid", JsValue.bool true)] ]

/-- Three sales with pence that are binary fractions: 50.25 unpaid, 30.50
paid, and one paid without amount. -/
def quarterSales : List Row :=
  [ [("commission_amount", JsValue.float (Double.ofDecimal 5025 2)),
     ("commission_paid", JsValue.bool false)],
    [("commission_amount", JsValue.float (Double.ofDecimal 3050 2)),
     ("commission_paid", JsValue.bool true)],
    [("commission_paid", JsValue.bool true)] ]

/-- A filled form whose tags field has blanks, empty pieces and a tab. -/
def sampleForm : AddResourceForm.FormData :=
  { title := "Opening lines", description := "", category := "cold_call_scripts",
    content := "", file_url := "", video_url := "",
    tags := " sales , ,cold call,\t,intro  ," }

/-- The default configuration row as the reference store keeps it after
`loadConfiguration` inserted it into an empty table. -/
def storedDefaultConfig : Row :=
  setProp ConfigurationManager.defaultConfig "id" (JsValue.num 1)

/-- The reference store with the `sales` table out of reach: every request
on it is refused. -/
def salesDownStore : Store Db :=
  fun q db =>
    if q.table = "sales" then
      ({ data := Data.null, error := some { message := "connection lost", code := "08006" } }, db)
    else refStore q db

/-- A session of the sample user, whose profile row makes them an admin. -/
def sampleSession : AuthResponse :=
  { session := some { user := some sampleUser }, error := none }

/-- A session of a user without a profile row; their metadata role is
`user`. -/
def repSession : AuthResponse :=
  { session := some { user := some { sampleUser with email := JsValue.str "al@example.com" } },
    error := none }

/-- No session and no error. -/
def noSession : AuthResponse :=
  { session := none, error := none }

/-- The state of a freshly mounted `CommissionManagement`. -/
def CommissionManagement.initial : CommissionManagement.State :=
  { sales := Data.rows [], users := Data.rows [], loading := true, console := [] }

/-! # Theorems -/

/-! ## The order convention -/

theorem startsWith_dash_append (c : String) : startsWith ("-" ++ c) "-" = true := by
  simp [startsWith, String.data_append, List.isPrefixOf]

theorem slice_dash_append (c : String) : slice ("-" ++ c) 1 = c := by
  simp [slice, String.data_append]

theorem startsWith_dash_false (s : String) (h : s.data.head? ≠ some '-') :
    startsWith s "-" = false := by
  cases hs : s.data with
  | nil => simp [startsWith, hs, List.isPrefixOf]
  | cons a l =>
    have : a ≠ '-' := by
      intro ha
      apply h
      simp [hs, ha]
    simp [startsWith, hs, List.isPrefixOf, Ne.symm this]

/-- C1: for a non-empty order string `s`, the query of `list(s)` is the plain
read of the table with exactly one order clause: descending on `c` when `s` is
`-` followed by `c`, ascending on `s` itself when `s` does not start with `-`. -/
theorem list_order_clause (tableName s : String) (h : s ≠ "") :
    (∀ c : String, s = "-" ++ c →
      listQuery tableName (some s) =
        { table := tableName, verb := Verb.select "*", filters := [],
          orders := [OrderClause.mk c false], returning := false, single := false }) ∧
    (s.data.head? ≠ some '-' →
      listQuery tableName (some s) =
        { table := tableName, verb := Verb.select "*", filters := [],
          orders := [OrderClause.mk s true], returning := false, single := false }) ∧
    (listQuery tableName (some s)).orders.length = 1 := by
  refine ⟨?_, ?_, ?_⟩
  · intro c hc
    subst hc
    simp [listQuery, h, startsWith_dash_append, slice_dash_append, Query.order,
      Query.select, supabaseFrom]
  · intro hd
    simp [listQuery, h, startsWith_dash_false _ hd, Query.order, Query.select, supabaseFrom]
  · simp [listQuery, h, Query.order, Query.select, supabaseFrom]

/-- The two examples of the specification: `list('-created_date')` is
descending on `created_date`, `list('client_name')` ascending on `client_name`. -/
theorem list_order_clause_witness :
    (listQuery "leads" (some "-created_date")).orders = [OrderClause.mk "created_date" false] ∧
    (listQuery "leads" (some "client_name")).orders = [OrderClause.mk "client_name" true] :=
  ⟨by rw [(list_order_clause "leads" "-created_date" (by decide)).1 "created_date" (by decide)],
   by rw [(list_order_clause "leads" "client_name" (by decide)).2.1 (by decide)]⟩

/-! ## The criteria convention -/

theorem criterionFilter_eq_ite (key : String) (value : JsValue) :
    (if isNullish value then Filter.is key JsValue.null else Filter.eq key value)
      = criterionFilter key value := by
  cases value <;> simp [isNullish, criterionFilter]

theorem foldl_criteria (criteria : Row) (keys : List String) (q : Query) :
    keys.foldl (fun query key =>
        if isNullish (getProp criteria key) then query.is key JsValue.null
        else query.eq key (getProp criteria key)) q
      = { q with filters := q.filters ++
            keys.map (fun key => criterionFilter key (getProp criteria key)) } := by
  induction keys generalizing q with
  | nil => simp
  | cons k ks ih =>
    rw [List.foldl_cons, ih]
    by_cases hk : isNullish (getProp criteria k) = true
    · simp [hk, Query.is, ← criterionFilter_eq_ite]
    · simp [hk, Query.eq, ← criterionFilter_eq_ite]

theorem filterQuery_filters (tableName : String) (criteria : Row) (order : Option String) :
    (filterQuery tableName (some criteria) order).filters =
      (objectKeys criteria).map (fun key => criterionFilter key (getProp criteria key)) := by
  unfold filterQuery
  simp only [Option.getD_some, foldl_criteria]
  cases order with
  | none => simp [Query.select, supabaseFrom]
  | some o =>
    by_cases ho : o = ""
    · simp [ho, Query.select, supabaseFrom]
    · simp [ho, Query.select, supabaseFrom, Query.order]

theorem getProp_of_mem (criteria : Row) (h : (objectKeys criteria).Nodup) :
    ∀ kv ∈ criteria, getProp criteria kv.1 = kv.2 := by
  induction criteria with
  | nil => simp
  | cons a l ih =>
    have hnd : (a.1 :: objectKeys l).Nodup := by simpa [objectKeys] using h
    intro kv hkv
    rcases List.mem_cons.1 hkv with rfl | hmem
    · simp [getProp, List.lookup]
    · have hne : kv.1 ≠ a.1 := by
        intro he
        have : a.1 ∈ objectKeys l := by
          rw [← he]
          exact List.mem_map_of_mem Prod.fst hmem
        exact (List.nodup_cons.1 hnd).1 this
      have := ih (List.nodup_cons.1 hnd).2 kv hmem
      obtain ⟨ak, av⟩ := a
      have hb : (kv.1 == ak) = false := by simpa using hne
      simpa [getProp, List.lookup, hb] using this

/-- C2: for a criteria object, the query of `filter(criteria, order)` holds one
predicate per own key, in key order: the IS NULL predicate on the key when its
value is null or undefined, the equality predicate with the value otherwise. -/
theorem filter_predicates (tableName : String) (criteria : Row) (order : Option String) :
    (filterQuery tableName (some criteria) order).filters =
      (objectKeys criteria).map (fun key => criterionFilter key (getProp criteria key)) ∧
    (filterQuery tableName (some criteria) order).filters.length = (objectKeys criteria).length ∧
    ((objectKeys criteria).Nodup →
      (filterQuery tableName (some criteria) order).filters =
        criteria.map (fun kv => criterionFilter kv.1 kv.2)) := by
  refine ⟨filterQuery_filters _ _ _, ?_, ?_⟩
  · simp [filterQuery_filters]
  · intro h
    rw [filterQuery_filters, objectKeys, List.map_map]
    apply List.map_congr_left
    intro kv hkv
    simp [getProp_of_mem criteria h kv hkv]

/-- A criteria object with a null, an undefined, a false, a zero and an empty
string: the first two become IS NULL, the other three equality. -/
theorem filter_predicates_witness :
    (filterQuery "leads" (some [("a", JsValue.null), ("b", JsValue.undefined),
        ("c", JsValue.bool false), ("d", JsValue.num 0), ("e", JsValue.str "")]) none).filters =
      [Filter.is "a" JsValue.null, Filter.is "b" JsValue.null, Filter.eq "c" (JsValue.bool false),
       Filter.eq "d" (JsValue.num 0), Filter.eq "e" (JsValue.str "")] :=
  (filter_predicates "leads" [("a", JsValue.null), ("b", JsValue.undefined),
    ("c", JsValue.bool false), ("d", JsValue.num 0), ("e", JsValue.str "")] none).2.2 (by decide)

/-! ## `filter` without criteria -/

theorem filterQuery_absent (tableName : String) (order : Option String)
    (criteria : Option Row) (h : criteria = none ∨ criteria = some []) :
    filterQuery tableName criteria order = listQuery tableName order := by
  rcases h with rfl | rfl <;> rfl

theorem filter_absent {σ : Type} (store : Store σ) (tableName : String)
    (order : Option String) (criteria : Option Row) (h : criteria = none ∨ criteria = some [])
    (s : σ) : filter store tableName criteria order s = list store tableName order s := by
  simp [filter, list, filterQuery_absent tableName order criteria h]

/-- C4: with criteria absent or empty, `filter(criteria, order)` builds the
query of `list(order)` and, on every store and state, ends as `list(order)`
does: same result or same error, same next state. -/
theorem filter_empty_eq_list (tableName : String) (order : Option String)
    (criteria : Option Row) (h : criteria = none ∨ criteria = some []) :
    filterQuery tableName criteria order = listQuery tableName order ∧
    ∀ (σ : Type) (store : Store σ) (s : σ),
      filter store tableName criteria order s = list store tableName order s := by
  exact ⟨filterQuery_absent tableName order criteria h,
    fun σ store s => filter_absent store tableName order criteria h s⟩

/-- The reference store answers `filter({}, '-id')` and `filter(undefined, '-id')`
as it answers `list('-id')`. -/
theorem filter_empty_eq_list_witness :
    filter refStore "leads" (some []) (some "-id") sampleDb
        = list refStore "leads" (some "-id") sampleDb ∧
    filter refStore "leads" none (some "-id") sampleDb
        = list refStore "leads" (some "-id") sampleDb :=
  ⟨(filter_empty_eq_list "leads" (some "-id") (some []) (Or.inr rfl)).2 Db refStore sampleDb,
   (filter_empty_eq_list "leads" (some "-id") none (Or.inl rfl)).2 Db refStore sampleDb⟩

/-! ## Results and failures of the reads -/

theorem orEmpty_ne_null (d : Data) : orEmpty d ≠ Data.null ∧ orEmpty d ≠ Data.undefined := by
  cases d <;> simp [orEmpty]

theorem list_eq {σ : Type} (store : Store σ) (tableName : String) (order : Option String)
    (s : σ) :
    (list store tableName order s).1 =
      match (store (listQuery tableName order) s).1.error with
      | some e => Except.error e
      | none => Except.ok (orEmpty (store (listQuery tableName order) s).1.data) := by
  unfold list
  cases h : (store (listQuery tableName order) s).1.error <;> simp [h]

theorem filter_eq {σ : Type} (store : Store σ) (tableName : String) (criteria : Option Row)
    (order : Option String) (s : σ) :
    (filter store tableName criteria order s).1 =
      match (store (filterQuery tableName criteria order) s).1.error with
      | some e => Except.error e
      | none => Except.ok (orEmpty (store (filterQuery tableName criteria order) s).1.data) := by
  unfold filter
  cases h : (store (filterQuery tableName criteria order) s).1.error <;> simp [h]

theorem User_list_eq {σ : Type} (store : Store σ) (s : σ) :
    (User.list store s).1 =
      match (store User.listQuery s).1.error with
      | some e => Except.error e
      | none => Except.ok (orEmpty (store User.listQuery s).1.data) := by
  unfold User.list
  cases h : (store User.listQuery s).1.error <;> simp [h]

/-- C5: when the store reports no error, `list`, `filter` and `User.list`
return neither null nor undefined; they return the empty sequence when the
store's data is null, undefined or an empty array, and the store's array when
it is an array. -/
theorem reads_never_null {σ : Type} (store : Store σ) (tableName : String)
    (criteria : Option Row) (order : Option String) (s : σ) :
    ((store (listQuery tableName order) s).1.error = none →
      (list store tableName order s).1 ≠ Except.ok Data.null ∧
      (list store tableName order s).1 ≠ Except.ok Data.undefined ∧
      (∀ rs, (store (listQuery tableName order) s).1.data = Data.rows rs →
        (list store tableName order s).1 = Except.ok (Data.rows rs)) ∧
      ((store (listQuery tableName order) s).1.data = Data.null ∨
        (store (listQuery tableName order) s).1.data = Data.undefined →
        (list store tableName order s).1 = Except.ok (Data.rows []))) ∧
    ((store (filterQuery tableName criteria order) s).1.error = none →
      (filter store tableName criteria order s).1 ≠ Except.ok Data.null ∧
      (filter store tableName criteria order s).1 ≠ Except.ok Data.undefined ∧
      (∀ rs, (store (filterQuery tableName criteria order) s).1.data = Data.rows rs →
        (filter store tableName criteria order s).1 = Except.ok (Data.rows rs)) ∧
      ((store (filterQuery tableName criteria order) s).1.data = Data.null ∨
        (store (filterQuery tableName criteria order) s).1.data = Data.undefined →
        (filter store tableName criteria order s).1 = Except.ok (Data.rows []))) ∧
    ((store User.listQuery s).1.error = none →
      (User.list store s).1 ≠ Except.ok Data.null ∧
      (User.list store s).1 ≠ Except.ok Data.undefined ∧
      (∀ rs, (store User.listQuery s).1.data = Data.rows rs →
        (User.list store s).1 = Except.ok (Data.rows rs)) ∧
      ((store User.listQuery s).1.data = Data.null ∨
        (store User.listQuery s).1.data = Data.undefined →
        (User.list store s).1 = Except.ok (Data.rows []))) := by
  refine ⟨?_, ?_, ?_⟩
  · intro h
    rw [list_eq, h]
    refine ⟨?_, ?_, ?_, ?_⟩
    · simpa using (orEmpty_ne_null _).1
    · simpa using (orEmpty_ne_null _).2
    · intro rs hd
      simp [hd, orEmpty]
    · rintro (hd | hd) <;> simp [hd, orEmpty]
  · intro h
    rw [filter_eq, h]
    refine ⟨?_, ?_, ?_, ?_⟩
    · simpa using (orEmpty_ne_null _).1
    · simpa using (orEmpty_ne_null _).2
    · intro rs hd
      simp [hd, orEmpty]
    · rintro (hd | hd) <;> simp [hd, orEmpty]
  · intro h
    rw [User_list_eq, h]
    refine ⟨?_, ?_, ?_, ?_⟩
    · simpa using (orEmpty_ne_null _).1
    · simpa using (orEmpty_ne_null _).2
    · intro rs hd
      simp [hd, orEmpty]
    · rintro (hd | hd) <;> simp [hd, orEmpty]

/-- On a table with no matching row and on a store that sends no data, the
reads return the empty sequence. -/
theorem reads_never_null_witness :
    (filter refStore "leads" (some [("status", JsValue.str "closed")]) none sampleDb).1
        = Except.ok (Data.rows []) ∧
    (list silentStore "leads" none ()).1 = Except.ok (Data.rows []) ∧
    (User.list silentStore ()).1 = Except.ok (Data.rows []) :=
  ⟨((reads_never_null refStore "leads" (some [("status", JsValue.str "closed")]) none
      sampleDb).2.1 (by decide)).2.2.1 [] (by decide),
   ((reads_never_null silentStore "leads" none none ()).1 rfl).2.2.2 (Or.inl rfl),
   ((reads_never_null silentStore "leads" none none ()).2.2 rfl).2.2.2 (Or.inl rfl)⟩

/-- C6: `list` and `filter` raise exactly when the response of the store
carries an error, and what they raise is that error; with no error in the
response they return a result. -/
theorem reads_fail_iff {σ : Type} (store : Store σ) (tableName : String)
    (criteria : Option Row) (order : Option String) (s : σ) :
    (∀ e, (list store tableName order s).1 = Except.error e ↔
      (store (listQuery tableName order) s).1.error = some e) ∧
    ((store (listQuery tableName order) s).1.error = none ↔
      ∃ d, (list store tableName order s).1 = Except.ok d) ∧
    (∀ e, (filter store tableName criteria order s).1 = Except.error e ↔
      (store (filterQuery tableName criteria order) s).1.error = some e) ∧
    ((store (filterQuery tableName criteria order) s).1.error = none ↔
      ∃ d, (filter store tableName criteria order s).1 = Except.ok d) := by
  refine ⟨?_, ?_, ?_, ?_⟩
  · intro e
    rw [list_eq]
    cases (store (listQuery tableName order) s).1.error <;> simp
  · rw [list_eq]
    cases (store (listQuery tableName order) s).1.error <;> simp
  · intro e
    rw [filter_eq]
    cases (store (filterQuery tableName criteria order) s).1.error <;> simp
  · rw [filter_eq]
    cases (store (filterQuery tableName criteria order) s).1.error <;> simp

/-- On a store that refuses every request, `list` and `filter` raise the
error of the store. -/
theorem reads_fail_iff_witness :
    (list failingStore "leads" (some "-id") ()).1
        = Except.error { message := "connection lost", code := "08006" } ∧
    (filter failingStore "leads" (some [("id", JsValue.num 1)]) none ()).1
        = Except.error { message := "connection lost", code := "08006" } :=
  ⟨((reads_fail_iff failingStore "leads" none (some "-id") ()).1 _).2 rfl,
   ((reads_fail_iff failingStore "leads" (some [("id", JsValue.num 1)]) none ()).2.2.1 _).2 rfl⟩

/-! ## The reference store: reads -/

theorem insertRow_nil (a : Row) (l : List Row) : insertRow [] a l = a :: l := by
  cases l <;> simp [insertRow, rowLe]

theorem sortRows_nil (rs : List Row) : sortRows [] rs = rs := by
  induction rs with
  | nil => rfl
  | cons a l ih =>
    have : sortRows [] (a :: l) = insertRow [] a (sortRows [] l) := rfl
    rw [this, ih, insertRow_nil]

theorem refStore_conjunctive : EvaluatesConjunctively refStore (fun db t => db t) := by
  intro q s columns hv ho hs
  simp [refStore, hv, ho, hs, shape, sortRows_nil]

theorem holds_criterionFilter (r : Row) (key : String) (value : JsValue) :
    (criterionFilter key value).holds r =
      (match value with
       | JsValue.null => decide (column r key = JsValue.null)
       | JsValue.undefined => decide (column r key = JsValue.null)
       | v => decide (column r key = v)) := by
  cases value <;> simp [criterionFilter, Filter.holds, isNullish]

theorem passes_filterQuery (tableName : String) (criteria : Row) (order : Option String)
    (r : Row) :
    passes (filterQuery tableName (some criteria) order).filters r = satisfies criteria r := by
  rw [filterQuery_filters, passes, satisfies]
  induction objectKeys criteria with
  | nil => rfl
  | cons k ks ih =>
    simp only [List.map_cons, List.all_cons, ih, holds_criterionFilter]

theorem listQuery_none (tableName : String) :
    listQuery tableName none =
      { table := tableName, verb := Verb.select "*", filters := [], orders := [],
        returning := false, single := false } := rfl

theorem filterQuery_shape (tableName : String) (criteria : Row) :
    (filterQuery tableName (some criteria) none).verb = Verb.select "*" ∧
    (filterQuery tableName (some criteria) none).table = tableName ∧
    (filterQuery tableName (some criteria) none).orders = [] ∧
    (filterQuery tableName (some criteria) none).single = false := by
  unfold filterQuery
  simp only [Option.getD_some, foldl_criteria]
  simp [Query.select, supabaseFrom]

/-- C3: on a store that evaluates the predicates of a plain read
conjunctively, `list()` returns the rows of the collection and
`filter(criteria)` returns exactly those of them, in the same order, that
satisfy the criteria on every key; `filter({})` returns what `list()` returns. -/
theorem filter_exact {σ : Type} (store : Store σ) (rowsOf : σ → String → List Row)
    (h : EvaluatesConjunctively store rowsOf) (tableName : String) (criteria : Row) (s : σ) :
    (list store tableName none s).1 = Except.ok (Data.rows (rowsOf s tableName)) ∧
    (filter store tableName (some criteria) none s).1 =
      Except.ok (Data.rows ((rowsOf s tableName).filter (satisfies criteria))) ∧
    (∀ r, r ∈ (rowsOf s tableName).filter (satisfies criteria) ↔
      r ∈ rowsOf s tableName ∧
      ∀ key ∈ objectKeys criteria,
        (isNullish (getProp criteria key) = true → column r key = JsValue.null) ∧
        (isNullish (getProp criteria key) = false → column r key = getProp criteria key)) ∧
    (filter store tableName (some []) none s).1 = (list store tableName none s).1 := by
  have hl : (list store tableName none s).1 = Except.ok (Data.rows (rowsOf s tableName)) := by
    have := h (listQuery tableName none) s "*" rfl rfl rfl
    rw [list_eq, this]
    simp [listQuery_none, passes, orEmpty]
  refine ⟨hl, ?_, ?_, ?_⟩
  · obtain ⟨hv, ht, ho, hs⟩ := filterQuery_shape tableName criteria
    have := h (filterQuery tableName (some criteria) none) s "*" hv ho hs
    rw [filter_eq, this]
    simp only [orEmpty, ht]
    congr 2
    apply List.filter_congr
    intro r _
    exact passes_filterQuery tableName criteria none r
  · intro r
    rw [List.mem_filter]
    apply and_congr_right
    intro _
    simp only [satisfies, List.all_eq_true]
    apply forall₂_congr
    intro key _
    cases getProp criteria key <;> simp [isNullish]
  · rw [filter_absent store tableName none (some []) (Or.inr rfl) s]

/-- On the sample leads, `filter({ status: 'booked', notes: null })` returns
the one booked lead without notes. -/
theorem filter_exact_witness :
    (filter refStore "leads" (some [("status", JsValue.str "booked"), ("notes", JsValue.null)])
        none sampleDb).1 =
      Except.ok (Data.rows
        [[("id", JsValue.num 1), ("status", JsValue.str "booked"), ("notes", JsValue.null)]]) :=
  (filter_exact refStore (fun db t => db t) refStore_conjunctive "leads"
    [("status", JsValue.str "booked"), ("notes", JsValue.null)] sampleDb).2.1.trans (by decide)

/-! ## Records and tables of the reference store -/

theorem lookup_append_fresh (obj : Row) (k : String) (v : JsValue)
    (h : k ∉ objectKeys obj) : (obj ++ [(k, v)]).lookup k = some v := by
  induction obj with
  | nil => simp [List.lookup]
  | cons a l ih =>
    obtain ⟨ak, av⟩ := a
    have hne : k ≠ ak := by
      intro he
      exact h (by simp [objectKeys, he])
    have hl : k ∉ objectKeys l := by
      intro hm
      exact h (by simp [objectKeys] at hm ⊢; exact Or.inr hm)
    have hb : (k == ak) = false := by simpa using hne
    simp only [List.cons_append, List.lookup, hb]
    exact ih hl

theorem lookup_map_set (obj : Row) (k : String) (v : JsValue) (h : k ∈ objectKeys obj) :
    (obj.map (fun kv => if kv.1 = k then (k, v) else kv)).lookup k = some v := by
  induction obj with
  | nil => simp [objectKeys] at h
  | cons a l ih =>
    obtain ⟨ak, av⟩ := a
    by_cases he : ak = k
    · subst he
      simp [List.lookup_cons]
    · have hl : k ∈ objectKeys l := by
        simp only [objectKeys, List.map_cons, List.mem_cons] at h
        rcases h with h | h
        · exact absurd h.symm he
        · exact h
      have hb : (k == ak) = false := by simpa using Ne.symm he
      rw [List.map_cons, if_neg he, List.lookup_cons, hb]
      exact ih hl

theorem getProp_setProp_same (obj : Row) (k : String) (v : JsValue) :
    getProp (setProp obj k v) k = v := by
  unfold setProp getProp
  by_cases h : k ∈ objectKeys obj
  · simp [h, lookup_map_set obj k v h]
  · simp [h, lookup_append_fresh obj k v h]

theorem lookup_append_ne (obj : Row) (k c : String) (v : JsValue) (h : c ≠ k) :
    (obj ++ [(k, v)]).lookup c = obj.lookup c := by
  induction obj with
  | nil =>
    have hb : (c == k) = false := by simpa using h
    simp [List.lookup, hb]
  | cons a l ih =>
    obtain ⟨ak, av⟩ := a
    by_cases he : c = ak
    · subst he
      simp [List.lookup]
    · have hb : (c == ak) = false := by simpa using he
      simp only [List.cons_append, List.lookup, hb]
      exact ih

theorem lookup_map_ne (obj : Row) (k c : String) (v : JsValue) (h : c ≠ k) :
    (obj.map (fun kv => if kv.1 = k then (k, v) else kv)).lookup c = obj.lookup c := by
  induction obj with
  | nil => rfl
  | cons a l ih =>
    obtain ⟨ak, av⟩ := a
    by_cases he : ak = k
    · subst he
      have hb : (c == ak) = false := by simpa using h
      rw [List.map_cons, if_pos rfl, List.lookup_cons, List.lookup_cons, hb]
      exact ih
    · rw [List.map_cons, if_neg he, List.lookup_cons, List.lookup_cons, ih]

theorem getProp_setProp_ne (obj : Row) (k c : String) (v : JsValue) (h : c ≠ k) :
    getProp (setProp obj k v) c = getProp obj c := by
  unfold setProp getProp
  by_cases hk : k ∈ objectKeys obj
  · simp [hk, lookup_map_ne obj k c v h]
  · simp [hk, lookup_append_ne obj k c v h]

theorem idOf_setProp_id (obj : Row) (v : JsValue) (hv : isNullish v = false) :
    idOf (setProp obj "id" v) = v := by
  unfold idOf column
  rw [getProp_setProp_same]
  cases v <;> simp_all [isNullish]

theorem idOf_assign (values r : Row) (h : "id" ∉ objectKeys values) :
    idOf (assign r values) = idOf r := by
  unfold assign
  induction values generalizing r with
  | nil => rfl
  | cons a l ih =>
    obtain ⟨ak, av⟩ := a
    have hne : "id" ≠ ak := by
      intro he
      exact h (by simp [objectKeys, he])
    have hl : "id" ∉ objectKeys l := by
      intro hm
      exact h (by simp [objectKeys] at hm ⊢; exact Or.inr hm)
    rw [List.foldl_cons, ih _ hl]
    simp [idOf, column, getProp_setProp_ne _ _ _ _ hne]

theorem maxNumId_ge (rs : List Row) :
    ∀ x ∈ rs, ∀ n, idOf x = JsValue.num n → n ≤ maxNumId rs := by
  induction rs with
  | nil => simp
  | cons a l ih =>
    intro x hx n hn
    rcases List.mem_cons.1 hx with rfl | hm
    · simp [maxNumId, hn]
    · have := ih x hm n hn
      unfold maxNumId
      cases idOf a <;> simp <;> omega

theorem freshId_fresh (rs : List Row) : ∀ x ∈ rs, idOf x ≠ freshId rs := by
  intro x hx he
  have := maxNumId_ge rs x hx (maxNumId rs + 1) he
  omega

theorem setTable_same (db : Db) (t : String) : setTable db t (db t) = db := by
  funext t1
  by_cases h : t1 = t <;> simp [setTable, h]

theorem setTable_apply (db : Db) (t : String) (rs : List Row) : setTable db t rs t = rs := by
  simp [setTable]

theorem setTable_other (db : Db) (t t1 : String) (rs : List Row) (h : t1 ≠ t) :
    setTable db t rs t1 = db t1 := by
  simp [setTable, h]

theorem validIds_iff (rs : List Row) :
    validIds rs = true ↔ (∀ x ∈ rs, isNullish (idOf x) = false) ∧ (rs.map idOf).Nodup := by
  simp [validIds]

theorem validIds_append_one (rs : List Row) (r : Row) :
    validIds (rs ++ [r]) = true ↔
      validIds rs = true ∧ isNullish (idOf r) = false ∧ ∀ x ∈ rs, idOf x ≠ idOf r := by
  have hn : (rs.map idOf ++ [idOf r]).Nodup ↔
      (rs.map idOf).Nodup ∧ ∀ x ∈ rs, idOf x ≠ idOf r := by
    rw [List.nodup_append]
    simp [List.disjoint_right]
  simp only [validIds_iff, List.map_append, List.map_cons, List.map_nil, hn,
    List.mem_append, List.mem_singleton]
  constructor
  · rintro ⟨h1, h2, h3⟩
    exact ⟨⟨fun x hx => h1 x (Or.inl hx), h2⟩, h1 r (Or.inr rfl), h3⟩
  · rintro ⟨⟨h1, h2⟩, h3, h4⟩
    refine ⟨?_, h2, h4⟩
    rintro x (hx | rfl)
    · exact h1 x hx
    · exact h3

/-! ## `create` -/

theorem createQuery_eq (tableName : String) (values : Row) :
    createQuery tableName values =
      { table := tableName, verb := Verb.insert values, filters := [], orders := [],
        returning := true, single := true } := rfl

theorem create_eq {σ : Type} (store : Store σ) (tableName : String) (values : Row) (s : σ) :
    (create store tableName values s).1 =
      match (store (createQuery tableName values) s).1.error with
      | some e => Except.error e
      | none => Except.ok (store (createQuery tableName values) s).1.data := by
  unfold create
  cases h : (store (createQuery tableName values) s).1.error <;> simp [h]

theorem create_refStore (db : Db) (tableName : String) (values r : Row)
    (hr : r = if isNullish (getProp values "id") then
      setProp values "id" (freshId (db tableName)) else values) :
    create refStore tableName values db =
      if validIds (db tableName ++ [r]) then
        (Except.ok (Data.row r), setTable db tableName (db tableName ++ [r]))
      else (Except.error duplicateKey, db) := by
  by_cases hv : validIds (db tableName ++ [r]) = true
  · simp [create, createQuery_eq, refStore, shape, ← hr, hv]
  · simp [create, createQuery_eq, refStore, shape, ← hr, hv]

/-- C7: `create(values)` sends one insert of `values` that asks for the written
row back. On every store it raises exactly when the response carries an error
(and raises that error), and otherwise returns the response's data: the row the
store reports, or null when the store reports none. On the reference store the
returned row carries the id the store assigned and is the row stored. -/
theorem create_contract (tableName : String) (values : Row) :
    createQuery tableName values =
      { table := tableName, verb := Verb.insert values, filters := [], orders := [],
        returning := true, single := true } ∧
    (∀ (σ : Type) (store : Store σ) (s : σ),
      (∀ e, (create store tableName values s).1 = Except.error e ↔
        (store (createQuery tableName values) s).1.error = some e) ∧
      ((store (createQuery tableName values) s).1.error = none →
        (create store tableName values s).1 =
          Except.ok (store (createQuery tableName values) s).1.data) ∧
      (∀ r, (store (createQuery tableName values) s).1 = { data := Data.row r, error := none } →
        (create store tableName values s).1 = Except.ok (Data.row r)) ∧
      ((store (createQuery tableName values) s).1 = { data := Data.null, error := none } →
        (create store tableName values s).1 = Except.ok Data.null)) ∧
    (∀ db : Db, validIds (db tableName) = true → isNullish (getProp values "id") = true →
      create refStore tableName values db =
        (Except.ok (Data.row (setProp values "id" (freshId (db tableName)))),
         setTable db tableName
           (db tableName ++ [setProp values "id" (freshId (db tableName))]))) := by
  refine ⟨rfl, ?_, ?_⟩
  · intro σ store s
    refine ⟨?_, ?_, ?_, ?_⟩
    · intro e
      rw [create_eq]
      cases (store (createQuery tableName values) s).1.error <;> simp
    · intro h
      rw [create_eq, h]
    · intro r h
      rw [create_eq, h]
    · intro h
      rw [create_eq, h]
  · intro db hv hn
    rw [create_refStore db tableName values _ rfl]
    have hid : idOf (setProp values "id" (freshId (db tableName))) = freshId (db tableName) :=
      idOf_setProp_id _ _ rfl
    have hval : validIds (db tableName ++ [setProp values "id" (freshId (db tableName))]) = true := by
      rw [validIds_append_one, hid]
      exact ⟨hv, rfl, freshId_fresh _⟩
    simp only [hn, if_true]
    rw [if_pos hval]

/-- On the sample leads, `create({ status: 'new' })` returns the stored row
with the id 4 the store assigned; on a store that sends no row it returns null. -/
theorem create_contract_witness :
    (create refStore "leads" [("status", JsValue.str "new")] sampleDb).1 =
      Except.ok (Data.row [("status", JsValue.str "new"), ("id", JsValue.num 4)]) ∧
    (create silentStore "leads" [("status", JsValue.str "new")] ()).1 = Except.ok Data.null :=
  ⟨(congrArg Prod.fst ((create_contract "leads" [("status", JsValue.str "new")]).2.2 sampleDb
      (by decide) (by decide))).trans (by decide),
   ((create_contract "leads" [("status", JsValue.str "new")]).2.1 Unit silentStore ()).2.2.2 rfl⟩

/-! ## `update` -/

theorem updateQuery_eq (tableName : String) (id : JsValue) (values : Row) :
    updateQuery tableName id values =
      { table := tableName, verb := Verb.update values, filters := [Filter.eq "id" id],
        orders := [], returning := true, single := true } := rfl

theorem update_eq {σ : Type} (store : Store σ) (tableName : String) (id : JsValue)
    (values : Row) (s : σ) :
    (update store tableName id values s).1 =
      match (store (updateQuery tableName id values) s).1.error with
      | some e => Except.error e
      | none => Except.ok (store (updateQuery tableName id values) s).1.data := by
  unfold update
  cases h : (store (updateQuery tableName id values) s).1.error <;> simp [h]

theorem passes_id (id : JsValue) (r : Row) :
    passes [Filter.eq "id" id] r = (!isNullish id && decide (idOf r = id)) := by
  simp [passes, Filter.holds, idOf]

theorem passes_id_false (id : JsValue) (r : Row) (h : idOf r ≠ id) :
    passes [Filter.eq "id" id] r = false := by
  simp [passes_id, h]

theorem passes_id_true (r : Row) (h : isNullish (idOf r) = false) :
    passes [Filter.eq "id" (idOf r)] r = true := by
  simp [passes_id, h]

/-- The three ways the reference store ends an update by id, by the rows that
have the id. -/
theorem update_refStore (db : Db) (tableName : String) (id : JsValue) (values : Row)
    (next found : List Row)
    (hnext : next = (db tableName).map
      (fun r => if passes [Filter.eq "id" id] r then assign r values else r))
    (hfound : found = (db tableName).filter (passes [Filter.eq "id" id])) :
    update refStore tableName id values db =
      if next = db tableName ∨ validIds next = true then
        match found with
        | [] => (Except.ok Data.null, setTable db tableName next)
        | [x] => (Except.ok (Data.row (assign x values)), setTable db tableName next)
        | _ => (Except.error { message := "JSON object requested, multiple (or no) rows returned",
                               code := "PGRST116" }, db)
      else (Except.error duplicateKey, db) := by
  by_cases hv : next = db tableName ∨ validIds next = true
  · rw [if_pos hv]
    rcases hf : found with _ | ⟨x, _ | ⟨y, l⟩⟩
    all_goals
      rw [hfound] at hf
      simp [update, updateQuery_eq, refStore, shape, ← hnext, hf, hv]
  · rw [if_neg hv]
    simp [update, updateQuery_eq, refStore, shape, ← hnext, hv]

theorem update_state (db : Db) (tableName : String) (id : JsValue) (values : Row) :
    (update refStore tableName id values db).2 = db ∨
    (update refStore tableName id values db).2 = setTable db tableName
      ((db tableName).map (fun r => if passes [Filter.eq "id" id] r then assign r values else r)) := by
  rw [update_refStore db tableName id values _ _ rfl rfl]
  split
  · split <;> simp
  · simp

theorem update_absent (db : Db) (tableName : String) (id : JsValue) (values : Row)
    (h : ∀ x ∈ db tableName, passes [Filter.eq "id" id] x = false) :
    update refStore tableName id values db = (Except.ok Data.null, db) := by
  have hnext : (db tableName).map
      (fun r => if passes [Filter.eq "id" id] r then assign r values else r) = db tableName := by
    conv_rhs => rw [← List.map_id (db tableName)]
    apply List.map_congr_left
    intro x hx
    simp [h x hx]
  have hfound : (db tableName).filter (passes [Filter.eq "id" id]) = [] := by
    rw [List.filter_eq_nil_iff]
    intro x hx
    simp [h x hx]
  rw [update_refStore db tableName id values _ _ hnext.symm hfound.symm]
  simp [setTable_same]

theorem filter_unique_id (rs : List Row) (hv : validIds rs = true) (x : Row) (hx : x ∈ rs) :
    rs.filter (passes [Filter.eq "id" (idOf x)]) = [x] := by
  induction rs with
  | nil => simp at hx
  | cons a l ih =>
    have hva : validIds ([a] ++ l) = true := hv
    obtain ⟨hall, hnd⟩ := (validIds_iff (a :: l)).1 hv
    have hl : validIds l = true :=
      (validIds_iff l).2 ⟨fun y hy => hall y (List.mem_cons_of_mem a hy),
        (List.nodup_cons.1 hnd).2⟩
    have hna : ∀ y ∈ l, idOf y ≠ idOf a := by
      intro y hy he
      apply (List.nodup_cons.1 hnd).1
      rw [← he]
      exact List.mem_map_of_mem idOf hy
    rcases List.mem_cons.1 hx with rfl | hm
    · have hnone : l.filter (passes [Filter.eq "id" (idOf x)]) = [] := by
        rw [List.filter_eq_nil_iff]
        intro y hy
        simp [passes_id_false _ _ (hna y hy)]
      rw [List.filter_cons, if_pos (passes_id_true x (hall x (List.mem_cons_self x l))), hnone]
    · rw [List.filter_cons, if_neg (by simp [passes_id_false _ _ (Ne.symm (hna x hm))])]
      exact ih hl hm

theorem validIds_map (rs : List Row) (g : Row → Row) (hg : ∀ r ∈ rs, idOf (g r) = idOf r)
    (hv : validIds rs = true) : validIds (rs.map g) = true := by
  obtain ⟨hall, hnd⟩ := (validIds_iff rs).1 hv
  rw [validIds_iff]
  constructor
  · intro y hy
    obtain ⟨r, hr, rfl⟩ := List.mem_map.1 hy
    rw [hg r hr]
    exact hall r hr
  · have : (rs.map g).map idOf = rs.map idOf := by
      rw [List.map_map]
      apply List.map_congr_left
      intro r hr
      exact hg r hr
    rw [this]
    exact hnd

theorem update_present (db : Db) (tableName : String) (values x : Row)
    (hv : validIds (db tableName) = true) (hx : x ∈ db tableName) :
    (∀ d, (update refStore tableName (idOf x) values db).1 = Except.ok d →
      d = Data.row (assign x values)) ∧
    ("id" ∉ objectKeys values →
      update refStore tableName (idOf x) values db =
        (Except.ok (Data.row (assign x values)),
         setTable db tableName ((db tableName).map
           (fun r => if passes [Filter.eq "id" (idOf x)] r then assign r values else r)))) := by
  have hfound := filter_unique_id (db tableName) hv x hx
  rw [update_refStore db tableName (idOf x) values _ _ rfl hfound.symm]
  constructor
  · intro d
    split <;> simp
    intro h
    exact h.symm
  · intro hk
    rw [if_pos]
    right
    apply validIds_map _ _ _ hv
    intro r _
    split
    · exact idOf_assign values r hk
    · rfl

/-- C8: `update(id, values)` sends one update of `values` restricted by the
single predicate `id = id` that asks for the written row back. On every store
it raises exactly when the response carries an error, and otherwise returns the
response's data. On the reference store no row with another id changes, no
other table changes, a missing id gives null with the store unchanged, and the
one row that has the id comes back updated. -/
theorem update_contract (tableName : String) (id : JsValue) (values : Row) :
    updateQuery tableName id values =
      { table := tableName, verb := Verb.update values, filters := [Filter.eq "id" id],
        orders := [], returning := true, single := true } ∧
    (∀ (σ : Type) (store : Store σ) (s : σ),
      (∀ e, (update store tableName id values s).1 = Except.error e ↔
        (store (updateQuery tableName id values) s).1.error = some e) ∧
      ((store (updateQuery tableName id values) s).1.error = none →
        (update store tableName id values s).1 =
          Except.ok (store (updateQuery tableName id values) s).1.data)) ∧
    (∀ db : Db,
      ((update refStore tableName id values db).2 tableName).length = (db tableName).length ∧
      (∀ (k : Nat) (x : Row), (db tableName)[k]? = some x → idOf x ≠ id →
        ((update refStore tableName id values db).2 tableName)[k]? = some x) ∧
      (∀ t1, t1 ≠ tableName → (update refStore tableName id values db).2 t1 = db t1) ∧
      ((∀ x ∈ db tableName, idOf x ≠ id) →
        update refStore tableName id values db = (Except.ok Data.null, db)) ∧
      (∀ x, validIds (db tableName) = true → x ∈ db tableName → idOf x = id →
        (∀ d, (update refStore tableName id values db).1 = Except.ok d →
          d = Data.row (assign x values)) ∧
        ("id" ∉ objectKeys values →
          (update refStore tableName id values db).1 = Except.ok (Data.row (assign x values)) ∧
          (update refStore tableName id values db).2 tableName =
            (db tableName).map (fun r => if idOf r = id then assign r values else r)))) := by
  refine ⟨rfl, ?_, ?_⟩
  · intro σ store s
    constructor
    · intro e
      rw [update_eq]
      cases (store (updateQuery tableName id values) s).1.error <;> simp
    · intro h
      rw [update_eq, h]
  · intro db
    refine ⟨?_, ?_, ?_, ?_, ?_⟩
    · rcases update_state db tableName id values with h | h <;> rw [h]
      simp [setTable_apply]
    · intro k x hk hne
      rcases update_state db tableName id values with h | h <;> rw [h]
      · exact hk
      · rw [setTable_apply, List.getElem?_map, hk]
        simp [passes_id_false id x hne]
    · intro t1 ht
      rcases update_state db tableName id values with h | h <;> rw [h]
      exact setTable_other _ _ _ _ ht
    · intro h
      exact update_absent db tableName id values (fun x hx => passes_id_false id x (h x hx))
    · intro x hv hx hid
      subst hid
      obtain ⟨h1, h2⟩ := update_present db tableName values x hv hx
      refine ⟨h1, fun hk => ?_⟩
      rw [h2 hk]
      refine ⟨rfl, ?_⟩
      show setTable db tableName _ tableName = _
      rw [setTable_apply]
      apply List.map_congr_left
      intro r hr
      have hn : isNullish (idOf x) = false := ((validIds_iff _).1 hv).1 x hx
      simp [passes_id, hn]

/-- On the sample leads, `update(2, { status: 'contacted' })` returns lead 2
with the new status, and `update(9, ...)` returns null and changes nothing. -/
theorem update_contract_witness :
    (update refStore "leads" (JsValue.num 2) [("status", JsValue.str "contacted")] sampleDb).1 =
      Except.ok (Data.row [("id", JsValue.num 2), ("status", JsValue.str "contacted"),
        ("notes", JsValue.str "call")]) ∧
    update refStore "leads" (JsValue.num 9) [("status", JsValue.str "contacted")] sampleDb =
      (Except.ok Data.null, sampleDb) :=
  ⟨(((update_contract "leads" (JsValue.num 2) [("status", JsValue.str "contacted")]).2.2
      sampleDb).2.2.2.2
      [("id", JsValue.num 2), ("status", JsValue.str "assigned"), ("notes", JsValue.str "call")]
      (by decide) (by decide) (by decide)).2 (by decide) |>.1.trans (by decide),
   ((update_contract "leads" (JsValue.num 9) [("status", JsValue.str "contacted")]).2.2
      sampleDb).2.2.2.1 (by decide)⟩

/-! ## `delete` -/

theorem deleteQuery_eq (tableName : String) (id : JsValue) :
    deleteQuery tableName id =
      { table := tableName, verb := Verb.delete, filters := [Filter.eq "id" id],
        orders := [], returning := false, single := false } := rfl

theorem delete_eq {σ : Type} (store : Store σ) (tableName : String) (id : JsValue) (s : σ) :
    (delete store tableName id s).1 =
      match (store (deleteQuery tableName id) s).1.error with
      | some e => Except.error e
      | none => Except.ok true := by
  unfold delete
  cases h : (store (deleteQuery tableName id) s).1.error <;> simp [h]

theorem delete_refStore (db : Db) (tableName : String) (id : JsValue) :
    delete refStore tableName id db =
      (Except.ok true,
       setTable db tableName ((db tableName).filter (fun r => !passes [Filter.eq "id" id] r))) := by
  simp [delete, deleteQuery_eq, refStore, shape]

theorem filter_not_passes_absent (rs : List Row) (id : JsValue)
    (h : ∀ x ∈ rs, idOf x ≠ id) :
    rs.filter (fun r => !passes [Filter.eq "id" id] r) = rs := by
  rw [List.filter_eq_self]
  intro x hx
  simp [passes_id_false id x (h x hx)]

/-- C9: `delete(id)` sends one delete restricted by the single predicate
`id = id`. On every store it raises exactly when the response carries an error
(and raises that error), returns `true` otherwise and never returns `false`.
On the reference store it returns `true` for every id, removes the rows with
that id and no other row, and changes nothing when no row has the id. -/
theorem delete_contract (tableName : String) (id : JsValue) :
    deleteQuery tableName id =
      { table := tableName, verb := Verb.delete, filters := [Filter.eq "id" id],
        orders := [], returning := false, single := false } ∧
    (∀ (σ : Type) (store : Store σ) (s : σ),
      (∀ e, (delete store tableName id s).1 = Except.error e ↔
        (store (deleteQuery tableName id) s).1.error = some e) ∧
      ((store (deleteQuery tableName id) s).1.error = none ↔
        (delete store tableName id s).1 = Except.ok true) ∧
      (delete store tableName id s).1 ≠ Except.ok false) ∧
    (∀ db : Db,
      (delete refStore tableName id db).1 = Except.ok true ∧
      ((∀ x ∈ db tableName, idOf x ≠ id) → delete refStore tableName id db = (Except.ok true, db)) ∧
      (isNullish id = false →
        (delete refStore tableName id db).2 tableName =
          (db tableName).filter (fun r => decide (idOf r ≠ id))) ∧
      (∀ t1, t1 ≠ tableName → (delete refStore tableName id db).2 t1 = db t1)) := by
  refine ⟨rfl, ?_, ?_⟩
  · intro σ store s
    refine ⟨?_, ?_, ?_⟩
    · intro e
      rw [delete_eq]
      cases (store (deleteQuery tableName id) s).1.error <;> simp
    · rw [delete_eq]
      cases (store (deleteQuery tableName id) s).1.error <;> simp
    · rw [delete_eq]
      cases (store (deleteQuery tableName id) s).1.error <;> simp
  · intro db
    rw [delete_refStore]
    refine ⟨rfl, ?_, ?_, ?_⟩
    · intro h
      rw [filter_not_passes_absent _ _ h, setTable_same]
    · intro hn
      show setTable db tableName _ tableName = _
      rw [setTable_apply]
      apply List.filter_congr
      intro x _
      simp [passes_id, hn]
    · intro t1 ht
      exact setTable_other _ _ _ _ ht

/-- On the sample leads, `delete(2)` and `delete(9)` both return `true`; the
second leaves the store as it was. -/
theorem delete_contract_witness :
    (delete refStore "leads" (JsValue.num 2) sampleDb).1 = Except.ok true ∧
    delete refStore "leads" (JsValue.num 9) sampleDb = (Except.ok true, sampleDb) ∧
    (delete refStore "leads" (JsValue.num 2) sampleDb).2 "leads" =
      [[("id", JsValue.num 1), ("status", JsValue.str "booked"), ("notes", JsValue.null)],
       [("id", JsValue.num 3), ("status", JsValue.str "booked"), ("notes", JsValue.str "")]] :=
  ⟨((delete_contract "leads" (JsValue.num 2)).2.2 sampleDb).1,
   ((delete_contract "leads" (JsValue.num 9)).2.2 sampleDb).2.1 (by decide),
   (((delete_contract "leads" (JsValue.num 2)).2.2 sampleDb).2.2.1 rfl).trans (by decide)⟩

/-! ## Create, update, delete in sequence -/

theorem create_ok_inv (db : Db) (tableName : String) (values r : Row)
    (h : (create refStore tableName values db).1 = Except.ok (Data.row r)) :
    validIds (db tableName ++ [r]) = true ∧
    (create refStore tableName values db).2 = setTable db tableName (db tableName ++ [r]) := by
  rw [create_refStore db tableName values _ rfl] at h ⊢
  by_cases hv : validIds (db tableName ++ [if isNullish (getProp values "id") then
      setProp values "id" (freshId (db tableName)) else values]) = true
  · rw [if_pos hv] at h ⊢
    have hr : (if isNullish (getProp values "id") then
        setProp values "id" (freshId (db tableName)) else values) = r := by
      simpa using h
    rw [hr] at hv ⊢
    exact ⟨hv, rfl⟩
  · rw [if_neg hv] at h
    simp at h

theorem getProp_id_eq (r : Row) (h : isNullish (idOf r) = false) : getProp r "id" = idOf r := by
  unfold idOf column at h ⊢
  cases hg : getProp r "id" <;> simp_all [isNullish]

theorem update_appended (db1 : Db) (tableName : String) (v1 r : Row) (coll : List Row)
    (h1 : db1 tableName = coll ++ [r]) (hv : validIds (coll ++ [r]) = true) :
    ∃ r2, (update refStore tableName (idOf r) v1 db1).2 tableName = coll ++ [r2] ∧
      (r2 = r ∨ r2 = assign r v1) ∧
      ∀ t1, t1 ≠ tableName → (update refStore tableName (idOf r) v1 db1).2 t1 = db1 t1 := by
  obtain ⟨-, hn, hne⟩ := (validIds_append_one coll r).1 hv
  rcases update_state db1 tableName (idOf r) v1 with h | h <;> rw [h]
  · exact ⟨r, h1, Or.inl rfl, fun _ _ => rfl⟩
  · refine ⟨assign r v1, ?_, Or.inr rfl, fun t1 ht => setTable_other _ _ _ _ ht⟩
    rw [setTable_apply, h1, List.map_append]
    congr 1
    · conv_rhs => rw [← List.map_id coll]
      apply List.map_congr_left
      intro x hx
      simp [passes_id_false _ x (hne x hx)]
    · simp [passes_id_true r hn]

theorem filter_by_id_refStore (db : Db) (tableName : String) (i : JsValue)
    (hi : isNullish i = false) :
    filter refStore tableName (some [("id", i)]) none db =
      (Except.ok (Data.rows ((db tableName).filter (passes [Filter.eq "id" i]))), db) := by
  have hq : filterQuery tableName (some [("id", i)]) none =
      { table := tableName, verb := Verb.select "*", filters := [Filter.eq "id" i],
        orders := [], returning := false, single := false } := by
    cases i <;> simp_all [isNullish, filterQuery, objectKeys, getProp, List.lookup,
      Query.eq, Query.select, supabaseFrom]
  simp [filter, hq, refStore, shape, sortRows_nil, orEmpty]

/-- C10: on the reference store, which keeps ids unique, when `create(values)`
returns a row, `update` of that row's id with any values followed by `delete`
of that id returns `true` and leaves no row with that id; the rows the
collection had before are all still there, unchanged and in place, and no
other table changes. When the update does not write the `id` field the store
is back in the state before the create. A following `filter` on that id
returns the empty sequence and changes nothing. -/
theorem create_update_delete (db db1 db2 db3 : Db) (tableName : String) (values v1 r : Row)
    (ru : Except PostgrestError Data) (rd : Except PostgrestError Bool)
    (hc : create refStore tableName values db = (Except.ok (Data.row r), db1))
    (hu : update refStore tableName (getProp r "id") v1 db1 = (ru, db2))
    (hd : delete refStore tableName (getProp r "id") db2 = (rd, db3)) :
    rd = Except.ok true ∧
    (∀ x ∈ db3 tableName, getProp x "id" ≠ getProp r "id") ∧
    (∃ extra, db3 tableName = db tableName ++ extra) ∧
    (∀ t1, t1 ≠ tableName → db3 t1 = db t1) ∧
    ("id" ∉ objectKeys v1 → db3 = db) ∧
    filter refStore tableName (some [("id", getProp r "id")]) none db3 =
      (Except.ok (Data.rows []), db3) := by
  obtain ⟨hv, hdb1⟩ := create_ok_inv db tableName values r (by rw [hc])
  rw [hc] at hdb1
  simp only at hdb1
  obtain ⟨hvc, hn, hne⟩ := (validIds_append_one _ r).1 hv
  have hi : getProp r "id" = idOf r := getProp_id_eq r hn
  rw [hi] at hu hd ⊢
  have h1 : db1 tableName = db tableName ++ [r] := by rw [hdb1, setTable_apply]
  obtain ⟨r2, h2, hr2, h2o⟩ := update_appended db1 tableName v1 r (db tableName) h1 hv
  rw [hu] at h2 h2o
  simp only at h2 h2o
  rw [delete_refStore] at hd
  have hrd : rd = Except.ok true := (congrArg Prod.fst hd).symm
  have hdb3 : db3 = setTable db2 tableName
      ((db2 tableName).filter (fun x => !passes [Filter.eq "id" (idOf r)] x)) :=
    (congrArg Prod.snd hd).symm
  have h3 : db3 tableName = db tableName ++
      [r2].filter (fun x => !passes [Filter.eq "id" (idOf r)] x) := by
    rw [hdb3, setTable_apply, h2, List.filter_append, filter_not_passes_absent _ _ hne]
  have h3o : ∀ t1, t1 ≠ tableName → db3 t1 = db t1 := by
    intro t1 ht
    rw [hdb3, setTable_other _ _ _ _ ht, h2o t1 ht, hdb1, setTable_other _ _ _ _ ht]
  have hgone : ∀ x ∈ db3 tableName, idOf x ≠ idOf r := by
    intro x hx
    rw [h3, List.mem_append] at hx
    rcases hx with hx | hx
    · exact hne x hx
    · have := (List.mem_filter.1 hx).2
      intro he
      simp [passes_id, hn, he] at this
  refine ⟨hrd, ?_, ⟨_, h3⟩, h3o, ?_, ?_⟩
  · intro x hx he
    apply hgone x hx
    unfold idOf column
    rw [he, hi]
  · intro hk
    have hid2 : idOf r2 = idOf r := by
      rcases hr2 with rfl | rfl
      · rfl
      · exact idOf_assign v1 r hk
    funext t1
    by_cases ht : t1 = tableName
    · subst ht
      rw [h3]
      have : passes [Filter.eq "id" (idOf r)] r2 = true := by
        rw [← hid2]
        exact passes_id_true r2 (by rw [hid2]; exact hn)
      simp [List.filter_cons, this]
    · exact h3o t1 ht
  · rw [filter_by_id_refStore db3 tableName (idOf r) hn]
    have : (db3 tableName).filter (passes [Filter.eq "id" (idOf r)]) = [] := by
      rw [List.filter_eq_nil_iff]
      intro x hx
      simp [passes_id_false _ x (hgone x hx)]
    rw [this]

/-- On the sample leads: a created lead gets id 4; after `update(4, ...)` and
`delete(4)` the table holds the sample leads again and `filter({ id: 4 })`
returns the empty sequence. -/
theorem create_update_delete_witness :
    (delete refStore "leads" (JsValue.num 4)
      (update refStore "leads" (JsValue.num 4) [("status", JsValue.str "contacted")]
        (create refStore "leads" [("status", JsValue.str "new")] sampleDb).2).2).2 = sampleDb ∧
    (filter refStore "leads" (some [("id", JsValue.num 4)]) none
      (delete refStore "leads" (JsValue.num 4)
        (update refStore "leads" (JsValue.num 4) [("status", JsValue.str "contacted")]
          (create refStore "leads" [("status", JsValue.str "new")] sampleDb).2).2).2).1 =
      Except.ok (Data.rows []) :=
  have h := create_update_delete sampleDb
    (create refStore "leads" [("status", JsValue.str "new")] sampleDb).2
    (update refStore "leads" (JsValue.num 4) [("status", JsValue.str "contacted")]
      (create refStore "leads" [("status", JsValue.str "new")] sampleDb).2).2
    (delete refStore "leads" (JsValue.num 4)
      (update refStore "leads" (JsValue.num 4) [("status", JsValue.str "contacted")]
        (create refStore "leads" [("status", JsValue.str "new")] sampleDb).2).2).2
    "leads" [("status", JsValue.str "new")] [("status", JsValue.str "contacted")]
    [("status", JsValue.str "new"), ("id", JsValue.num 4)]
    (update refStore "leads" (JsValue.num 4) [("status", JsValue.str "contacted")]
      (create refStore "leads" [("status", JsValue.str "new")] sampleDb).2).1
    (delete refStore "leads" (JsValue.num 4)
      (update refStore "leads" (JsValue.num 4) [("status", JsValue.str "contacted")]
        (create refStore "leads" [("status", JsValue.str "new")] sampleDb).2).2).1
    (Prod.ext (by decide) rfl) rfl rfl
  ⟨h.2.2.2.2.1 (by decide), congrArg Prod.fst h.2.2.2.2.2⟩

/-! ## Object spread -/

theorem objectKeys_setProp (obj : Row) (k : String) (v : JsValue) :
    objectKeys (setProp obj k v) =
      if k ∈ objectKeys obj then objectKeys obj else objectKeys obj ++ [k] := by
  unfold setProp
  by_cases h : k ∈ objectKeys obj
  · have hc : (objectKeys obj).contains k = true := by simpa using h
    rw [if_pos hc, if_pos h]
    unfold objectKeys
    rw [List.map_map]
    conv_rhs => rw [← List.map_id (List.map Prod.fst obj), List.map_map]
    apply List.map_congr_left
    intro kv _
    by_cases hk : kv.1 = k <;> simp [hk]
  · have hc : ¬ (objectKeys obj).contains k = true := by simpa using h
    rw [if_neg hc, if_neg h]
    simp [objectKeys]

theorem mem_objectKeys_setProp (obj : Row) (k c : String) (v : JsValue) :
    c ∈ objectKeys (setProp obj k v) ↔ c ∈ objectKeys obj ∨ c = k := by
  rw [objectKeys_setProp]
  by_cases h : k ∈ objectKeys obj
  · simp only [h, if_true]
    constructor
    · exact Or.inl
    · rintro (hc | rfl)
      · exact hc
      · exact h
  · simp [h]

theorem nodup_objectKeys_setProp (obj : Row) (k : String) (v : JsValue)
    (h : (objectKeys obj).Nodup) : (objectKeys (setProp obj k v)).Nodup := by
  rw [objectKeys_setProp]
  by_cases hk : k ∈ objectKeys obj
  · simpa [hk] using h
  · simp only [hk, if_false]
    rw [List.nodup_append]
    refine ⟨h, List.nodup_singleton k, ?_⟩
    simp [List.disjoint_right, hk]

theorem spread_fold (source : Row) (ks : List String) (target : Row) :
    (∀ c, c ∈ objectKeys (ks.foldl (fun acc key => setProp acc key (getProp source key)) target)
      ↔ c ∈ objectKeys target ∨ c ∈ ks) ∧
    (∀ c, getProp (ks.foldl (fun acc key => setProp acc key (getProp source key)) target) c =
      if c ∈ ks then getProp source c else getProp target c) ∧
    ((objectKeys target).Nodup →
      (objectKeys (ks.foldl (fun acc key => setProp acc key (getProp source key)) target)).Nodup) := by
  induction ks generalizing target with
  | nil => simp
  | cons k ks ih =>
    obtain ⟨ih1, ih2, ih3⟩ := ih (setProp target k (getProp source k))
    refine ⟨?_, ?_, ?_⟩
    · intro c
      rw [List.foldl_cons, ih1, mem_objectKeys_setProp, List.mem_cons]
      tauto
    · intro c
      rw [List.foldl_cons, ih2]
      by_cases hc : c ∈ ks
      · simp [hc]
      · by_cases hk : c = k
        · subst hk
          simp [hc, getProp_setProp_same]
        · simp [hc, hk, getProp_setProp_ne _ _ _ _ hk]
    · intro hn
      rw [List.foldl_cons]
      exact ih3 (nodup_objectKeys_setProp _ _ _ hn)

theorem mem_objectKeys_spread (target source : Row) (c : String) :
    c ∈ objectKeys (spread target source) ↔ c ∈ objectKeys target ∨ c ∈ objectKeys source :=
  (spread_fold source (objectKeys source) target).1 c

theorem getProp_spread (target source : Row) (c : String) :
    getProp (spread target source) c =
      if c ∈ objectKeys source then getProp source c else getProp target c :=
  (spread_fold source (objectKeys source) target).2.1 c

theorem nodup_objectKeys_spread (target source : Row) (h : (objectKeys target).Nodup) :
    (objectKeys (spread target source)).Nodup :=
  (spread_fold source (objectKeys source) target).2.2 h

/-! ## `User.me` -/

theorem me_signed_in {σ : Type} (u : AuthUser) (store : Store σ) (s : σ) :
    User.me { session := some { user := some u }, error := none } store s =
      (Except.ok (some
        (spread (spread [("id", u.id), ("email", u.email)] u.user_metadata)
          (orEmptyObject (store (User.profileQuery u.email) s).1.data))),
       (store (User.profileQuery u.email) s).2) := by
  unfold User.me
  simp only [Option.bind]
  cases (store (User.profileQuery u.email) s).1.error <;> rfl

/-- C11: when `getSession` reports no error and there is no session, or a
session without a user, `User.me()` returns null on every store and leaves the
store state as it was; on a store that records its requests the record stays
as it was, so no profile query is sent; the result is never a user record
and never an error. -/
theorem me_no_session (getSession : AuthResponse) (herr : getSession.error = none)
    (hs : getSession.session = none ∨ getSession.session = some { user := none }) :
    ∀ (σ : Type) (store : Store σ) (s : σ),
      User.me getSession store s = (Except.ok none, s) ∧
      (∀ log : List Query, (User.me getSession (logged store) (s, log)).2.2 = log) ∧
      (∀ r, (User.me getSession store s).1 ≠ Except.ok (some r)) ∧
      (∀ e, (User.me getSession store s).1 ≠ Except.error e) := by
  have h : ∀ (τ : Type) (st : Store τ) (t : τ), User.me getSession st t = (Except.ok none, t) := by
    intro τ st t
    unfold User.me
    rcases hs with hs | hs <;> simp [herr, hs]
  intro σ store s
  refine ⟨h σ store s, ?_, ?_, ?_⟩
  · intro log
    rw [h]
  · intro r
    rw [h]
    simp
  · intro e
    rw [h]
    simp

/-- With a null session and with a session that has no user, `User.me()` on
the recording reference store returns null and records no request. -/
theorem me_no_session_witness :
    User.me { session := none, error := none } (logged refStore) (profileDb, []) =
      (Except.ok none, (profileDb, [])) ∧
    (User.me { session := some { user := none }, error := none } (logged refStore)
      (profileDb, [])).2.2 = [] :=
  ⟨(me_no_session { session := none, error := none } rfl (Or.inl rfl)
      (Db × List Query) (logged refStore) (profileDb, [])).1,
   (me_no_session { session := some { user := none }, error := none } rfl (Or.inr rfl)
      Db refStore profileDb).2.1 []⟩

/-- C12: for a session user and a profile row answered by the store, the
record `User.me()` returns has each key once, its keys are `id`, `email`, the
keys of `user_metadata` and the keys of the profile, and the value under a
key is the profile's when the profile has the key, else the metadata's when
the metadata has it, else the session user's id or email. -/
theorem me_merge {σ : Type} (u : AuthUser) (profile : Row) (store : Store σ) (s : σ)
    (hd : (store (User.profileQuery u.email) s).1.data = Data.row profile) :
    ∃ combined : Row,
      (User.me { session := some { user := some u }, error := none } store s).1 =
        Except.ok (some combined) ∧
      (objectKeys combined).Nodup ∧
      (∀ k, k ∈ objectKeys combined ↔
        k = "id" ∨ k = "email" ∨ k ∈ objectKeys u.user_metadata ∨ k ∈ objectKeys profile) ∧
      (∀ k, k ∈ objectKeys profile → getProp combined k = getProp profile k) ∧
      (∀ k, k ∉ objectKeys profile → k ∈ objectKeys u.user_metadata →
        getProp combined k = getProp u.user_metadata k) ∧
      ("id" ∉ objectKeys profile → "id" ∉ objectKeys u.user_metadata →
        getProp combined "id" = u.id) ∧
      ("email" ∉ objectKeys profile → "email" ∉ objectKeys u.user_metadata →
        getProp combined "email" = u.email) := by
  refine ⟨_, by rw [me_signed_in, hd], ?_, ?_, ?_, ?_, ?_, ?_⟩
  · apply nodup_objectKeys_spread
    apply nodup_objectKeys_spread
    simp [objectKeys]
  · intro k
    rw [mem_objectKeys_spread, mem_objectKeys_spread]
    simp [objectKeys, orEmptyObject]
    tauto
  · intro k hk
    rw [getProp_spread]
    simp [orEmptyObject, hk]
  · intro k hk hm
    rw [getProp_spread, getProp_spread]
    simp [orEmptyObject, hk, hm]
  · intro hk hm
    rw [getProp_spread, getProp_spread]
    simp [orEmptyObject, hk, hm, getProp, List.lookup]
  · intro hk hm
    rw [getProp_spread, getProp_spread]
    simp [orEmptyObject, hk, hm, getProp, List.lookup]

/-- The sample user with the sample profile: the profile's id and role win,
the metadata's full name stays. -/
theorem me_merge_witness :
    ∃ combined : Row,
      (User.me { session := some { user := some sampleUser }, error := none } refStore
        profileDb).1 = Except.ok (some combined) ∧
      getProp combined "id" = JsValue.num 7 ∧
      getProp combined "role" = JsValue.str "admin" ∧
      getProp combined "full_name" = JsValue.str "Jo" :=
  match me_merge sampleUser
      [("id", JsValue.num 7), ("email", JsValue.str "jo@example.com"),
        ("role", JsValue.str "admin")] refStore profileDb (by decide) with
  | ⟨combined, h1, _, _, h4, h5, _, _⟩ =>
    ⟨combined, h1, (h4 "id" (by decide)).trans (by decide),
      (h4 "role" (by decide)).trans (by decide),
      (h5 "full_name" (by decide) (by decide)).trans (by decide)⟩

/-- C13: for a session with a user, `User.me()` never raises, whatever the
profile read answers. When the answer carries no row, as an answer with an
error does and as the answer for a missing profile does, the result is the
auth-only record `{ id, email, ...user_metadata }`, whose keys are `id`,
`email` and the metadata keys. -/
theorem me_profile_failure {σ : Type} (u : AuthUser) (store : Store σ) (s : σ) :
    (∃ r, (User.me { session := some { user := some u }, error := none } store s).1 =
      Except.ok (some r)) ∧
    (∀ e, (User.me { session := some { user := some u }, error := none } store s).1 ≠
      Except.error e) ∧
    (∀ e, (store (User.profileQuery u.email) s).1 = { data := Data.null, error := some e } →
      (User.me { session := some { user := some u }, error := none } store s).1 =
        Except.ok (some (spread [("id", u.id), ("email", u.email)] u.user_metadata))) ∧
    ((store (User.profileQuery u.email) s).1 = { data := Data.null, error := none } →
      (User.me { session := some { user := some u }, error := none } store s).1 =
        Except.ok (some (spread [("id", u.id), ("email", u.email)] u.user_metadata))) ∧
    (∀ k, k ∈ objectKeys (spread [("id", u.id), ("email", u.email)] u.user_metadata) ↔
      k = "id" ∨ k = "email" ∨ k ∈ objectKeys u.user_metadata) := by
  have hnull : (store (User.profileQuery u.email) s).1.data = Data.null →
      (User.me { session := some { user := some u }, error := none } store s).1 =
        Except.ok (some (spread [("id", u.id), ("email", u.email)] u.user_metadata)) := by
    intro hd
    rw [me_signed_in, hd]
    simp [orEmptyObject, spread, objectKeys]
  refine ⟨⟨_, by rw [me_signed_in]⟩, ?_, ?_, ?_, ?_⟩
  · intro e
    rw [me_signed_in]
    simp
  · intro e h
    exact hnull (by rw [h])
  · intro h
    exact hnull (by rw [h])
  · intro k
    rw [mem_objectKeys_spread]
    simp [objectKeys]
    tauto

/-- On a store that refuses every request and on a store without a profile
row, `User.me()` returns the sample user's auth-only record. -/
theorem me_profile_failure_witness :
    (User.me { session := some { user := some sampleUser }, error := none } failingStore ()).1 =
      Except.ok (some [("id", JsValue.str "u-1"), ("email", JsValue.str "jo@example.com"),
        ("full_name", JsValue.str "Jo"), ("role", JsValue.str "user")]) ∧
    (User.me { session := some { user := some sampleUser }, error := none } refStore sampleDb).1 =
      Except.ok (some [("id", JsValue.str "u-1"), ("email", JsValue.str "jo@example.com"),
        ("full_name", JsValue.str "Jo"), ("role", JsValue.str "user")]) :=
  ⟨((me_profile_failure sampleUser failingStore ()).2.2.1 _ rfl).trans (by decide),
   ((me_profile_failure sampleUser refStore sampleDb).2.2.2.1 (by decide)).trans (by decide)⟩

/-- C14: when `getSession` reports an error, `User.me()` raises that error,
whatever the session field holds: it returns neither null nor a user record,
and it sends no request to the store. -/
theorem me_session_error (getSession : AuthResponse) (e : AuthError)
    (herr : getSession.error = some e) :
    ∀ (σ : Type) (store : Store σ) (s : σ),
      User.me getSession store s = (Except.error e, s) ∧
      (∀ r, (User.me getSession store s).1 ≠ Except.ok r) := by
  intro σ store s
  have h : User.me getSession store s = (Except.error e, s) := by
    unfold User.me
    simp [herr]
  refine ⟨h, ?_⟩
  intro r
  rw [h]
  simp

/-- An auth outage with no session and one with a session both raise the
outage. -/
theorem me_session_error_witness :
    (User.me { session := none, error := some { message := "fetch failed", status := 0 } }
      refStore profileDb).1 = Except.error { message := "fetch failed", status := 0 } ∧
    (User.me { session := some { user := some sampleUser },
               error := some { message := "fetch failed", status := 0 } }
      refStore profileDb).1 = Except.error { message := "fetch failed", status := 0 } :=
  ⟨congrArg Prod.fst ((me_session_error _ _ rfl Db refStore profileDb).1),
   congrArg Prod.fst ((me_session_error _ _ rfl Db refStore profileDb).1)⟩

/-! ## Configuration resolution -/

theorem list_logged {σ : Type} (store : Store σ) (tableName : String) (order : Option String)
    (s : σ) (log : List Query) :
    list (logged store) tableName order (s, log) =
      ((list store tableName order s).1,
       ((list store tableName order s).2, log ++ [listQuery tableName order])) := by
  unfold list logged
  cases h : (store (listQuery tableName order) s).1.error <;> simp [h]

theorem create_logged {σ : Type} (store : Store σ) (tableName : String) (values : Row)
    (s : σ) (log : List Query) :
    create (logged store) tableName values (s, log) =
      ((create store tableName values s).1,
       ((create store tableName values s).2, log ++ [createQuery tableName values])) := by
  unfold create logged
  cases h : (store (createQuery tableName values) s).1.error <;> simp [h]

theorem loadConfiguration_found {σ : Type} (store : Store σ) (st : ConfigurationManager.State)
    (s s1 : σ) (first : Row) (rest : List Row)
    (h : list store AppConfiguration none s = (Except.ok (Data.rows (first :: rest)), s1)) :
    ConfigurationManager.loadConfiguration store st s =
      ({ config := Data.row first, loading := false }, s1) := by
  unfold ConfigurationManager.loadConfiguration
  rw [h]

theorem loadConfiguration_empty {σ : Type} (store : Store σ) (st : ConfigurationManager.State)
    (s s1 s2 : σ) (newConfig : Data)
    (h : list store AppConfiguration none s = (Except.ok (Data.rows []), s1))
    (hc : create store AppConfiguration ConfigurationManager.defaultConfig s1 =
      (Except.ok newConfig, s2)) :
    ConfigurationManager.loadConfiguration store st s =
      ({ config := newConfig, loading := false }, s2) := by
  unfold ConfigurationManager.loadConfiguration
  rw [h]
  simp only
  rw [hc]

theorem loadConfiguration_empty_state {σ : Type} (store : Store σ)
    (st : ConfigurationManager.State) (s s1 : σ)
    (h : list store AppConfiguration none s = (Except.ok (Data.rows []), s1)) :
    (ConfigurationManager.loadConfiguration store st s).2 =
      (create store AppConfiguration ConfigurationManager.defaultConfig s1).2 := by
  unfold ConfigurationManager.loadConfiguration
  rw [h]
  simp only
  rcases hc : create store AppConfiguration ConfigurationManager.defaultConfig s1 with ⟨res, s2⟩
  cases res <;> rfl

/-- C15: `loadConfiguration` on any store. When the listing of
`app_configurations` returns a non-empty array, the configuration becomes its
first row and the listing is the only request sent. When it returns the empty
array, exactly one further request is sent, the insert of the hardcoded
default, and what that `create` returns becomes the configuration. The
default has the fixed name, tagline and two colours, five navigation items
and five external tools. -/
theorem loadConfiguration_resolves {σ : Type} (store : Store σ)
    (st : ConfigurationManager.State) (s : σ) :
    (∀ first rest s1,
      list store AppConfiguration none s = (Except.ok (Data.rows (first :: rest)), s1) →
      ConfigurationManager.loadConfiguration store st s =
        ({ config := Data.row first, loading := false }, s1) ∧
      ∀ log, (ConfigurationManager.loadConfiguration (logged store) st (s, log)).2.2 =
        log ++ [listQuery AppConfiguration none]) ∧
    (∀ s1,
      list store AppConfiguration none s = (Except.ok (Data.rows []), s1) →
      (∀ log, (ConfigurationManager.loadConfiguration (logged store) st (s, log)).2.2 =
        log ++ [listQuery AppConfiguration none,
          createQuery AppConfiguration ConfigurationManager.defaultConfig]) ∧
      ∀ newConfig s2,
        create store AppConfiguration ConfigurationManager.defaultConfig s1 =
          (Except.ok newConfig, s2) →
        ConfigurationManager.loadConfiguration store st s =
          ({ config := newConfig, loading := false }, s2)) ∧
    (getProp ConfigurationManager.defaultConfig "app_name" = JsValue.str "ByteBlitz Staff Hub" ∧
      getProp ConfigurationManager.defaultConfig "app_tagline" = JsValue.str "Digital Agency CRM" ∧
      getProp ConfigurationManager.defaultConfig "primary_color" = JsValue.str "#8B5CF6" ∧
      getProp ConfigurationManager.defaultConfig "secondary_color" = JsValue.str "#EC4899" ∧
      getProp ConfigurationManager.defaultConfig "navigation_items" =
        JsValue.arr ConfigurationManager.defaultNavItems ∧
      ConfigurationManager.defaultNavItems.length = 5 ∧
      getProp ConfigurationManager.defaultConfig "external_tools" =
        JsValue.arr ConfigurationManager.defaultExternalTools ∧
      ConfigurationManager.defaultExternalTools.length = 5) := by
  refine ⟨?_, ?_, ?_⟩
  · intro first rest s1 h
    refine ⟨loadConfiguration_found store st s s1 first rest h, fun log => ?_⟩
    rw [loadConfiguration_found (logged store) st (s, log) _ first rest
      (by rw [list_logged, h])]
  · intro s1 h
    refine ⟨fun log => ?_, fun newConfig s2 hc =>
      loadConfiguration_empty store st s s1 s2 newConfig h hc⟩
    rw [loadConfiguration_empty_state (logged store) st (s, log) _ (by rw [list_logged, h]),
      create_logged]
    simp
  · decide

theorem list_refStore (db : Db) (tableName : String) :
    list refStore tableName none db = (Except.ok (Data.rows (db tableName)), db) := by
  simp [list, listQuery_none, refStore, shape, sortRows_nil, passes, orEmpty]

/-- On the sample leads store, which has no configuration row, the recording
reference store is sent the listing and the insert of the default; on a store
that holds the sample configuration it is sent the listing only. -/
theorem loadConfiguration_resolves_witness :
    (ConfigurationManager.loadConfiguration (logged refStore) ConfigurationManager.initial
      (sampleDb, [])).2.2 =
      [listQuery AppConfiguration none,
       createQuery AppConfiguration ConfigurationManager.defaultConfig] ∧
    ConfigurationManager.loadConfiguration refStore ConfigurationManager.initial
      (setTable sampleDb AppConfiguration [sampleConfig]) =
      ({ config := Data.row sampleConfig, loading := false },
       setTable sampleDb AppConfiguration [sampleConfig]) :=
  ⟨((loadConfiguration_resolves refStore ConfigurationManager.initial sampleDb).2.1
      sampleDb (list_refStore sampleDb AppConfiguration)).1 [],
   ((loadConfiguration_resolves refStore ConfigurationManager.initial
      (setTable sampleDb AppConfiguration [sampleConfig])).1 sampleConfig [] _
      (list_refStore _ AppConfiguration)).1⟩

theorem create_default_on_empty (db : Db) (h : db AppConfiguration = []) :
    create refStore AppConfiguration ConfigurationManager.defaultConfig db =
      (Except.ok (Data.row (setProp ConfigurationManager.defaultConfig "id" (JsValue.num 1))),
       setTable db AppConfiguration
         [setProp ConfigurationManager.defaultConfig "id" (JsValue.num 1)]) := by
  rw [create_refStore db AppConfiguration ConfigurationManager.defaultConfig
    (setProp ConfigurationManager.defaultConfig "id" (JsValue.num 1))
    (by rw [h]; decide), h]
  rw [if_pos (by decide)]
  rfl

theorem loadConfiguration_transparent {σ : Type} (store : Store σ)
    (st : ConfigurationManager.State) (s : σ) (log : List Query) :
    (ConfigurationManager.loadConfiguration (logged store) st (s, log)).1 =
      (ConfigurationManager.loadConfiguration store st s).1 ∧
    (ConfigurationManager.loadConfiguration (logged store) st (s, log)).2.1 =
      (ConfigurationManager.loadConfiguration store st s).2 := by
  unfold ConfigurationManager.loadConfiguration
  rw [list_logged]
  rcases hl : list store AppConfiguration none s with ⟨res, s1⟩
  cases res with
  | error e => exact ⟨rfl, rfl⟩
  | ok configs =>
    have hcreate : create (logged store) AppConfiguration ConfigurationManager.defaultConfig
        (s1, log ++ [listQuery AppConfiguration none]) =
        ((create store AppConfiguration ConfigurationManager.defaultConfig s1).1,
         ((create store AppConfiguration ConfigurationManager.defaultConfig s1).2,
          log ++ [listQuery AppConfiguration none] ++
            [createQuery AppConfiguration ConfigurationManager.defaultConfig])) :=
      create_logged store _ _ s1 _
    cases configs with
    | rows rs =>
      cases rs with
      | cons first rest => exact ⟨rfl, rfl⟩
      | nil =>
        dsimp only
        rw [hcreate]
        rcases hc : create store AppConfiguration ConfigurationManager.defaultConfig s1
          with ⟨res, s2⟩
        cases res <;> exact ⟨rfl, rfl⟩
    | undefined =>
      dsimp only
      rw [hcreate]
      rcases hc : create store AppConfiguration ConfigurationManager.defaultConfig s1
        with ⟨res, s2⟩
      cases res <;> exact ⟨rfl, rfl⟩
    | null =>
      dsimp only
      rw [hcreate]
      rcases hc : create store AppConfiguration ConfigurationManager.defaultConfig s1
        with ⟨res, s2⟩
      cases res <;> exact ⟨rfl, rfl⟩
    | row r =>
      dsimp only
      rw [hcreate]
      rcases hc : create store AppConfiguration ConfigurationManager.defaultConfig s1
        with ⟨res, s2⟩
      cases res <;> exact ⟨rfl, rfl⟩

/-- C16: on the reference store with an empty `app_configurations` table,
the first `loadConfiguration` inserts the default, which the store keeps
under id 1, and takes it as configuration; a second `loadConfiguration` finds
that row, takes it as configuration and leaves the store as it is, so the
table holds exactly one row. The requests sent are the listing and the insert
for the first call and the listing alone for the second. -/
theorem loadConfiguration_twice (db : Db) (st : ConfigurationManager.State)
    (h : db AppConfiguration = []) :
    ConfigurationManager.loadConfiguration refStore st db =
      ({ config := Data.row (setProp ConfigurationManager.defaultConfig "id" (JsValue.num 1)),
         loading := false },
       setTable db AppConfiguration
         [setProp ConfigurationManager.defaultConfig "id" (JsValue.num 1)]) ∧
    ConfigurationManager.loadConfiguration refStore
        (ConfigurationManager.loadConfiguration refStore st db).1
        (ConfigurationManager.loadConfiguration refStore st db).2 =
      ConfigurationManager.loadConfiguration refStore st db ∧
    ((ConfigurationManager.loadConfiguration refStore
        (ConfigurationManager.loadConfiguration refStore st db).1
        (ConfigurationManager.loadConfiguration refStore st db).2).2 AppConfiguration).length = 1 ∧
    (∀ log, (ConfigurationManager.loadConfiguration (logged refStore)
        (ConfigurationManager.loadConfiguration (logged refStore) st (db, log)).1
        (ConfigurationManager.loadConfiguration (logged refStore) st (db, log)).2).2.2 =
      log ++ [listQuery AppConfiguration none,
        createQuery AppConfiguration ConfigurationManager.defaultConfig,
        listQuery AppConfiguration none]) := by
  have h1 : ConfigurationManager.loadConfiguration refStore st db =
      ({ config := Data.row (setProp ConfigurationManager.defaultConfig "id" (JsValue.num 1)),
         loading := false },
       setTable db AppConfiguration
         [setProp ConfigurationManager.defaultConfig "id" (JsValue.num 1)]) :=
    loadConfiguration_empty refStore st db db _ _
      (by rw [list_refStore, h]) (create_default_on_empty db h)
  have hlist2 : list refStore AppConfiguration none
      (setTable db AppConfiguration
        [setProp ConfigurationManager.defaultConfig "id" (JsValue.num 1)]) =
      (Except.ok (Data.rows [setProp ConfigurationManager.defaultConfig "id" (JsValue.num 1)]),
       setTable db AppConfiguration
        [setProp ConfigurationManager.defaultConfig "id" (JsValue.num 1)]) := by
    rw [list_refStore, setTable_apply]
  have h2 : ∀ st1, ConfigurationManager.loadConfiguration refStore st1
      (setTable db AppConfiguration
        [setProp ConfigurationManager.defaultConfig "id" (JsValue.num 1)]) =
      ({ config := Data.row (setProp ConfigurationManager.defaultConfig "id" (JsValue.num 1)),
         loading := false },
       setTable db AppConfiguration
         [setProp ConfigurationManager.defaultConfig "id" (JsValue.num 1)]) :=
    fun st1 => loadConfiguration_found refStore st1 _ _ _ [] hlist2
  refine ⟨h1, ?_, ?_, ?_⟩
  · rw [h1]
    exact h2 _
  · rw [h1]
    simp only
    rw [h2]
    show (setTable db AppConfiguration _ AppConfiguration).length = 1
    rw [setTable_apply]
    rfl
  · intro log
    have hlog1 : (ConfigurationManager.loadConfiguration (logged refStore) st (db, log)).2.2 =
        log ++ [listQuery AppConfiguration none,
          createQuery AppConfiguration ConfigurationManager.defaultConfig] := by
      rw [loadConfiguration_empty_state (logged refStore) st (db, log) _
        (by rw [list_logged, list_refStore, h]), create_logged]
      simp
    obtain ⟨ht1, ht2⟩ := loadConfiguration_transparent refStore st db log
    have hstate : (ConfigurationManager.loadConfiguration (logged refStore) st (db, log)).2 =
        (setTable db AppConfiguration
          [setProp ConfigurationManager.defaultConfig "id" (JsValue.num 1)],
         log ++ [listQuery AppConfiguration none,
          createQuery AppConfiguration ConfigurationManager.defaultConfig]) := by
      apply Prod.ext
      · rw [ht2, h1]
      · exact hlog1
    rw [hstate]
    rw [loadConfiguration_found (logged refStore) _ _ _ _ [] (by rw [list_logged, hlist2])]
    simp

/-- On the sample leads store, which has no configuration row, two
resolutions in sequence leave one configuration row. -/
theorem loadConfiguration_twice_witness :
    ((ConfigurationManager.loadConfiguration refStore
        (ConfigurationManager.loadConfiguration refStore ConfigurationManager.initial sampleDb).1
        (ConfigurationManager.loadConfiguration refStore ConfigurationManager.initial
          sampleDb).2).2 AppConfiguration).length = 1 :=
  (loadConfiguration_twice sampleDb ConfigurationManager.initial (by decide)).2.2.1

/-! ## Navigation items and external tools -/

theorem isActive_ok (item : JsValue) (h : isNullish item = false) :
    Layout.isActive item = Except.ok (decide (field item "is_active" ≠ JsValue.bool false)) := by
  cases item <;> simp_all [isNullish, Layout.isActive, member]

theorem arrayFilter_isActive (items : List JsValue) (h : ∀ item ∈ items, isNullish item = false) :
    arrayFilter Layout.isActive items =
      Except.ok (items.filter (fun item => decide (field item "is_active" ≠ JsValue.bool false))) := by
  induction items with
  | nil => rfl
  | cons item rest ih =>
    have hrest := ih (fun x hx => h x (List.mem_cons_of_mem item hx))
    have hitem := isActive_ok item (h item (List.mem_cons_self item rest))
    unfold arrayFilter
    rw [hitem, hrest]
    by_cases ha : field item "is_active" = JsValue.bool false <;> simp [List.filter_cons, ha]

theorem orderKey_eq_orderOrZero (item : JsValue) (h : hasNumericOrder item = true) :
    Layout.orderKey item = orderOrZero item := by
  unfold hasNumericOrder at h
  unfold Layout.orderKey orderOrZero
  cases hf : field item "order" <;> simp_all

theorem sorted_by_orderKey (l : List JsValue) :
    (l.insertionSort Layout.orderLe).Pairwise Layout.orderLe :=
  @List.sorted_insertionSort JsValue Layout.orderLe _
    ⟨fun a b => Int.le_total (Layout.orderKey a) (Layout.orderKey b)⟩
    ⟨fun _ _ _ hab hbc => Int.le_trans hab hbc⟩ l

/-- C17: for a configuration whose `navigation_items` is an array of items
(none of them null or undefined) with numeric or missing `order`,
`getNavigationItems` returns the links of a list `sorted` that is a
permutation of the items whose `is_active` is not `false` (an item without
the flag is kept) and is ascending in `order`, a missing order counting as 0;
the configuration's array holds after the call what it held before. -/
theorem getNavigationItems_sorted_active (createPageUrl : JsValue → JsValue) (config : Row)
    (items : List JsValue)
    (hc : getProp config "navigation_items" = JsValue.arr items)
    (hitems : ∀ item ∈ items, isNullish item = false)
    (horder : ∀ item ∈ items, hasNumericOrder item = true) :
    ∃ sorted : List JsValue,
      Layout.getNavigationItems createPageUrl (some config) =
        Except.ok (sorted.map (Layout.navLink createPageUrl), items) ∧
      sorted.Perm
        (items.filter (fun item => decide (field item "is_active" ≠ JsValue.bool false))) ∧
      (∀ item, item ∈ sorted ↔ item ∈ items ∧ field item "is_active" ≠ JsValue.bool false) ∧
      sorted.Pairwise (fun a b => orderOrZero a ≤ orderOrZero b) := by
  have hperm := List.perm_insertionSort Layout.orderLe
    (items.filter (fun item => decide (field item "is_active" ≠ JsValue.bool false)))
  refine ⟨_, ?_, hperm, ?_, ?_⟩
  · unfold Layout.getNavigationItems
    simp only [Layout.configField, hc, orElse, truthy, if_true]
    rw [arrayFilter_isActive items hitems]
  · intro item
    rw [hperm.mem_iff, List.mem_filter]
    simp
  · have hs := sorted_by_orderKey
      (items.filter (fun item => decide (field item "is_active" ≠ JsValue.bool false)))
    have hmem : ∀ x ∈ (items.filter
        (fun item => decide (field item "is_active" ≠ JsValue.bool false))).insertionSort
          Layout.orderLe, hasNumericOrder x = true := by
      intro x hx
      exact horder x (List.mem_filter.1 (hperm.mem_iff.1 hx)).1
    refine List.Pairwise.imp_of_mem ?_ hs
    intro a b ha hb hab
    rw [← orderKey_eq_orderOrZero a (hmem a ha), ← orderKey_eq_orderOrZero b (hmem b hb)]
    exact hab

/-- The sample configuration: the switched-off item is dropped, the item
without flag and order comes first, the others follow by order, and the
configuration's array is as it was. -/
theorem getNavigationItems_sorted_active_witness :
    (∃ sorted : List JsValue,
      Layout.getNavigationItems (fun page => page) (some sampleConfig) =
        Except.ok (sorted.map (Layout.navLink (fun page => page)), sampleNavItems) ∧
      sorted.Perm
        (sampleNavItems.filter
          (fun item => decide (field item "is_active" ≠ JsValue.bool false))) ∧
      (∀ item, item ∈ sorted ↔
        item ∈ sampleNavItems ∧ field item "is_active" ≠ JsValue.bool false) ∧
      sorted.Pairwise (fun a b => orderOrZero a ≤ orderOrZero b)) ∧
    (Layout.getNavigationItems (fun page => page) (some sampleConfig)).map
        (fun result => result.1.map (fun link => field link "title")) =
      Except.ok [JsValue.str "Home", JsValue.str "Resources", JsValue.str "Support"] :=
  ⟨getNavigationItems_sorted_active (fun page => page) sampleConfig sampleNavItems rfl
      (by decide) (by decide), by decide⟩

/-- The links `getNavigationItems` returns for the sample configuration are
not a permutation of the active items: each is a new object with the keys
`title`, `url`, `page` and `icon`. -/
theorem getNavigationItems_returns_links :
    ¬ ∃ result : List JsValue × List JsValue,
      Layout.getNavigationItems (fun page => page) (some sampleConfig) = Except.ok result ∧
      result.1.Perm
        (sampleNavItems.filter
          (fun item => decide (field item "is_active" ≠ JsValue.bool false))) := by
  rintro ⟨result, h, hperm⟩
  have hr : Layout.getNavigationItems (fun page => page) (some sampleConfig) =
      Except.ok
        ([ JsValue.obj [("title", JsValue.str "Home"), ("url", JsValue.str "Dashboard"),
             ("page", JsValue.str "Dashboard"), ("icon", JsValue.str "LayoutDashboard")],
           JsValue.obj [("title", JsValue.str "Resources"), ("url", JsValue.str "Resources"),
             ("page", JsValue.str "Resources"), ("icon", JsValue.str "BookOpen")],
           JsValue.obj [("title", JsValue.str "Support"), ("url", JsValue.str "Support"),
             ("page", JsValue.str "Support"), ("icon", JsValue.str "MessageCircle")] ],
         sampleNavItems) := by decide
  rw [hr] at h
  have hres := Except.ok.inj h
  rw [← hres] at hperm
  revert hperm
  decide

/-- C18: for a configuration whose `external_tools` is an array of tools
(none of them null or undefined), `getExternalTools` returns exactly the tools
whose `is_active` is not `false` (a tool without the flag is kept), as they
are and in their original order. -/
theorem getExternalTools_active (config : Row) (tools : List JsValue)
    (hc : getProp config "external_tools" = JsValue.arr tools)
    (htools : ∀ tool ∈ tools, isNullish tool = false) :
    Layout.getExternalTools (some config) =
      Except.ok (tools.filter (fun tool => decide (field tool "is_active" ≠ JsValue.bool false))) ∧
    (tools.filter (fun tool => decide (field tool "is_active" ≠ JsValue.bool false))).Sublist
      tools ∧
    (∀ tool, tool ∈ tools.filter (fun tool => decide (field tool "is_active" ≠ JsValue.bool false))
      ↔ tool ∈ tools ∧ field tool "is_active" ≠ JsValue.bool false) := by
  refine ⟨?_, List.filter_sublist _, ?_⟩
  · unfold Layout.getExternalTools
    simp only [Layout.configField, hc, orElse, truthy, if_true]
    rw [arrayFilter_isActive tools htools]
  · intro tool
    rw [List.mem_filter]
    simp

/-- The sample tools: the switched-off tool is dropped, the tool without
flag and the tool with a null flag stay, in their order. -/
theorem getExternalTools_active_witness :
    Layout.getExternalTools (some sampleConfig) =
      Except.ok [ JsValue.obj [("title", JsValue.str "Mail")],
        JsValue.obj [("title", JsValue.str "CRM"), ("is_active", JsValue.null)] ] :=
  (getExternalTools_active sampleConfig sampleTools rfl (by decide)).1.trans (by decide)

/-! ## Numbers -/

set_option maxRecDepth 100000 in
/-- The arithmetic and the texts of numbers on samples: 0.1 is the double
`7205759403792794 × 2^-56`, `0.1 + 0.2` is 0.30000000000000004,
`2^53 + 1` is `2^53`, `2.01 - 0.01` is 1.9999999999999998, `1 - 1` is `+0`,
and `Number::toString` gives the shortest decimal that reads back, in the
exponent form from 21 integer digits on and below `1e-6`. -/
theorem number_samples :
    Double.ofDecimal 1 1 = Double.fin false 7205759403792794 (-56) ∧
    (Double.ofDecimal 1 1).add (Double.ofDecimal 2 1) = Double.ofDecimal 30000000000000004 17 ∧
    (Double.ofInt 9007199254740992).add (Double.ofInt 1) = Double.ofInt 9007199254740992 ∧
    ((Double.ofDecimal 1 2).add (Double.ofInt 2)).sub (Double.ofDecimal 1 2) =
      Double.ofDecimal 19999999999999998 16 ∧
    (Double.ofInt 1).sub (Double.ofInt 1) = Double.zero ∧
    (Double.inf false).add (Double.inf true) = Double.nan ∧
    toStr (JsValue.float (Double.ofDecimal 5025 2)) = "50.25" ∧
    toStr (JsValue.float ((Double.ofDecimal 1 1).add (Double.ofDecimal 2 1))) =
      "0.30000000000000004" ∧
    toStr (JsValue.float (Double.ofDecimal (-25) 1)) = "-2.5" ∧
    toStr (JsValue.float (Double.ofDecimal 1 6)) = "0.000001" ∧
    toStr (JsValue.float (Double.ofDecimal 15 8)) = "1.5e-7" ∧
    (Double.ofInt 123456789012345678901).toString = "123456789012345680000" ∧
    (Double.ofInt 1000000000000000000000).toString = "1e+21" ∧
    toStr (JsValue.float Double.nan) = "NaN" ∧
    toStr (JsValue.float (Double.inf true)) = "-Infinity" ∧
    toStr (JsValue.float (Double.fin true 0 0)) = "0" ∧
    truthy (JsValue.float (Double.fin true 0 0)) = false ∧
    truthy (JsValue.float Double.nan) = false ∧
    truthy (JsValue.float (Double.ofDecimal 1 2)) = true := by
  decide

/-! ## Commission totals -/

theorem ofInt_zero : Double.ofInt 0 = Double.zero := rfl

theorem scaled_toRat (s : Bool) (m : Nat) (e lo : Int) (h : lo ≤ e) :
    (((Double.fin s m e).scaled lo : Int) : ℚ) * (2 : ℚ) ^ lo = (Double.fin s m e).toRat := by
  have hpow : ((2 : ℚ) ^ (e - lo).toNat) * (2 : ℚ) ^ lo = (2 : ℚ) ^ e := by
    rw [← zpow_natCast, Int.toNat_of_nonneg (by omega), ← zpow_add₀ (by norm_num)]
    congr 1
    omega
  unfold Double.scaled Double.toRat
  cases s
  · simp only [Bool.false_eq_true, if_false]
    push_cast
    rw [mul_assoc, hpow]
    ring
  · simp only [if_true]
    push_cast
    rw [neg_mul, mul_assoc, hpow]
    ring

theorem addExact_toRat (x y : Double) (h : x.addExact y = true) :
    (x.add y).isFinite = true ∧ (x.add y).toRat = x.toRat + y.toRat := by
  cases x with
  | nan => simp [Double.addExact] at h
  | inf a => simp [Double.addExact] at h
  | fin s1 m1 e1 =>
    cases y with
    | nan => simp [Double.addExact] at h
    | inf b => simp [Double.addExact] at h
    | fin s2 m2 e2 =>
      unfold Double.addExact at h
      cases hz : (Double.fin s1 m1 e1).add (Double.fin s2 m2 e2) with
      | nan => rw [hz] at h; simp at h
      | inf c => rw [hz] at h; simp at h
      | fin s m e =>
        rw [hz] at h
        simp only [decide_eq_true_eq] at h
        refine ⟨rfl, ?_⟩
        have h0 := scaled_toRat s m e (min e (min e1 e2)) (by omega)
        have h1 := scaled_toRat s1 m1 e1 (min e (min e1 e2)) (by omega)
        have h2 := scaled_toRat s2 m2 e2 (min e (min e1 e2)) (by omega)
        rw [← h0, ← h1, ← h2, h]
        push_cast
        ring

theorem noRounding_foldl (xs : List Double) (acc : Double) (hacc : acc.isFinite = true)
    (h : noRounding acc xs = true) :
    (xs.foldl (fun sum x => sum.add x) acc).isFinite = true ∧
    (xs.foldl (fun sum x => sum.add x) acc).toRat = acc.toRat + (xs.map Double.toRat).sum := by
  induction xs generalizing acc with
  | nil => simp [hacc]
  | cons x rest ih =>
    simp only [noRounding, Bool.and_eq_true] at h
    have hx := addExact_toRat acc x h.1
    have hr := ih (acc.add x) hx.1 h.2
    refine ⟨hr.1, ?_⟩
    rw [List.foldl_cons, hr.2, hx.2, List.map_cons, List.sum_cons]
    ring

theorem floatSum_exact (xs : List Double) (h : noRounding Double.zero xs = true) :
    (floatSum xs).isFinite = true ∧ (floatSum xs).toRat = (xs.map Double.toRat).sum := by
  have hr := noRounding_foldl xs Double.zero rfl h
  refine ⟨hr.1, ?_⟩
  unfold floatSum
  rw [hr.2]
  simp [Double.zero, Double.toRat]

theorem bitLengthAux_zero (fuel : Nat) : bitLengthAux fuel 0 = 0 := by
  cases fuel <;> simp [bitLengthAux]

theorem bitLengthAux_spec (fuel n : Nat) (h : n ≤ fuel) (hn : n ≠ 0) :
    2 ^ (bitLengthAux fuel n - 1) ≤ n ∧ n < 2 ^ bitLengthAux fuel n ∧
      1 ≤ bitLengthAux fuel n := by
  induction fuel generalizing n with
  | zero => omega
  | succ fuel ih =>
    simp only [bitLengthAux, hn, if_false]
    by_cases h2 : n / 2 = 0
    · rw [h2, bitLengthAux_zero]
      have : n = 1 := by omega
      subst this
      simp
    · obtain ⟨h3, h4, h5⟩ := ih (n / 2) (by omega) h2
      refine ⟨?_, ?_, by omega⟩
      · have : bitLengthAux fuel (n / 2) + 1 - 1 = (bitLengthAux fuel (n / 2) - 1) + 1 := by omega
        rw [this, pow_succ]
        omega
      · rw [pow_succ]
        omega

theorem bitLength_spec (n : Nat) (hn : n ≠ 0) :
    2 ^ (bitLength n - 1) ≤ n ∧ n < 2 ^ bitLength n ∧ 1 ≤ bitLength n :=
  bitLengthAux_spec n n (le_refl n) hn

theorem pow_toNat (k : Int) : (2 : ℚ) ^ k.toNat = (2 : ℚ) ^ k * (2 : ℚ) ^ (-k).toNat := by
  rcases le_total 0 k with hk | hk
  · have h1 : (-k).toNat = 0 := by omega
    rw [h1, pow_zero, mul_one, ← zpow_natCast, Int.toNat_of_nonneg hk]
  · have h1 : k.toNat = 0 := by omega
    rw [h1, pow_zero, ← zpow_natCast, Int.toNat_of_nonneg (by omega), ← zpow_add₀ (by norm_num)]
    simp

theorem shift_le_iff (a b : Nat) (k : Int) :
    b * 2 ^ k.toNat ≤ a * 2 ^ (-k).toNat ↔ (b : ℚ) * (2 : ℚ) ^ k ≤ a := by
  have hpos : (0 : ℚ) < (2 : ℚ) ^ (-k).toNat := by positivity
  rw [← Nat.cast_le (α := ℚ)]
  push_cast
  rw [pow_toNat k, ← mul_assoc]
  exact mul_le_mul_right hpos

theorem floorLog2_eq (p q M : Nat) (E : Int) (hp : p ≠ 0) (hq : q ≠ 0)
    (hM1 : 2 ^ 52 ≤ M) (hM2 : M < 2 ^ 53) (hv : (p : ℚ) = M * (2 : ℚ) ^ E * q) :
    floorLog2 p q = 52 + E := by
  obtain ⟨hp1, hp2, hp3⟩ := bitLength_spec p hp
  obtain ⟨hq1, hq2, hq3⟩ := bitLength_spec q hq
  have hqpos : (0 : ℚ) < q := by exact_mod_cast Nat.pos_of_ne_zero hq
  have h2 : (1 : ℚ) < 2 := by norm_num
  have hM1q : (2 : ℚ) ^ (52 : Int) ≤ M := by exact_mod_cast hM1
  have hM2q : (M : ℚ) < (2 : ℚ) ^ (53 : Int) := by exact_mod_cast hM2
  have hEpos : (0 : ℚ) < (2 : ℚ) ^ E := by positivity
  -- bounds of p / q from the mantissa
  have hlo : (2 : ℚ) ^ (52 + E) * q ≤ p := by
    rw [hv, zpow_add₀ (by norm_num)]
    exact mul_le_mul_of_nonneg_right (mul_le_mul_of_nonneg_right hM1q hEpos.le) hqpos.le
  have hhi : (p : ℚ) < (2 : ℚ) ^ (53 + E) * q := by
    rw [hv, zpow_add₀ (by norm_num)]
    exact mul_lt_mul_of_pos_right (mul_lt_mul_of_pos_right hM2q hEpos) hqpos
  -- bounds of p / q from the digits
  have hp1q : (2 : ℚ) ^ ((bitLength p : Int) - 1) ≤ p := by
    have : ((bitLength p : Int) - 1) = ((bitLength p - 1 : Nat) : Int) := by omega
    rw [this, zpow_natCast]
    exact_mod_cast hp1
  have hp2q : (p : ℚ) < (2 : ℚ) ^ (bitLength p : Int) := by
    rw [zpow_natCast]
    exact_mod_cast hp2
  have hq1q : (2 : ℚ) ^ ((bitLength q : Int) - 1) ≤ q := by
    have : ((bitLength q : Int) - 1) = ((bitLength q - 1 : Nat) : Int) := by omega
    rw [this, zpow_natCast]
    exact_mod_cast hq1
  have hq2q : (q : ℚ) < (2 : ℚ) ^ (bitLength q : Int) := by
    rw [zpow_natCast]
    exact_mod_cast hq2
  have hup : (p : ℚ) < (2 : ℚ) ^ ((bitLength p : Int) - (bitLength q : Int) + 1) * q := by
    calc (p : ℚ) < (2 : ℚ) ^ (bitLength p : Int) := hp2q
      _ = (2 : ℚ) ^ ((bitLength p : Int) - (bitLength q : Int) + 1) *
            (2 : ℚ) ^ ((bitLength q : Int) - 1) := by
          rw [← zpow_add₀ (by norm_num)]
          congr 1
          omega
      _ ≤ (2 : ℚ) ^ ((bitLength p : Int) - (bitLength q : Int) + 1) * q :=
          mul_le_mul_of_nonneg_left hq1q (by positivity)
  have hdown : (2 : ℚ) ^ ((bitLength p : Int) - (bitLength q : Int) - 1) * q < p := by
    calc (2 : ℚ) ^ ((bitLength p : Int) - (bitLength q : Int) - 1) * q
        < (2 : ℚ) ^ ((bitLength p : Int) - (bitLength q : Int) - 1) *
            (2 : ℚ) ^ (bitLength q : Int) := mul_lt_mul_of_pos_left hq2q (by positivity)
      _ = (2 : ℚ) ^ ((bitLength p : Int) - 1) := by
          rw [← zpow_add₀ (by norm_num)]
          congr 1
          omega
      _ ≤ p := hp1q
  have key : ∀ a b : Int, (2 : ℚ) ^ a * q ≤ p → (p : ℚ) < (2 : ℚ) ^ b * q → a < b := by
    intro a b h1 h3
    have h4 : (2 : ℚ) ^ a * q < (2 : ℚ) ^ b * q := lt_of_le_of_lt h1 h3
    have h5 : (2 : ℚ) ^ a < (2 : ℚ) ^ b := lt_of_mul_lt_mul_right h4 hqpos.le
    exact (zpow_lt_zpow_iff_right₀ h2).1 h5
  unfold floorLog2
  simp only []
  by_cases hc : q * 2 ^ ((bitLength p : Int) - (bitLength q : Int)).toNat ≤
      p * 2 ^ (-((bitLength p : Int) - (bitLength q : Int))).toNat
  · rw [if_pos hc]
    have hc1 := (shift_le_iff p q _).1 hc
    rw [mul_comm] at hc1
    have := key _ _ hc1 hhi
    have := key _ _ hlo hup
    omega
  · rw [if_neg hc]
    have hc1 : (p : ℚ) < (2 : ℚ) ^ ((bitLength p : Int) - (bitLength q : Int)) * q := by
      rw [mul_comm]
      exact not_le.1 (fun h => hc ((shift_le_iff p q _).2 h))
    have := key _ _ hlo hc1
    have := key _ _ hdown.le hhi
    omega

theorem round_exact (s : Bool) (p q M : Nat) (E : Int) (hp : p ≠ 0) (hq : q ≠ 0)
    (hM1 : 2 ^ 52 ≤ M) (hM2 : M < 2 ^ 53) (hE1 : -1074 ≤ E) (hE2 : E ≤ 971)
    (hv : (p : ℚ) = M * (2 : ℚ) ^ E * q) :
    Double.round s p q = Double.fin s M E := by
  have he : max (floorLog2 p q - 52) (-1074) = E := by
    rw [floorLog2_eq p q M E hp hq hM1 hM2 hv]
    omega
  have hn : p * 2 ^ (-E).toNat = M * (q * 2 ^ E.toNat) := by
    rw [← Nat.cast_inj (R := ℚ)]
    push_cast
    rw [pow_toNat E, hv]
    ring
  have hdd : 0 < q * 2 ^ E.toNat := Nat.mul_pos (Nat.pos_of_ne_zero hq) (by positivity)
  have hM0 : M ≠ 0 := by omega
  have hM3 : M ≠ 2 ^ 53 := by omega
  unfold Double.round
  rw [if_neg hp, he]
  unfold Double.roundAt
  simp only []
  rw [hn, Nat.mul_div_cancel M hdd, Nat.mul_mod_left]
  have hcond : ¬(q * 2 ^ E.toNat < 2 * 0 ∨ (2 * 0 = q * 2 ^ E.toNat ∧ M % 2 = 1)) := by
    omega
  rw [if_neg hcond, if_neg hM0, if_neg hM3, if_neg (by omega)]

theorem ofInt_exact (n : Int) (h0 : n ≠ 0) (hn : n.natAbs ≤ 2 ^ 53) :
    ∃ (M : Nat) (E : Int), 2 ^ 52 ≤ M ∧ M < 2 ^ 53 ∧ -1074 ≤ E ∧ E ≤ 971 ∧
      Double.ofInt n = Double.fin (decide (n < 0)) M E ∧
      (Double.fin (decide (n < 0)) M E).toRat = n := by
  have hp : n.natAbs ≠ 0 := by omega
  have habs : ((if decide (n < 0) = true then -1 else 1 : ℚ)) * (n.natAbs : ℚ) = n := by
    rcases lt_or_le n 0 with hneg | hpos
    · simp only [hneg, decide_True, if_true]
      rw [Nat.cast_natAbs, Int.cast_abs, abs_of_neg (by exact_mod_cast hneg)]
      ring
    · have hnot : ¬ n < 0 := by omega
      simp only [hnot, decide_False, Bool.false_eq_true, if_false, one_mul]
      rw [Nat.cast_natAbs, Int.cast_abs, abs_of_nonneg (by exact_mod_cast hpos)]
  by_cases htop : n.natAbs = 2 ^ 53
  · have hv : (n.natAbs : ℚ) = ((2 ^ 52 : Nat) : ℚ) * (2 : ℚ) ^ (1 : Int) * ((1 : Nat) : ℚ) := by
      rw [htop]
      norm_num
    refine ⟨2 ^ 52, 1, le_refl _, by norm_num, by norm_num, by norm_num, ?_, ?_⟩
    · exact round_exact _ _ 1 _ 1 hp (by norm_num) (le_refl _) (by norm_num) (by norm_num)
        (by norm_num) hv
    · simp only [Double.toRat]
      rw [← habs, htop]
      norm_num
  · obtain ⟨hb1, hb2, hb3⟩ := bitLength_spec n.natAbs hp
    have hlt : n.natAbs < 2 ^ 53 := by omega
    have hb : bitLength n.natAbs ≤ 53 := by
      by_contra hcon
      have : 2 ^ 53 ≤ 2 ^ (bitLength n.natAbs - 1) :=
        Nat.pow_le_pow_right (by norm_num) (by omega)
      omega
    have hsplit : 2 ^ 52 = 2 ^ (bitLength n.natAbs - 1) * 2 ^ (53 - bitLength n.natAbs) := by
      rw [← pow_add]
      congr 1
      omega
    have hsplit2 : 2 ^ 53 = 2 ^ bitLength n.natAbs * 2 ^ (53 - bitLength n.natAbs) := by
      rw [← pow_add]
      congr 1
      omega
    have hpos : 0 < 2 ^ (53 - bitLength n.natAbs) := by positivity
    have hval : ((n.natAbs * 2 ^ (53 - bitLength n.natAbs) : Nat) : ℚ) *
        (2 : ℚ) ^ ((bitLength n.natAbs : Int) - 53) = (n.natAbs : ℚ) := by
      push_cast
      have : ((bitLength n.natAbs : Int) - 53) = -((53 - bitLength n.natAbs : Nat) : Int) := by
        omega
      rw [this, zpow_neg, zpow_natCast, mul_assoc, mul_inv_cancel₀ (by positivity), mul_one]
    refine ⟨n.natAbs * 2 ^ (53 - bitLength n.natAbs), (bitLength n.natAbs : Int) - 53,
      ?_, ?_, by omega, by omega, ?_, ?_⟩
    · rw [hsplit]
      exact Nat.mul_le_mul_right _ hb1
    · rw [hsplit2]
      exact Nat.mul_lt_mul_of_pos_right hb2 hpos
    · refine round_exact _ _ 1 _ _ hp (by norm_num) ?_ ?_ (by omega) (by omega) ?_
      · rw [hsplit]
        exact Nat.mul_le_mul_right _ hb1
      · rw [hsplit2]
        exact Nat.mul_lt_mul_of_pos_right hb2 hpos
      · rw [hval]
        simp
    · simp only [Double.toRat]
      rw [mul_assoc, hval, habs]

theorem add_eq_of_exact (s1 : Bool) (m1 : Nat) (e1 : Int) (s2 : Bool) (m2 : Nat) (e2 : Int)
    (s : Bool) (M : Nat) (E : Int)
    (hM1 : 2 ^ 52 ≤ M) (hM2 : M < 2 ^ 53) (hE1 : -1074 ≤ E) (hE2 : E ≤ 971)
    (hsum : (Double.fin s1 m1 e1).toRat + (Double.fin s2 m2 e2).toRat =
      (Double.fin s M E).toRat) :
    (Double.fin s1 m1 e1).add (Double.fin s2 m2 e2) = Double.fin s M E := by
  have hx := scaled_toRat s1 m1 e1 (min e1 e2) (by omega)
  have hy := scaled_toRat s2 m2 e2 (min e1 e2) (by omega)
  have hpow : (0 : ℚ) < (2 : ℚ) ^ (min e1 e2) := by positivity
  have hME : (0 : ℚ) < (M : ℚ) * (2 : ℚ) ^ E := by
    have : (0 : ℚ) < M := by
      have : 0 < M := by omega
      exact_mod_cast this
    positivity
  have hvq : ((((Double.fin s1 m1 e1).scaled (min e1 e2) +
      (Double.fin s2 m2 e2).scaled (min e1 e2) : Int) : ℚ)) * (2 : ℚ) ^ (min e1 e2) =
      (Double.fin s M E).toRat := by
    push_cast
    rw [add_mul, hx, hy, hsum]
  have hdef : (Double.fin s1 m1 e1).add (Double.fin s2 m2 e2) =
      (if (Double.fin s1 m1 e1).scaled (min e1 e2) +
          (Double.fin s2 m2 e2).scaled (min e1 e2) = 0 then Double.fin (s1 && s2) 0 0
        else Double.round
          (decide ((Double.fin s1 m1 e1).scaled (min e1 e2) +
            (Double.fin s2 m2 e2).scaled (min e1 e2) < 0))
          (((Double.fin s1 m1 e1).scaled (min e1 e2) +
            (Double.fin s2 m2 e2).scaled (min e1 e2)).natAbs * 2 ^ (min e1 e2).toNat)
          (2 ^ (-(min e1 e2)).toNat)) := rfl
  rw [hdef]
  generalize (Double.fin s1 m1 e1).scaled (min e1 e2) +
    (Double.fin s2 m2 e2).scaled (min e1 e2) = v at hvq
  have hres : (if v = 0 then Double.fin (s1 && s2) 0 0
      else Double.round (decide (v < 0)) (v.natAbs * 2 ^ (min e1 e2).toNat)
        (2 ^ (-(min e1 e2)).toNat)) = Double.fin s M E := by
    have habs : (v.natAbs : ℚ) * (2 : ℚ) ^ (min e1 e2) = (M : ℚ) * (2 : ℚ) ^ E := by
      rw [Nat.cast_natAbs, Int.cast_abs]
      cases s with
      | false =>
        simp only [Double.toRat, Bool.false_eq_true, if_false, one_mul] at hvq
        have hvpos : (0 : ℚ) < (v : ℚ) := by
          by_contra hcon
          have : (v : ℚ) * (2 : ℚ) ^ (min e1 e2) ≤ 0 :=
            mul_nonpos_of_nonpos_of_nonneg (not_lt.1 hcon) hpow.le
          linarith
        rw [abs_of_pos hvpos, hvq]
      | true =>
        simp only [Double.toRat, if_true] at hvq
        have hvneg : (v : ℚ) < 0 := by
          by_contra hcon
          have : 0 ≤ (v : ℚ) * (2 : ℚ) ^ (min e1 e2) :=
            mul_nonneg (not_lt.1 hcon) hpow.le
          linarith
        rw [abs_of_neg hvneg, neg_mul, hvq]
        ring
    have hv0 : v ≠ 0 := by
      intro h
      rw [h] at habs
      simp only [Int.natAbs_zero, Nat.cast_zero, zero_mul] at habs
      linarith
    have hsign : decide (v < 0) = s := by
      cases s with
      | false =>
        simp only [Double.toRat, Bool.false_eq_true, if_false, one_mul] at hvq
        have : ¬ v < 0 := by
          intro hneg
          have h1 : (v : ℚ) < 0 := by exact_mod_cast hneg
          have : (v : ℚ) * (2 : ℚ) ^ (min e1 e2) < 0 := mul_neg_of_neg_of_pos h1 hpow
          linarith
        simp [this]
      | true =>
        simp only [Double.toRat, if_true] at hvq
        have : v < 0 := by
          by_contra hcon
          have h1 : (0 : ℚ) ≤ (v : ℚ) := by exact_mod_cast not_lt.1 hcon
          have : 0 ≤ (v : ℚ) * (2 : ℚ) ^ (min e1 e2) := mul_nonneg h1 hpow.le
          linarith
        simp [this]
    rw [if_neg hv0, hsign]
    refine round_exact s _ _ M E ?_ (by positivity) hM1 hM2 hE1 hE2 ?_
    · have : v.natAbs ≠ 0 := by omega
      positivity
    · push_cast
      rw [pow_toNat (min e1 e2), ← mul_assoc, habs]
  exact hres

theorem add_fin (s1 : Bool) (m1 : Nat) (e1 : Int) (s2 : Bool) (m2 : Nat) (e2 : Int) :
    (Double.fin s1 m1 e1).add (Double.fin s2 m2 e2) =
      (if (Double.fin s1 m1 e1).scaled (min e1 e2) +
          (Double.fin s2 m2 e2).scaled (min e1 e2) = 0 then Double.fin (s1 && s2) 0 0
        else Double.round
          (decide ((Double.fin s1 m1 e1).scaled (min e1 e2) +
            (Double.fin s2 m2 e2).scaled (min e1 e2) < 0))
          (((Double.fin s1 m1 e1).scaled (min e1 e2) +
            (Double.fin s2 m2 e2).scaled (min e1 e2)).natAbs * 2 ^ (min e1 e2).toNat)
          (2 ^ (-(min e1 e2)).toNat)) := rfl

theorem ofInt_form (n : Int) (hn : n.natAbs ≤ 2 ^ 53) :
    ∃ (M : Nat) (E : Int), Double.ofInt n = Double.fin (decide (n < 0)) M E ∧
      (Double.fin (decide (n < 0)) M E).toRat = n := by
  by_cases h0 : n = 0
  · subst h0
    exact ⟨0, 0, rfl, by simp [Double.toRat]⟩
  · obtain ⟨M, E, _, _, _, _, h1, h2⟩ := ofInt_exact n h0 hn
    exact ⟨M, E, h1, h2⟩

theorem ofInt_add (a b : Int) (ha : a.natAbs ≤ 2 ^ 53) (hb : b.natAbs ≤ 2 ^ 53)
    (hab : (a + b).natAbs ≤ 2 ^ 53) :
    (Double.ofInt a).add (Double.ofInt b) = Double.ofInt (a + b) := by
  obtain ⟨Ma, Ea, hfa, hva⟩ := ofInt_form a ha
  obtain ⟨Mb, Eb, hfb, hvb⟩ := ofInt_form b hb
  rw [hfa, hfb]
  by_cases h0 : a + b = 0
  · rw [h0, ofInt_zero, add_fin]
    have hx := scaled_toRat (decide (a < 0)) Ma Ea (min Ea Eb) (by omega)
    have hy := scaled_toRat (decide (b < 0)) Mb Eb (min Ea Eb) (by omega)
    have hpow : (0 : ℚ) < (2 : ℚ) ^ (min Ea Eb) := by positivity
    have hv : (Double.fin (decide (a < 0)) Ma Ea).scaled (min Ea Eb) +
        (Double.fin (decide (b < 0)) Mb Eb).scaled (min Ea Eb) = 0 := by
      have h1 : ((((Double.fin (decide (a < 0)) Ma Ea).scaled (min Ea Eb) +
          (Double.fin (decide (b < 0)) Mb Eb).scaled (min Ea Eb) : Int) : ℚ)) *
          (2 : ℚ) ^ (min Ea Eb) = 0 := by
        push_cast
        rw [add_mul, hx, hy, hva, hvb]
        exact_mod_cast h0
      rcases mul_eq_zero.1 h1 with h2 | h2
      · exact_mod_cast h2
      · exact absurd h2 hpow.ne'
    rw [if_pos hv]
    have hs : (decide (a < 0) && decide (b < 0)) = false := by
      by_cases h1 : a < 0
      · have : ¬ b < 0 := by omega
        simp [this]
      · simp [h1]
    rw [hs]
    rfl
  · obtain ⟨M, E, hM1, hM2, hE1, hE2, hf, hv⟩ := ofInt_exact (a + b) h0 hab
    rw [hf]
    refine add_eq_of_exact _ _ _ _ _ _ _ M E hM1 hM2 hE1 hE2 ?_
    rw [hva, hvb, hv]
    push_cast
    rfl

theorem addExact_of_exact (s1 : Bool) (m1 : Nat) (e1 : Int) (s2 : Bool) (m2 : Nat) (e2 : Int)
    (s : Bool) (m : Nat) (e : Int)
    (hz : (Double.fin s1 m1 e1).add (Double.fin s2 m2 e2) = Double.fin s m e)
    (hv : (Double.fin s m e).toRat = (Double.fin s1 m1 e1).toRat + (Double.fin s2 m2 e2).toRat) :
    (Double.fin s1 m1 e1).addExact (Double.fin s2 m2 e2) = true := by
  unfold Double.addExact
  rw [hz]
  simp only [decide_eq_true_eq]
  have h0 := scaled_toRat s m e (min e (min e1 e2)) (by omega)
  have h1 := scaled_toRat s1 m1 e1 (min e (min e1 e2)) (by omega)
  have h2 := scaled_toRat s2 m2 e2 (min e (min e1 e2)) (by omega)
  have hpow : (2 : ℚ) ^ (min e (min e1 e2)) ≠ 0 := by positivity
  have h3 : (((Double.fin s m e).scaled (min e (min e1 e2)) : Int) : ℚ) =
      (((Double.fin s1 m1 e1).scaled (min e (min e1 e2)) +
        (Double.fin s2 m2 e2).scaled (min e (min e1 e2)) : Int) : ℚ) := by
    apply mul_right_cancel₀ hpow
    push_cast
    rw [add_mul, h0, h1, h2, hv]
  exact_mod_cast h3

theorem noRounding_ofInt (ns : List Int) (acc : Int)
    (h : acc.natAbs + (ns.map Int.natAbs).sum ≤ 2 ^ 53) :
    noRounding (Double.ofInt acc) (ns.map Double.ofInt) = true ∧
    (ns.map Double.ofInt).foldl (fun sum x => sum.add x) (Double.ofInt acc) =
      Double.ofInt (acc + ns.sum) := by
  induction ns generalizing acc with
  | nil => simp [noRounding]
  | cons n rest ih =>
    simp only [List.map_cons, List.sum_cons] at h
    have ha : acc.natAbs ≤ 2 ^ 53 := by omega
    have hn : n.natAbs ≤ 2 ^ 53 := by omega
    have han : (acc + n).natAbs ≤ 2 ^ 53 := by omega
    have hadd := ofInt_add acc n ha hn han
    obtain ⟨Ma, Ea, hfa, hva⟩ := ofInt_form acc ha
    obtain ⟨Mn, En, hfn, hvn⟩ := ofInt_form n hn
    obtain ⟨M, E, hf, hv⟩ := ofInt_form (acc + n) han
    have hex : (Double.ofInt acc).addExact (Double.ofInt n) = true := by
      rw [hfa, hfn]
      refine addExact_of_exact _ _ _ _ _ _ (decide (acc + n < 0)) M E ?_ ?_
      · rw [← hfa, ← hfn, hadd, hf]
      · rw [hv, hva, hvn]
        push_cast
        rfl
    obtain ⟨h1, h2⟩ := ih (acc + n) (by omega)
    refine ⟨?_, ?_⟩
    · simp only [List.map_cons, noRounding, hex, hadd, h1, Bool.and_self]
    · simp only [List.map_cons, List.foldl_cons, hadd, h2, List.sum_cons]
      congr 1
      ring

theorem ofInt_toRat (n : Int) (hn : n.natAbs ≤ 2 ^ 53) :
    (Double.ofInt n).isFinite = true ∧ (Double.ofInt n).toRat = n := by
  obtain ⟨M, E, hf, hv⟩ := ofInt_form n hn
  rw [hf]
  exact ⟨rfl, hv⟩

theorem neg_round (s : Bool) (p q : Nat) :
    (Double.round s p q).neg = Double.round (!s) p q := by
  unfold Double.round Double.roundAt
  simp only []
  split_ifs <;> rfl

theorem neg_ofInt (n : Int) (h0 : n ≠ 0) : (Double.ofInt n).neg = Double.ofInt (-n) := by
  unfold Double.ofInt
  rw [neg_round, Int.natAbs_neg]
  congr 1
  by_cases hn : n < 0
  · have : ¬ -n < 0 := by omega
    simp [hn, this]
  · have : -n < 0 := by omega
    simp [hn, this]

theorem sub_ofInt (a b : Int) (ha : a.natAbs ≤ 2 ^ 53) (hb : b.natAbs ≤ 2 ^ 53)
    (hab : (a - b).natAbs ≤ 2 ^ 53) :
    (Double.ofInt a).sub (Double.ofInt b) = Double.ofInt (a - b) := by
  unfold Double.sub
  by_cases hb0 : b = 0
  · subst hb0
    rw [sub_zero]
    by_cases ha0 : a = 0
    · subst ha0
      rfl
    · obtain ⟨M, E, hM1, hM2, hE1, hE2, hf, _⟩ := ofInt_exact a ha0 ha
      rw [hf]
      refine add_eq_of_exact _ _ _ true 0 0 _ M E hM1 hM2 hE1 hE2 ?_
      simp [Double.toRat]
  · rw [neg_ofInt b hb0, ofInt_add a (-b) ha (by rw [Int.natAbs_neg]; exact hb)
      (by rw [← sub_eq_add_neg]; exact hab), sub_eq_add_neg]

theorem natAbs_sum_le (ns : List Int) : ns.sum.natAbs ≤ (ns.map Int.natAbs).sum := by
  induction ns with
  | nil => simp
  | cons n rest ih =>
    simp only [List.sum_cons, List.map_cons]
    have := Int.natAbs_add_le n rest.sum
    omega

theorem floatSum_ofInt (ns : List Int) (h : (ns.map Int.natAbs).sum ≤ 2 ^ 53) :
    floatSum (ns.map Double.ofInt) = Double.ofInt ns.sum := by
  have hr := (noRounding_ofInt ns 0 (by simpa using h)).2
  rw [zero_add] at hr
  exact hr

theorem amountOrZero_integer (sale : Row) (h : hasIntegerAmount sale = true) :
    hasNumericAmount sale = true ∧ amountOrZero sale = Double.ofInt (integerAmount sale) := by
  unfold hasIntegerAmount at h
  unfold hasNumericAmount amountOrZero integerAmount
  cases hv : getProp sale "commission_amount" <;> simp_all [ofInt_zero]

theorem map_amountOrZero_integer (rows : List Row)
    (h : ∀ sale ∈ rows, hasIntegerAmount sale = true) :
    rows.map amountOrZero = (rows.map integerAmount).map Double.ofInt := by
  induction rows with
  | nil => rfl
  | cons sale rest ih =>
    simp only [List.map_cons]
    rw [(amountOrZero_integer sale (h sale (List.mem_cons_self sale rest))).2,
      ih (fun x hx => h x (List.mem_cons_of_mem sale hx))]

theorem sum_filter_le (rows : List Row) (p : Row → Bool) (f : Row → Nat) :
    ((rows.filter p).map f).sum ≤ (rows.map f).sum := by
  induction rows with
  | nil => simp
  | cons sale rest ih =>
    by_cases hp : p sale = true
    · simp only [List.filter_cons, hp, if_true, List.map_cons, List.sum_cons]
      omega
    · simp only [List.filter_cons, hp, Bool.false_eq_true, if_false, List.map_cons,
        List.sum_cons]
      omega

theorem integer_sum_split (rows : List Row) (p : Row → Bool) :
    (rows.map integerAmount).sum =
      ((rows.filter p).map integerAmount).sum +
        ((rows.filter (fun sale => !p sale)).map integerAmount).sum := by
  induction rows with
  | nil => simp
  | cons sale rest ih =>
    by_cases hp : p sale = true
    · simp [List.filter_cons, hp, ih]
      omega
    · simp [List.filter_cons, hp, ih]
      omega

theorem floatSum_integer (rows : List Row) (h : ∀ sale ∈ rows, hasIntegerAmount sale = true)
    (hb : (rows.map (fun sale => (integerAmount sale).natAbs)).sum ≤ 2 ^ 53) :
    floatSum (rows.map amountOrZero) = Double.ofInt (rows.map integerAmount).sum := by
  rw [map_amountOrZero_integer rows h, floatSum_ofInt]
  rw [List.map_map]
  exact hb

theorem addCommission_numeric (total : Double) (sale : Row) (h : hasNumericAmount sale = true) :
    addCommission (some total) sale = some (total.add (amountOrZero sale)) := by
  unfold hasNumericAmount at h
  unfold addCommission amountOrZero orElse
  cases hv : getProp sale "commission_amount" with
  | num n =>
    by_cases hn : n = 0
    · simp [truthy, hn]
    · simp [truthy, hn]
  | float x =>
    rw [hv] at h
    cases x with
    | nan => simp at h
    | inf a => simp at h
    | fin s m e =>
      have hm : m ≠ 0 := by simpa using h
      simp [truthy, hm]
  | undefined => simp [truthy, ofInt_zero]
  | null => simp [truthy, ofInt_zero]
  | bool b => simp [hv] at h
  | str t => simp [hv] at h
  | arr items => simp [hv] at h
  | obj fields => simp [hv] at h

theorem foldl_addCommission (sales : List Row) (total : Double)
    (h : ∀ sale ∈ sales, hasNumericAmount sale = true) :
    sales.foldl (fun sum sale => addCommission sum sale) (some total) =
      some ((sales.map amountOrZero).foldl (fun sum x => sum.add x) total) := by
  induction sales generalizing total with
  | nil => simp
  | cons sale rest ih =>
    rw [List.foldl_cons, addCommission_numeric total sale (h sale (List.mem_cons_self sale rest)),
      ih _ (fun x hx => h x (List.mem_cons_of_mem sale hx))]
    simp

theorem unpaid_fold (sales : List Row)
    (h : ∀ sale ∈ sales, notPaid sale = true → hasNumericAmount sale = true) :
    (sales.filter (fun sale => notPaid sale)).foldl (fun sum sale => addCommission sum sale)
        (some Double.zero) =
      some (floatSum ((sales.filter (fun sale => notPaid sale)).map amountOrZero)) := by
  rw [foldl_addCommission]
  · rfl
  · intro sale hsale
    exact h sale (List.mem_filter.1 hsale).1 (List.mem_filter.1 hsale).2

/-- C19, as the code has it: for sales whose unpaid rows have a finite
numeric or missing `commission_amount`, the unpaid total computed at each of
the three places is the floating-point sum, taken from 0 in list order with
every addition rounded to binary64, of the amounts (a missing amount counting
as 0) over exactly the rows whose `commission_paid` is not set (falsy). A row
whose `commission_paid` is set adds nothing, whatever its amount is. When no
addition of the run rounds, the total is finite and its value is the exact
sum of those amounts; this is so when the unpaid amounts are integers (or
missing) whose absolute values sum to `2^53` at most: the total is then the
integer sum itself. -/
theorem unpaid_commission_total (sales : List Row)
    (h : ∀ sale ∈ sales, notPaid sale = true → hasNumericAmount sale = true) :
    Admin.unpaidCommissions sales =
      some (floatSum ((sales.filter (fun sale => !truthy (getProp sale "commission_paid"))).map
        amountOrZero)) ∧
    CommissionManagement.totalUnpaid sales =
      some (floatSum ((sales.filter (fun sale => !truthy (getProp sale "commission_paid"))).map
        amountOrZero)) ∧
    Commissions.pendingPayout sales =
      some (floatSum ((sales.filter (fun sale => !truthy (getProp sale "commission_paid"))).map
        amountOrZero)) ∧
    (∀ paid : Row, truthy (getProp paid "commission_paid") = true →
      Admin.unpaidCommissions (paid :: sales) = Admin.unpaidCommissions sales ∧
      CommissionManagement.totalUnpaid (paid :: sales) = CommissionManagement.totalUnpaid sales ∧
      Commissions.pendingPayout (paid :: sales) = Commissions.pendingPayout sales) ∧
    (noRounding Double.zero
        ((sales.filter (fun sale => !truthy (getProp sale "commission_paid"))).map
          amountOrZero) = true →
      ∃ total : Double,
        Admin.unpaidCommissions sales = some total ∧
        CommissionManagement.totalUnpaid sales = some total ∧
        Commissions.pendingPayout sales = some total ∧
        total.isFinite = true ∧
        total.toRat =
          ((sales.filter (fun sale => !truthy (getProp sale "commission_paid"))).map
            exactAmount).sum) ∧
    ((∀ sale ∈ sales, notPaid sale = true → hasIntegerAmount sale = true) →
      ((sales.filter (fun sale => !truthy (getProp sale "commission_paid"))).map
        (fun sale => (integerAmount sale).natAbs)).sum ≤ 2 ^ 53 →
      Admin.unpaidCommissions sales =
        some (Double.ofInt
          ((sales.filter (fun sale => !truthy (getProp sale "commission_paid"))).map
            integerAmount).sum) ∧
      CommissionManagement.totalUnpaid sales =
        some (Double.ofInt
          ((sales.filter (fun sale => !truthy (getProp sale "commission_paid"))).map
            integerAmount).sum) ∧
      Commissions.pendingPayout sales =
        some (Double.ofInt
          ((sales.filter (fun sale => !truthy (getProp sale "commission_paid"))).map
            integerAmount).sum) ∧
      (Double.ofInt
        ((sales.filter (fun sale => !truthy (getProp sale "commission_paid"))).map
          integerAmount).sum).toRat =
        (((sales.filter (fun sale => !truthy (getProp sale "commission_paid"))).map
          integerAmount).sum : Int)) := by
  have hf := unpaid_fold sales h
  refine ⟨hf, hf, hf, ?_, ?_, ?_⟩
  · intro paid hpaid
    have hdrop : (paid :: sales).filter (fun sale => notPaid sale) =
        sales.filter (fun sale => notPaid sale) := by
      rw [List.filter_cons]
      simp [notPaid, hpaid]
    simp only [Admin.unpaidCommissions, CommissionManagement.totalUnpaid,
      Commissions.pendingPayout, hdrop, and_self]
  · intro hexact
    have hx := floatSum_exact _ hexact
    refine ⟨_, hf, hf, hf, hx.1, hx.2.trans ?_⟩
    rw [List.map_map]
    rfl
  · intro hint hb
    have hsum := floatSum_integer
      (sales.filter (fun sale => !truthy (getProp sale "commission_paid")))
      (fun sale hs => hint sale (List.mem_filter.1 hs).1 (List.mem_filter.1 hs).2) hb
    have hf1 : (sales.filter (fun sale => notPaid sale)).foldl
        (fun sum sale => addCommission sum sale) (some Double.zero) =
        some (Double.ofInt
          ((sales.filter (fun sale => !truthy (getProp sale "commission_paid"))).map
            integerAmount).sum) := hf.trans (congrArg some hsum)
    refine ⟨hf1, hf1, hf1, (ofInt_toRat _ ?_).2⟩
    refine (natAbs_sum_le _).trans ?_
    rw [List.map_map]
    exact hb

set_option maxRecDepth 100000 in
/-- The example of the specification: with 50 unpaid and 30 paid the unpaid
total is 50 at each of the three places, and no addition rounds. With 50.25
unpaid and 30.50 paid the total is 50.25. -/
theorem unpaid_commission_total_witness :
    Admin.unpaidCommissions sampleSales = some (Double.ofInt 50) ∧
    CommissionManagement.totalUnpaid sampleSales = some (Double.ofInt 50) ∧
    Commissions.pendingPayout sampleSales = some (Double.ofInt 50) ∧
    (∃ total : Double,
      Admin.unpaidCommissions sampleSales = some total ∧
      CommissionManagement.totalUnpaid sampleSales = some total ∧
      Commissions.pendingPayout sampleSales = some total ∧
      total.isFinite = true ∧
      total.toRat =
        ((sampleSales.filter (fun sale => !truthy (getProp sale "commission_paid"))).map
          exactAmount).sum) ∧
    Admin.unpaidCommissions sampleSales =
      some (Double.ofInt
        ((sampleSales.filter (fun sale => !truthy (getProp sale "commission_paid"))).map
          integerAmount).sum) ∧
    Admin.unpaidCommissions quarterSales = some (Double.ofDecimal 5025 2) :=
  ⟨(unpaid_commission_total sampleSales (by decide)).1.trans (by decide),
   (unpaid_commission_total sampleSales (by decide)).2.1.trans (by decide),
   (unpaid_commission_total sampleSales (by decide)).2.2.1.trans (by decide),
   (unpaid_commission_total sampleSales (by decide)).2.2.2.2.1 (by decide),
   ((unpaid_commission_total sampleSales (by decide)).2.2.2.2.2 (by decide) (by decide)).1,
   (unpaid_commission_total quarterSales (by decide)).1.trans (by decide)⟩

set_option maxRecDepth 100000 in
/-- C19, the claim as written fails: the total is not always the sum of the
amounts. With the unpaid amounts 9007199254740992, 1 and 1 the total at each
of the three places is 9007199254740992, while the sum of the amounts is
9007199254740994, itself a number of the format. With the unpaid amounts 0.10
and 0.20 the total is 0.30000000000000004, which is not the number 0.30. -/
theorem unpaid_total_rounds :
    (∀ sale ∈ largeSales, hasNumericAmount sale = true) ∧
    Admin.unpaidCommissions largeSales = some (Double.ofInt 9007199254740992) ∧
    CommissionManagement.totalUnpaid largeSales = some (Double.ofInt 9007199254740992) ∧
    Commissions.pendingPayout largeSales = some (Double.ofInt 9007199254740992) ∧
    ((largeSales.filter (fun sale => !truthy (getProp sale "commission_paid"))).map
      exactAmount).sum = 9007199254740994 ∧
    (Double.ofInt 9007199254740992).toRat = 9007199254740992 ∧
    (Double.ofInt 9007199254740994).toRat = 9007199254740994 ∧
    (∀ sale ∈ penceSales, hasNumericAmount sale = true) ∧
    Admin.unpaidCommissions penceSales = some (Double.ofDecimal 30000000000000004 17) ∧
    Double.ofDecimal 30000000000000004 17 ≠ Double.ofDecimal 30 2 := by
  have h1 : Double.ofInt 9007199254740992 = Double.fin false 4503599627370496 1 := by decide
  have h2 : Double.ofInt 9007199254740994 = Double.fin false 4503599627370497 1 := by decide
  have h3 : Double.ofInt 1 = Double.fin false 4503599627370496 (-52) := by decide
  refine ⟨by decide, by decide, by decide, by decide, ?_, ?_, ?_, by decide, by decide,
    by decide⟩
  · have hl : (largeSales.filter (fun sale => !truthy (getProp sale "commission_paid"))).map
        exactAmount =
        [(Double.fin false 4503599627370496 1).toRat,
         (Double.fin false 4503599627370496 (-52)).toRat,
         (Double.fin false 4503599627370496 (-52)).toRat] := by
      rw [← h1, ← h3]
      rfl
    rw [hl]
    norm_num [Double.toRat]
  · rw [h1]
    norm_num [Double.toRat]
  · rw [h2]
    norm_num [Double.toRat]

/-! ## Lead export -/

theorem join_cons (x : String) (xs : List String) (separator : String) :
    join (x :: xs) separator =
      x ++ xs.foldr (fun line rest => separator ++ line ++ rest) "" := by
  induction xs generalizing x with
  | nil => simp [join]
  | cons y ys ih =>
    have hstep : join (x :: y :: ys) separator = x ++ separator ++ join (y :: ys) separator := by
      simp [join]
    rw [hstep, ih y, List.foldr_cons]
    simp [String.append_assoc]

theorem join_fields (lead : Row) :
    join
      ([ getProp lead "company_name",
         getProp lead "contact_name",
         orElse (getProp lead "email") (JsValue.str ""),
         orElse (getProp lead "phone") (JsValue.str ""),
         getProp lead "industry",
         getProp lead "region",
         getProp lead "status",
         orElse (getProp lead "notes") (JsValue.str "") ].map
        (fun field => "\"" ++ toStr field ++ "\"")) "," = csvLine lead := by
  simp [join, csvLine, quoted, orBlank, orElse, String.append_assoc]

set_option maxRecDepth 100000 in
/-- C20: the CSV text of `exportLeads` is the header line
`Company,Contact,Email,Phone,Industry,Region,Status,Notes` followed, for each
filtered lead in the order of the lead list, by a newline and the line of that
lead: its eight fields, each between double quotes, with commas between them.
The filtered leads are leads of the list, in the order of the list. -/
theorem exportLeads_csv (leads : List Row) (filters : Leads.Filters) :
    Leads.exportLeads leads filters =
      "Company,Contact,Email,Phone,Industry,Region,Status,Notes" ++
        ((Leads.getFilteredLeads leads filters).map csvLine).foldr
          (fun line rest => "\n" ++ line ++ rest) "" ∧
    (Leads.getFilteredLeads leads filters).Sublist leads ∧
    ((Leads.getFilteredLeads leads filters).map csvLine).length =
      (Leads.getFilteredLeads leads filters).length ∧
    (∀ lead, csvLine lead =
      "\"" ++ toStr (getProp lead "company_name") ++ "\"" ++ "," ++
      ("\"" ++ toStr (getProp lead "contact_name") ++ "\"" ++ "," ++
      ("\"" ++ toStr (orBlank (getProp lead "email")) ++ "\"" ++ "," ++
      ("\"" ++ toStr (orBlank (getProp lead "phone")) ++ "\"" ++ "," ++
      ("\"" ++ toStr (getProp lead "industry") ++ "\"" ++ "," ++
      ("\"" ++ toStr (getProp lead "region") ++ "\"" ++ "," ++
      ("\"" ++ toStr (getProp lead "status") ++ "\"" ++ "," ++
      ("\"" ++ toStr (orBlank (getProp lead "notes")) ++ "\"")))))))) := by
  refine ⟨?_, List.filter_sublist _, by simp, fun lead => rfl⟩
  unfold Leads.exportLeads
  simp only [List.singleton_append]
  rw [join_cons]
  have hheader : join ["Company", "Contact", "Email", "Phone", "Industry", "Region", "Status",
      "Notes"] "," = "Company,Contact,Email,Phone,Industry,Region,Status,Notes" := by decide
  rw [hheader]
  congr 2

set_option maxRecDepth 100000 in
/-- Two leads with every filter on `all`: the header and one line per lead,
missing email, phone and notes giving empty quoted fields. -/
theorem exportLeads_csv_witness :
    Leads.exportLeads sampleExport { status := "all", industry := "all", region := "all" } =
      "Company,Contact,Email,Phone,Industry,Region,Status,Notes\n\"Acme\",\"Jo\",\"jo@acme.io\",\"0123\",\"Retail\",\"North\",\"booked\",\"call back\"\n\"Bolt\",\"Al\",\"\",\"\",\"Tech\",\"South\",\"assigned\",\"\"" :=
  (exportLeads_csv sampleExport { status := "all", industry := "all", region := "all" }).1.trans
    (by decide)

/-! ## Lead export: no escaping -/

set_option maxRecDepth 100000 in
/-- C21: `exportLeads` writes the text of a field as it is between the two
quotes. For the lead whose notes are `said "yes" twice` the exported line holds
the quotes of the notes unchanged, and reading that line as quoted CSV does
not give back the eight field values, while the same lead without a quote is
read back. Two leads with different field values are exported as the same
line, so no reader at all gives back the fields of both. -/
theorem exportLeads_quote_corrupts :
    Leads.exportLeads [quoteLead] allLeads =
      "Company,Contact,Email,Phone,Industry,Region,Status,Notes" ++ "\n" ++
        "\"Acme\",\"Jo\",\"jo@acme.io\",\"0123\",\"Retail\",\"North\",\"booked\",\"said \"yes\" twice\"" ∧
    csvLine quoteLead =
      "\"Acme\",\"Jo\",\"jo@acme.io\",\"0123\",\"Retail\",\"North\",\"booked\",\"said \"yes\" twice\"" ∧
    readCsvLine (csvLine quoteLead) ≠ some (csvFields quoteLead) ∧
    readCsvLine (csvLine plainLead) = some (csvFields plainLead) ∧
    csvFields leadA ≠ csvFields leadB ∧
    csvLine leadA = csvLine leadB ∧
    Leads.exportLeads [leadA] allLeads = Leads.exportLeads [leadB] allLeads ∧
    (∀ read : String → Option (List String),
      ¬ (read (csvLine leadA) = some (csvFields leadA) ∧
         read (csvLine leadB) = some (csvFields leadB))) := by
  have hne : csvFields leadA ≠ csvFields leadB := by decide
  have hline : csvLine leadA = csvLine leadB := by decide
  refine ⟨by decide, by decide, by decide, by decide, hne, hline, by decide, ?_⟩
  rintro read ⟨ha, hb⟩
  rw [hline, hb] at ha
  exact hne (Option.some.inj ha).symm

/-! ## Dashboard counts -/

theorem filter_length_mono {α : Type} (p q : α → Bool) (l : List α)
    (h : ∀ x, p x = true → q x = true) : (l.filter p).length ≤ (l.filter q).length := by
  induction l with
  | nil => simp
  | cons a l ih =>
    by_cases hp : p a = true
    · simp [List.filter_cons, hp, h a hp, ih]
    · by_cases hq : q a = true
      · simp [List.filter_cons, hp, hq]
        omega
      · simp [List.filter_cons, hp, hq, ih]

/-- C27: for every list of leads, `bookedLeads` is at most `contactedLeads`,
which is at most the number of leads (and both are natural numbers);
`contactedLeads` counts exactly the leads whose status is contacted, replied,
booked or closed, `bookedLeads` exactly those whose status is booked. -/
theorem dashboard_counts (userLeads : List Row) :
    0 ≤ Dashboard.bookedLeads userLeads ∧
    Dashboard.bookedLeads userLeads ≤ Dashboard.contactedLeads userLeads ∧
    Dashboard.contactedLeads userLeads ≤ userLeads.length ∧
    Dashboard.contactedLeads userLeads =
      userLeads.countP (fun lead =>
        decide (getProp lead "status" = JsValue.str "contacted" ∨
          getProp lead "status" = JsValue.str "replied" ∨
          getProp lead "status" = JsValue.str "booked" ∨
          getProp lead "status" = JsValue.str "closed")) ∧
    Dashboard.bookedLeads userLeads =
      userLeads.countP (fun lead => decide (getProp lead "status" = JsValue.str "booked")) := by
  refine ⟨Nat.zero_le _, ?_, ?_, ?_, ?_⟩
  · unfold Dashboard.bookedLeads Dashboard.contactedLeads
    apply filter_length_mono
    intro lead h
    have hb : getProp lead "status" = JsValue.str "booked" := by simpa using h
    simp [hb]
  · unfold Dashboard.contactedLeads
    exact List.length_filter_le _ _
  · unfold Dashboard.contactedLeads
    rw [List.countP_eq_length_filter]
    congr 1
    apply List.filter_congr
    intro lead _
    simp
  · unfold Dashboard.bookedLeads
    rw [List.countP_eq_length_filter]

/-- Six leads, two booked, one contacted and one closed: two bookings, four
contacted. -/
theorem dashboard_counts_witness :
    Dashboard.bookedLeads sampleStatuses = 2 ∧ Dashboard.contactedLeads sampleStatuses = 4 ∧
    Dashboard.bookedLeads sampleStatuses ≤ Dashboard.contactedLeads sampleStatuses :=
  ⟨by decide, by decide, (dashboard_counts sampleStatuses).2.1⟩

/-! ## Lead filters -/

/-- C29: for every lead list and filter state, `getFilteredLeads` returns, in
their original order, exactly the leads for which each of status, industry
and region has its filter on `all` or equals the filter value; with the three
filters on `all`, as `clearFilters` sets them and as a count of 0 active
filters means, it returns the whole list. -/
theorem getFilteredLeads_exact (leads : List Row) (filters : Leads.Filters) :
    Leads.getFilteredLeads leads filters =
      leads.filter (fun lead =>
        decide ((filters.status = "all" ∨ getProp lead "status" = JsValue.str filters.status) ∧
          (filters.industry = "all" ∨
            getProp lead "industry" = JsValue.str filters.industry) ∧
          (filters.region = "all" ∨ getProp lead "region" = JsValue.str filters.region))) ∧
    (Leads.getFilteredLeads leads filters).Sublist leads ∧
    (∀ lead, lead ∈ Leads.getFilteredLeads leads filters ↔
      lead ∈ leads ∧
      (filters.status = "all" ∨ getProp lead "status" = JsValue.str filters.status) ∧
      (filters.industry = "all" ∨ getProp lead "industry" = JsValue.str filters.industry) ∧
      (filters.region = "all" ∨ getProp lead "region" = JsValue.str filters.region)) ∧
    Leads.getFilteredLeads leads { status := "all", industry := "all", region := "all" } =
      leads ∧
    Leads.getFilteredLeads leads LeadFilters.clearFilters = leads ∧
    (LeadFilters.getActiveFiltersCount filters = 0 →
      Leads.getFilteredLeads leads filters = leads) := by
  have hfilter : Leads.getFilteredLeads leads filters =
      leads.filter (fun lead =>
        decide ((filters.status = "all" ∨ getProp lead "status" = JsValue.str filters.status) ∧
          (filters.industry = "all" ∨
            getProp lead "industry" = JsValue.str filters.industry) ∧
          (filters.region = "all" ∨
            getProp lead "region" = JsValue.str filters.region))) := by
    unfold Leads.getFilteredLeads
    apply List.filter_congr
    intro lead _
    by_cases h1 : filters.status = "all" <;>
    by_cases h2 : filters.industry = "all" <;>
    by_cases h3 : filters.region = "all" <;>
    by_cases h4 : getProp lead "status" = JsValue.str filters.status <;>
    by_cases h5 : getProp lead "industry" = JsValue.str filters.industry <;>
    by_cases h6 : getProp lead "region" = JsValue.str filters.region <;>
    simp [h1, h2, h3, h4, h5, h6]
  have hall : ∀ f : Leads.Filters, f.status = "all" → f.industry = "all" → f.region = "all" →
      Leads.getFilteredLeads leads f = leads := by
    intro f h1 h2 h3
    unfold Leads.getFilteredLeads
    rw [List.filter_eq_self]
    intro lead _
    simp [h1, h2, h3]
  refine ⟨hfilter, ?_, ?_, hall _ rfl rfl rfl, hall _ rfl rfl rfl, ?_⟩
  · unfold Leads.getFilteredLeads
    exact List.filter_sublist _
  · intro lead
    rw [hfilter, List.mem_filter]
    simp
  · intro h
    unfold LeadFilters.getActiveFiltersCount at h
    by_cases h1 : filters.status = "all" <;>
    by_cases h2 : filters.industry = "all" <;>
    by_cases h3 : filters.region = "all" <;>
    simp [List.filter_cons, h1, h2, h3] at h
    exact hall filters h1 h2 h3

/-- Booked leads of the North: the first and the fourth lead, in that order;
after `clearFilters` the whole list. -/
theorem getFilteredLeads_exact_witness :
    (Leads.getFilteredLeads sampleLeadList
      { status := "booked", industry := "all", region := "North" }).map
        (fun lead => getProp lead "id") = [JsValue.num 1, JsValue.num 4] ∧
    Leads.getFilteredLeads sampleLeadList LeadFilters.clearFilters = sampleLeadList :=
  ⟨by decide,
   (getFilteredLeads_exact sampleLeadList LeadFilters.clearFilters).2.2.2.2.2 (by decide)⟩

/-! ## Commission stats -/

theorem sum_split (sales : List Row) (p : Row → Bool) :
    (sales.map exactAmount).sum =
      ((sales.filter p).map exactAmount).sum +
        ((sales.filter (fun sale => !p sale)).map exactAmount).sum := by
  induction sales with
  | nil => simp
  | cons sale rest ih =>
    by_cases hp : p sale = true
    · simp [List.filter_cons, hp, ih]
      ring
    · simp [List.filter_cons, hp, ih]
      ring

theorem neg_toRat (x : Double) : x.neg.toRat = -x.toRat := by
  cases x with
  | nan => simp [Double.neg, Double.toRat]
  | inf a => simp [Double.neg, Double.toRat]
  | fin s m e => cases s <;> simp [Double.neg, Double.toRat]

/-- C28, as the code has it: for sales whose `commission_amount` is a finite
number or is missing, `totalEarned` is the floating-point sum of the amounts
(a missing amount counting as 0) of all rows, `pendingPayout` that of the rows
whose `commission_paid` is not set, `paidOut` is the rounded difference
`totalEarned - pendingPayout`, and `totalSales` is the number of rows. When
none of the additions of the two sums rounds and the difference does not
round, `totalEarned = pendingPayout + paidOut` holds for the exact values and
`paidOut` is the exact sum of the amounts over exactly the rows whose
`commission_paid` is set. This is so when the amounts are integers (or
missing) whose absolute values sum to `2^53` at most: the three stats are
then the integer sums over all rows, over the rows not paid and over the rows
paid, the first being the sum of the other two. -/
theorem commission_stats (userSales : List Row)
    (h : ∀ sale ∈ userSales, hasNumericAmount sale = true) :
    (Commissions.stats userSales).totalEarned =
      some (floatSum (userSales.map amountOrZero)) ∧
    (Commissions.stats userSales).pendingPayout =
      some (floatSum ((userSales.filter
        (fun sale => !truthy (getProp sale "commission_paid"))).map amountOrZero)) ∧
    (Commissions.stats userSales).paidOut =
      some ((floatSum (userSales.map amountOrZero)).sub
        (floatSum ((userSales.filter
          (fun sale => !truthy (getProp sale "commission_paid"))).map amountOrZero))) ∧
    (Commissions.stats userSales).totalSales = userSales.length ∧
    (noRounding Double.zero (userSales.map amountOrZero) = true →
      noRounding Double.zero ((userSales.filter
        (fun sale => !truthy (getProp sale "commission_paid"))).map amountOrZero) = true →
      (floatSum (userSales.map amountOrZero)).addExact
        (floatSum ((userSales.filter
          (fun sale => !truthy (getProp sale "commission_paid"))).map amountOrZero)).neg = true →
      ∃ totalEarned pendingPayout paidOut : Double,
        (Commissions.stats userSales).totalEarned = some totalEarned ∧
        (Commissions.stats userSales).pendingPayout = some pendingPayout ∧
        (Commissions.stats userSales).paidOut = some paidOut ∧
        totalEarned.isFinite = true ∧ pendingPayout.isFinite = true ∧
        paidOut.isFinite = true ∧
        totalEarned.toRat = pendingPayout.toRat + paidOut.toRat ∧
        totalEarned.toRat = (userSales.map exactAmount).sum ∧
        paidOut.toRat =
          ((userSales.filter (fun sale => truthy (getProp sale "commission_paid"))).map
            exactAmount).sum) ∧
    ((∀ sale ∈ userSales, hasIntegerAmount sale = true) →
      (userSales.map (fun sale => (integerAmount sale).natAbs)).sum ≤ 2 ^ 53 →
      Commissions.stats userSales =
        { totalEarned := some (Double.ofInt (userSales.map integerAmount).sum),
          pendingPayout := some (Double.ofInt
            ((userSales.filter (fun sale => !truthy (getProp sale "commission_paid"))).map
              integerAmount).sum),
          paidOut := some (Double.ofInt
            ((userSales.filter (fun sale => truthy (getProp sale "commission_paid"))).map
              integerAmount).sum),
          totalSales := userSales.length } ∧
      (userSales.map integerAmount).sum =
        ((userSales.filter (fun sale => !truthy (getProp sale "commission_paid"))).map
          integerAmount).sum +
        ((userSales.filter (fun sale => truthy (getProp sale "commission_paid"))).map
          integerAmount).sum ∧
      (Double.ofInt (userSales.map integerAmount).sum).toRat =
        ((userSales.map integerAmount).sum : Int) ∧
      (Double.ofInt
        ((userSales.filter (fun sale => !truthy (getProp sale "commission_paid"))).map
          integerAmount).sum).toRat =
        (((userSales.filter (fun sale => !truthy (getProp sale "commission_paid"))).map
          integerAmount).sum : Int) ∧
      (Double.ofInt
        ((userSales.filter (fun sale => truthy (getProp sale "commission_paid"))).map
          integerAmount).sum).toRat =
        (((userSales.filter (fun sale => truthy (getProp sale "commission_paid"))).map
          integerAmount).sum : Int)) := by
  have he : Commissions.totalEarned userSales = some (floatSum (userSales.map amountOrZero)) := by
    unfold Commissions.totalEarned
    rw [foldl_addCommission userSales Double.zero h]
    rfl
  have hp : Commissions.pendingPayout userSales =
      some (floatSum ((userSales.filter (fun sale => notPaid sale)).map amountOrZero)) :=
    unpaid_fold userSales (fun sale hs _ => h sale hs)
  have ho : Commissions.paidOut userSales =
      some ((floatSum (userSales.map amountOrZero)).sub
        (floatSum ((userSales.filter (fun sale => notPaid sale)).map amountOrZero))) := by
    unfold Commissions.paidOut
    rw [he, hp]
  have hpaid : (userSales.filter (fun sale => !notPaid sale)) =
      userSales.filter (fun sale => truthy (getProp sale "commission_paid")) := by
    apply List.filter_congr
    intro sale _
    simp [notPaid]
  refine ⟨he, hp, ho, rfl, ?_, ?_⟩
  rotate_left
  · intro hint hb
    have hbU : ((userSales.filter (fun sale => notPaid sale)).map
        (fun sale => (integerAmount sale).natAbs)).sum ≤ 2 ^ 53 :=
      (sum_filter_le userSales _ _).trans hb
    have hbP : ((userSales.filter (fun sale => truthy (getProp sale "commission_paid"))).map
        (fun sale => (integerAmount sale).natAbs)).sum ≤ 2 ^ 53 :=
      (sum_filter_le userSales _ _).trans hb
    have hA : ((userSales.map integerAmount).sum).natAbs ≤ 2 ^ 53 := by
      refine (natAbs_sum_le _).trans ?_
      rw [List.map_map]
      exact hb
    have hU : (((userSales.filter (fun sale => notPaid sale)).map integerAmount).sum).natAbs ≤
        2 ^ 53 := by
      refine (natAbs_sum_le _).trans ?_
      rw [List.map_map]
      exact hbU
    have hP : (((userSales.filter
        (fun sale => truthy (getProp sale "commission_paid"))).map integerAmount).sum).natAbs ≤
        2 ^ 53 := by
      refine (natAbs_sum_le _).trans ?_
      rw [List.map_map]
      exact hbP
    have hisplit := integer_sum_split userSales (fun sale => notPaid sale)
    rw [hpaid] at hisplit
    have hTi := floatSum_integer userSales hint hb
    have hPi := floatSum_integer (userSales.filter (fun sale => notPaid sale))
      (fun sale hs => hint sale (List.mem_filter.1 hs).1) hbU
    have hsub := sub_ofInt _ _ hA hU (by
      have : (userSales.map integerAmount).sum -
          ((userSales.filter (fun sale => notPaid sale)).map integerAmount).sum =
          ((userSales.filter (fun sale => truthy (getProp sale "commission_paid"))).map
            integerAmount).sum := by omega
      rw [this]
      exact hP)
    have hdiff : (userSales.map integerAmount).sum -
        ((userSales.filter (fun sale => notPaid sale)).map integerAmount).sum =
        ((userSales.filter (fun sale => truthy (getProp sale "commission_paid"))).map
          integerAmount).sum := by omega
    rw [hdiff] at hsub
    refine ⟨?_, hisplit, (ofInt_toRat _ hA).2, (ofInt_toRat _ hU).2, (ofInt_toRat _ hP).2⟩
    unfold Commissions.stats
    rw [he, hp, ho, hTi, hPi, hsub]
    rfl
  intro hall hunpaid hsub
  have hsplit := sum_split userSales (fun sale => notPaid sale)
  rw [hpaid] at hsplit
  have hT := floatSum_exact _ hall
  have hP := floatSum_exact _ hunpaid
  have hO := addExact_toRat _ _ hsub
  rw [List.map_map] at hT hP
  have hTsum : (floatSum (userSales.map amountOrZero)).toRat =
      (userSales.map exactAmount).sum := hT.2
  have hPsum : (floatSum ((userSales.filter (fun sale => notPaid sale)).map amountOrZero)).toRat =
      ((userSales.filter (fun sale => notPaid sale)).map exactAmount).sum := hP.2
  have hOval : ((floatSum (userSales.map amountOrZero)).sub
      (floatSum ((userSales.filter (fun sale => notPaid sale)).map amountOrZero))).toRat =
      (floatSum (userSales.map amountOrZero)).toRat -
        (floatSum ((userSales.filter (fun sale => notPaid sale)).map amountOrZero)).toRat := by
    have hneg := hO.2
    rw [neg_toRat] at hneg
    exact hneg.trans (sub_eq_add_neg _ _).symm
  refine ⟨_, _, _, he, hp, ho, hT.1, hP.1, hO.1, ?_, hTsum, ?_⟩
  · rw [hOval]
    ring
  · rw [hOval, hTsum, hPsum, hsplit]
    ring

set_option maxRecDepth 100000 in
/-- With 50 unpaid, 30 paid and a paid sale without amount: 80 earned, 50
pending, 30 paid out, three sales, nothing rounded. With 50.25 unpaid and
30.50 paid: 80.75 earned, 50.25 pending, 30.50 paid out. -/
theorem commission_stats_witness :
    Commissions.stats sampleUserSales =
      { totalEarned := some (Double.ofInt 80), pendingPayout := some (Double.ofInt 50),
        paidOut := some (Double.ofInt 30), totalSales := 3 } ∧
    Commissions.stats quarterSales =
      { totalEarned := some (Double.ofDecimal 8075 2),
        pendingPayout := some (Double.ofDecimal 5025 2),
        paidOut := some (Double.ofDecimal 3050 2), totalSales := 3 } ∧
    ∃ totalEarned pendingPayout paidOut : Double,
      (Commissions.stats quarterSales).totalEarned = some totalEarned ∧
      (Commissions.stats quarterSales).pendingPayout = some pendingPayout ∧
      (Commissions.stats quarterSales).paidOut = some paidOut ∧
      totalEarned.toRat = pendingPayout.toRat + paidOut.toRat ∧
      paidOut.toRat =
        ((quarterSales.filter (fun sale => truthy (getProp sale "commission_paid"))).map
          exactAmount).sum :=
  ⟨((commission_stats sampleUserSales (by decide)).2.2.2.2.2 (by decide) (by decide)).1.trans
      (by decide),
   by decide,
   match (commission_stats quarterSales (by decide)).2.2.2.2.1 (by decide) (by decide)
     (by decide) with
   | ⟨e, p, o, h1, h2, h3, _, _, _, h4, _, h5⟩ => ⟨e, p, o, h1, h2, h3, h4, h5⟩⟩

set_option maxRecDepth 100000 in
/-- C28, the claim as written fails. With 0.01 paid, 0.03 unpaid and 0.25
paid the stats are 0.29 earned, 0.03 pending and 0.26 paid out, and
0.03 + 0.26 is not 0.29, neither rounded (it is 0.29000000000000004) nor for
the exact values. With 0.01 unpaid and 2.00 paid, `paidOut` is
1.9999999999999998 while the amounts of the paid rows sum to 2. -/
theorem commission_stats_drift :
    (∀ sale ∈ driftSales, hasNumericAmount sale = true) ∧
    Commissions.stats driftSales =
      { totalEarned := some (Double.ofDecimal 29 2),
        pendingPayout := some (Double.ofDecimal 3 2),
        paidOut := some (Double.ofDecimal 26 2), totalSales := 3 } ∧
    (Double.ofDecimal 3 2).add (Double.ofDecimal 26 2) =
      Double.ofDecimal 29000000000000004 17 ∧
    (Double.ofDecimal 3 2).add (Double.ofDecimal 26 2) ≠ Double.ofDecimal 29 2 ∧
    (Double.ofDecimal 29 2).toRat ≠
      (Double.ofDecimal 3 2).toRat + (Double.ofDecimal 26 2).toRat ∧
    (∀ sale ∈ twoPoundSales, hasNumericAmount sale = true) ∧
    (Commissions.stats twoPoundSales).paidOut =
      some (Double.ofDecimal 19999999999999998 16) ∧
    ((twoPoundSales.filter (fun sale => truthy (getProp sale "commission_paid"))).map
      exactAmount).sum = 2 ∧
    (Double.ofDecimal 19999999999999998 16).toRat ≠ 2 := by
  have h29 : Double.ofDecimal 29 2 = Double.fin false 5224175567749775 (-54) := by decide
  have h03 : Double.ofDecimal 3 2 = Double.fin false 8646911284551352 (-58) := by decide
  have h26 : Double.ofDecimal 26 2 = Double.fin false 4683743612465316 (-54) := by decide
  have h19 : Double.ofDecimal 19999999999999998 16 =
      Double.fin false 9007199254740991 (-52) := by decide
  have h2 : Double.ofInt 2 = Double.fin false 4503599627370496 (-51) := by decide
  refine ⟨by decide, by decide, by decide, by decide, ?_, by decide, by decide, ?_, ?_⟩
  · rw [h29, h03, h26]
    norm_num [Double.toRat]
  · have hl : (twoPoundSales.filter (fun sale => truthy (getProp sale "commission_paid"))).map
        exactAmount = [(Double.fin false 4503599627370496 (-51)).toRat] := by
      rw [← h2]
      rfl
    rw [hl]
    norm_num [Double.toRat]
  · rw [h19]
    norm_num [Double.toRat]

/-! ## Resource tags -/

theorem splitChars_ne_nil (separator : Char) (cs : List Char) :
    splitChars separator cs ≠ [] := by
  cases cs with
  | nil => simp [splitChars]
  | cons c rest =>
    unfold splitChars
    by_cases h : c = separator
    · simp [h]
    · simp only [h, if_false]
      cases splitChars separator rest <;> simp

theorem splitChars_mem (separator : Char) (cs : List Char) :
    ∀ piece ∈ splitChars separator cs, separator ∉ piece ∧ ∀ c ∈ piece, c ∈ cs := by
  induction cs with
  | nil => simp [splitChars]
  | cons c rest ih =>
    intro piece hp
    unfold splitChars at hp
    by_cases h : c = separator
    · simp only [h, if_true, List.mem_cons] at hp
      rcases hp with rfl | hp
      · simp
      · exact ⟨(ih piece hp).1, fun x hx => List.mem_cons_of_mem _ ((ih piece hp).2 x hx)⟩
    · simp only [h, if_false] at hp
      cases hs : splitChars separator rest with
      | nil => exact absurd hs (splitChars_ne_nil separator rest)
      | cons first pieces =>
        rw [hs] at hp ih
        simp only [List.mem_cons] at hp
        rcases hp with rfl | hp
        · have hfirst := ih first (List.mem_cons_self _ _)
          constructor
          · intro hmem
            rcases List.mem_cons.1 hmem with heq | hmem
            · exact h heq.symm
            · exact hfirst.1 hmem
          · intro x hx
            rcases List.mem_cons.1 hx with rfl | hx
            · exact List.mem_cons_self _ _
            · exact List.mem_cons_of_mem _ (hfirst.2 x hx)
        · have hrest := ih piece (List.mem_cons_of_mem _ hp)
          exact ⟨hrest.1, fun x hx => List.mem_cons_of_mem _ (hrest.2 x hx)⟩

theorem intercalate_splitChars (separator : Char) (cs : List Char) :
    [separator].intercalate (splitChars separator cs) = cs := by
  induction cs with
  | nil => simp [splitChars, List.intercalate]
  | cons c rest ih =>
    unfold splitChars
    by_cases h : c = separator
    · simp only [h, if_true]
      cases hs : splitChars separator rest with
      | nil => exact absurd hs (splitChars_ne_nil separator rest)
      | cons first pieces =>
        rw [hs] at ih
        simp only [List.intercalate, List.intersperse, List.flatten, List.nil_append,
          List.singleton_append] at ih ⊢
        rw [ih]
    · simp only [h, if_false]
      cases hs : splitChars separator rest with
      | nil => exact absurd hs (splitChars_ne_nil separator rest)
      | cons first pieces =>
        rw [hs] at ih
        cases pieces with
        | nil =>
          simp only [List.intercalate, List.intersperse, List.flatten, List.append_nil] at ih ⊢
          rw [ih]
        | cons second others =>
          simp only [List.intercalate, List.intersperse, List.flatten, List.cons_append] at ih ⊢
          rw [ih]

theorem head_dropWhile (p : Char → Bool) (cs : List Char) :
    ∀ c, (cs.dropWhile p).head? = some c → p c = false := by
  induction cs with
  | nil => simp
  | cons a rest ih =>
    intro c hc
    by_cases ha : p a = true
    · rw [List.dropWhile_cons_of_pos ha] at hc
      exact ih c hc
    · rw [List.dropWhile_cons_of_neg ha] at hc
      simp only [List.head?_cons, Option.some.injEq] at hc
      rw [← hc]
      simpa using ha

theorem getLast_dropWhile (p : Char → Bool) (cs : List Char) :
    ∀ c, (cs.dropWhile p).getLast? = some c → cs.getLast? = some c := by
  induction cs with
  | nil => simp
  | cons a rest ih =>
    intro c hc
    by_cases ha : p a = true
    · rw [List.dropWhile_cons_of_pos ha] at hc
      have hrest := ih c hc
      cases rest with
      | nil => simp at hrest
      | cons b more => simpa [List.getLast?_cons_cons] using hrest
    · rw [List.dropWhile_cons_of_neg ha] at hc
      exact hc

theorem trimChars_ends (cs : List Char) :
    (∀ c, (trimChars cs).head? = some c → isWhiteSpace c = false) ∧
    (∀ c, (trimChars cs).getLast? = some c → isWhiteSpace c = false) ∧
    (∀ c ∈ trimChars cs, c ∈ cs) := by
  unfold trimChars
  refine ⟨?_, ?_, ?_⟩
  · intro c hc
    rw [List.head?_reverse] at hc
    have h1 := getLast_dropWhile isWhiteSpace _ c hc
    rw [List.getLast?_reverse] at h1
    exact head_dropWhile isWhiteSpace cs c h1
  · intro c hc
    rw [List.getLast?_reverse] at hc
    exact head_dropWhile isWhiteSpace _ c hc
  · intro c hc
    rw [List.mem_reverse] at hc
    have h1 := (List.dropWhile_sublist isWhiteSpace).subset hc
    rw [List.mem_reverse] at h1
    exact (List.dropWhile_sublist isWhiteSpace).subset h1

theorem trimChars_blank (cs : List Char) (h : ∀ c ∈ cs, isWhiteSpace c = true) :
    trimChars cs = [] := by
  unfold trimChars
  have : cs.dropWhile isWhiteSpace = [] := by
    rw [List.dropWhile_eq_nil_iff]
    exact h
  simp [this]

/-- C30: for every form, the submitted tag list is the list of the pieces of
the tags text between its commas (joined by commas the pieces give the text
back), each trimmed, without the empty ones and in their order. No tag is
empty, starts or ends with white space or holds a comma; a text of commas and
white space only gives the empty list; and a form with title and category
submits this list under `tags`. -/
theorem submitted_tags (formData : AddResourceForm.FormData) :
    [','].intercalate (splitChars ',' formData.tags.data) = formData.tags.data ∧
    AddResourceForm.tags formData =
      (((splitChars ',' formData.tags.data).map (fun piece => String.mk (trimChars piece))).filter
        (fun tag => decide (tag ≠ ""))) ∧
    (AddResourceForm.tags formData).Sublist
      ((splitChars ',' formData.tags.data).map (fun piece => String.mk (trimChars piece))) ∧
    (∀ tag ∈ AddResourceForm.tags formData,
      tag ≠ "" ∧
      (∀ c, tag.data.head? = some c → isWhiteSpace c = false) ∧
      (∀ c, tag.data.getLast? = some c → isWhiteSpace c = false) ∧
      ',' ∉ tag.data) ∧
    ((∀ c ∈ formData.tags.data, c = ',' ∨ isWhiteSpace c = true) →
      AddResourceForm.tags formData = []) ∧
    (formData.title ≠ "" → formData.category ≠ "" →
      ∃ data, AddResourceForm.handleSubmit formData = some data ∧
        getProp data "tags" = JsValue.arr ((AddResourceForm.tags formData).map JsValue.str)) := by
  have htags : AddResourceForm.tags formData =
      (((splitChars ',' formData.tags.data).map
        (fun piece => String.mk (trimChars piece))).filter (fun tag => decide (tag ≠ ""))) := by
    unfold AddResourceForm.tags split trim
    rw [List.map_map]
    rfl
  refine ⟨intercalate_splitChars ',' _, htags, ?_, ?_, ?_, ?_⟩
  · rw [htags]
    exact List.filter_sublist _
  · intro tag htag
    rw [htags, List.mem_filter, List.mem_map] at htag
    obtain ⟨⟨piece, hpiece, rfl⟩, hne⟩ := htag
    obtain ⟨h1, h2, h3⟩ := trimChars_ends piece
    refine ⟨by simpa using hne, h1, h2, ?_⟩
    intro hc
    exact (splitChars_mem ',' _ piece hpiece).1 (h3 _ hc)
  · intro h
    rw [htags, List.filter_eq_nil_iff]
    intro tag htag
    rw [List.mem_map] at htag
    obtain ⟨piece, hpiece, rfl⟩ := htag
    have hsplit := splitChars_mem ',' _ piece hpiece
    have hblank : trimChars piece = [] := by
      apply trimChars_blank
      intro c hc
      rcases h c (hsplit.2 c hc) with rfl | hw
      · exact absurd hc hsplit.1
      · exact hw
    simp [hblank]
  · intro ht hc
    refine ⟨AddResourceForm.dataToSubmit formData, ?_, ?_⟩
    · unfold AddResourceForm.handleSubmit
      simp [ht, hc]
    · simp [AddResourceForm.dataToSubmit, getProp, List.lookup]

set_option maxRecDepth 100000 in
/-- The sample form submits the tags `sales`, `cold call` and `intro`; a tags
text of commas, blanks and a tab submits none. -/
theorem submitted_tags_witness :
    AddResourceForm.tags sampleForm = ["sales", "cold call", "intro"] ∧
    AddResourceForm.tags { sampleForm with tags := " , ,\t,," } = [] ∧
    ∃ data, AddResourceForm.handleSubmit sampleForm = some data ∧
      getProp data "tags" = JsValue.arr ((AddResourceForm.tags sampleForm).map JsValue.str) :=
  ⟨by decide,
   (submitted_tags { sampleForm with tags := " , ,\t,," }).2.2.2.2.1 (by decide),
   (submitted_tags sampleForm).2.2.2.2.2 (by decide) (by decide)⟩

/-! ## Pages and routes -/

theorem splitChars_of_not_mem (separator : Char) (cs : List Char) (h : separator ∉ cs) :
    splitChars separator cs = [cs] := by
  induction cs with
  | nil => rfl
  | cons c rest ih =>
    have hc : c ≠ separator := fun he => h (by simp [he])
    have hrest : separator ∉ rest := fun hm => h (List.mem_cons_of_mem _ hm)
    unfold splitChars
    rw [if_neg hc, ih hrest]

theorem splitChars_append (separator : Char) (before piece : List Char)
    (h : separator ∉ piece) :
    ∃ first rest,
      splitChars separator (before ++ separator :: piece) = (first :: rest) ++ [piece] := by
  induction before with
  | nil =>
    refine ⟨[], [], ?_⟩
    show splitChars separator (separator :: piece) = _
    unfold splitChars
    rw [if_pos rfl, splitChars_of_not_mem separator piece h]
    rfl
  | cons c more ih =>
    obtain ⟨first, rest, hs⟩ := ih
    show ∃ first rest, splitChars separator (c :: (more ++ separator :: piece)) = _
    unfold splitChars
    by_cases hc : c = separator
    · rw [if_pos hc, hs]
      exact ⟨[], first :: rest, rfl⟩
    · rw [if_neg hc, hs]
      exact ⟨c :: first, rest, rfl⟩

theorem urlLastPart_page (before : String) (page : String)
    (hslash : '/' ∉ page.data) (hquery : '?' ∉ page.data)
    (hend : endsWith (before ++ "/" ++ page) "/" = false) :
    urlLastPart (before ++ "/" ++ page) = page := by
  unfold urlLastPart
  rw [hend]
  simp only [Bool.false_eq_true, if_false]
  have hdata : (before ++ "/" ++ page).data = before.data ++ '/' :: page.data := by
    simp [String.data_append]
  obtain ⟨first, rest, hs⟩ := splitChars_append '/' before.data page.data hslash
  have hlast : ((split (before ++ "/" ++ page) '/').getLast?).getD "" = page := by
    unfold split
    rw [hdata, hs, List.map_append, List.map_singleton, List.getLast?_concat]
    rfl
  rw [hlast, if_neg hquery]

theorem endsWith_page (before page : String) (c : Char) (cs : List Char)
    (hpage : page.data.reverse = c :: cs) (hc : c ≠ '/') :
    endsWith (before ++ "/" ++ page) "/" = false := by
  unfold endsWith
  rw [List.isSuffixOf]
  simp only [String.data_append, List.reverse_append, hpage]
  simp [List.isPrefixOf, Ne.symm hc]

/-- C22: `_getCurrentPage` always returns one of the six page names; it
returns `Dashboard` for the root, and for every url that ends in `/` and one of
the six names it returns that name (whatever the case of its letters, in the
example). The route table renders the page for `/` and for `/` with a page
name. For the location `/foo`, where `_getCurrentPage` returns `Dashboard`,
no route matches and nothing is rendered. -/
theorem getCurrentPage_and_routes :
    (∀ url, _getCurrentPage url ∈ PAGES) ∧
    _getCurrentPage "/" = "Dashboard" ∧
    _getCurrentPage "" = "Dashboard" ∧
    (∀ (before page : String), page ∈ PAGES → _getCurrentPage (before ++ "/" ++ page) = page) ∧
    _getCurrentPage "/app/LEADS?tab=1" = "Leads" ∧
    _getCurrentPage "/leads/" = "Leads" ∧
    (∀ page ∈ PAGES, PagesContent.element ("/" ++ page) = some page) ∧
    PagesContent.element "/" = some "Dashboard" ∧
    _getCurrentPage "/foo" = "Dashboard" ∧
    PagesContent.element "/foo" = none := by
  refine ⟨?_, by decide, by decide, ?_, by decide, by decide, by decide, by decide, by decide,
    by decide⟩
  · intro url
    unfold _getCurrentPage
    cases h : PAGES.find? (fun page => toLowerCase page == toLowerCase (urlLastPart url)) with
    | none => decide
    | some page => exact List.mem_of_find?_eq_some h
  · intro before page hpage
    have hlast : urlLastPart (before ++ "/" ++ page) = page := by
      simp only [PAGES, List.mem_cons, List.mem_singleton, List.not_mem_nil, or_false] at hpage
      rcases hpage with rfl | rfl | rfl | rfl | rfl | rfl
      · exact urlLastPart_page before _ (by decide) (by decide)
          (endsWith_page before _ 'd' "raobhsaD".data (by decide) (by decide))
      · exact urlLastPart_page before _ (by decide) (by decide)
          (endsWith_page before _ 's' "daeL".data (by decide) (by decide))
      · exact urlLastPart_page before _ (by decide) (by decide)
          (endsWith_page before _ 's' "ecruoseR".data (by decide) (by decide))
      · exact urlLastPart_page before _ (by decide) (by decide)
          (endsWith_page before _ 'n' "imdA".data (by decide) (by decide))
      · exact urlLastPart_page before _ (by decide) (by decide)
          (endsWith_page before _ 's' "noissimmoC".data (by decide) (by decide))
      · exact urlLastPart_page before _ (by decide) (by decide)
          (endsWith_page before _ 't' "roppuS".data (by decide) (by decide))
    unfold _getCurrentPage
    rw [hlast]
    simp only [PAGES, List.mem_cons, List.mem_singleton, List.not_mem_nil, or_false] at hpage
    rcases hpage with rfl | rfl | rfl | rfl | rfl | rfl <;> decide

/-! ## Fallbacks of the shell and the default configuration row -/

/-- What the shell shows without a configuration row is not what it shows
for the stored default row that `loadConfiguration` inserts: the external
tools differ. -/
theorem shown_default_differs :
    Layout.shown (fun page => page) none ≠
      Layout.shown (fun page => page) (some storedDefaultConfig) := by
  decide

/-- C26, as the code has it: without a configuration row and with the stored
default row the shell shows the same app name, tagline, logo, colours,
support phone and navigation links, and the same external tools except the
second one: the copy of the default tools in `Layout.jsx` names it
`Automation Hub` / `Workflow automation`, the copy in
`ConfigurationManager.jsx`, which is the one stored, `Automation` /
`Workflow dashboard`. So creating the default row changes what is shown. -/
theorem shown_default_agrees (createPageUrl : JsValue → JsValue) :
    (Layout.shown createPageUrl none).appName =
      (Layout.shown createPageUrl (some storedDefaultConfig)).appName ∧
    (Layout.shown createPageUrl none).appTagline =
      (Layout.shown createPageUrl (some storedDefaultConfig)).appTagline ∧
    (Layout.shown createPageUrl none).logoUrl =
      (Layout.shown createPageUrl (some storedDefaultConfig)).logoUrl ∧
    (Layout.shown createPageUrl none).primaryColor =
      (Layout.shown createPageUrl (some storedDefaultConfig)).primaryColor ∧
    (Layout.shown createPageUrl none).secondaryColor =
      (Layout.shown createPageUrl (some storedDefaultConfig)).secondaryColor ∧
    (Layout.shown createPageUrl none).supportPhone =
      (Layout.shown createPageUrl (some storedDefaultConfig)).supportPhone ∧
    (Layout.shown createPageUrl none).navigationItems =
      (Layout.shown createPageUrl (some storedDefaultConfig)).navigationItems ∧
    (Layout.shown createPageUrl none).externalTools = Except.ok Layout.defaultExternalTools ∧
    (Layout.shown createPageUrl (some storedDefaultConfig)).externalTools =
      Except.ok ConfigurationManager.defaultExternalTools ∧
    (∀ i : Nat, i ≠ 1 →
      Layout.defaultExternalTools[i]? = ConfigurationManager.defaultExternalTools[i]?) ∧
    Layout.defaultExternalTools[1]? =
      some (externalTool "Automation Hub" "https://n8n.byteblitz.co.uk" "Workflow automation"
        "Zap") ∧
    ConfigurationManager.defaultExternalTools[1]? =
      some (externalTool "Automation" "https://n8n.byteblitz.co.uk" "Workflow dashboard"
        "Zap") := by
  refine ⟨rfl, rfl, rfl, rfl, rfl, rfl, rfl, rfl, rfl, ?_, rfl, rfl⟩
  intro i hi
  match i, hi with
  | 0, _ => rfl
  | 1, h => exact absurd rfl h
  | 2, _ => rfl
  | 3, _ => rfl
  | 4, _ => rfl
  | n + 5, _ => rfl

/-! ## Joined loads -/

theorem joinResults_failed (results : List (Except PostgrestError Data))
    (h : ∃ r ∈ results, ∃ e, r = Except.error e) : ∃ e, joinResults results = Except.error e := by
  induction results with
  | nil => simp at h
  | cons r rest ih =>
    cases r with
    | error e => exact ⟨e, rfl⟩
    | ok value =>
      obtain ⟨x, hx, e, he⟩ := h
      rcases List.mem_cons.1 hx with rfl | hmem
      · simp at he
      · obtain ⟨e1, h1⟩ := ih ⟨x, hmem, e, he⟩
        exact ⟨e1, by simp [joinResults, h1]⟩

theorem joinResults_ok (results : List (Except PostgrestError Data)) (values : List Data)
    (h : joinResults results = Except.ok values) : results = values.map Except.ok := by
  induction results generalizing values with
  | nil =>
    simp [joinResults] at h
    simp [← h]
  | cons r rest ih =>
    cases r with
    | error e => simp [joinResults] at h
    | ok value =>
      cases hrest : joinResults rest with
      | error e => simp [joinResults, hrest] at h
      | ok others =>
        simp [joinResults, hrest] at h
        rw [← h, ih others hrest]
        rfl

theorem promiseAll_failed {σ : Type} (loads : List (σ → Except PostgrestError Data × σ)) (s : σ)
    (h : ∃ r ∈ (settle loads s).1, ∃ e, r = Except.error e) :
    ∃ e, promiseAll loads s = (Except.error e, (settle loads s).2) := by
  obtain ⟨e, he⟩ := joinResults_failed _ h
  exact ⟨e, by unfold promiseAll; rw [he]⟩

/-- C23: on every store, when one of the loads handed to `Promise.all` fails,
the load of the view applies none of the results: `loadAdminData` leaves
`stats`, `loadStats` leaves `stats`, the `loadData` of `CommissionManagement`
leaves `sales` and `users`, and the `loadData` of `LeadAssignment` leaves
`leadRequests` and `users` as they were before the load. When the join
succeeds, every load of it succeeded. -/
theorem all_or_nothing {σ : Type} (store : Store σ) (s : σ) :
    (∀ (getSession : AuthResponse) (st : Admin.State) (currentUser : Row) (s1 : σ),
      User.me getSession store s = (Except.ok (some currentUser), s1) →
      getProp currentUser "role" = JsValue.str "admin" →
      (∃ r ∈ (settle (Admin.loads store) s1).1, ∃ e, r = Except.error e) →
      (Admin.loadAdminData getSession store st s).1.stats = st.stats) ∧
    (∀ (Stats : Type) (compute : List Row → List Row → List Row → Stats)
      (st : AdminStats.State Stats),
      (∃ r ∈ (settle [User.list store, list store Lead none, list store Sale none] s).1,
        ∃ e, r = Except.error e) →
      (AdminStats.loadStats compute store st s).1.stats = st.stats) ∧
    (∀ st : CommissionManagement.State,
      (∃ r ∈ (settle [list store Sale (some "-created_date"), User.list store] s).1,
        ∃ e, r = Except.error e) →
      (CommissionManagement.loadData store st s).1.sales = st.sales ∧
      (CommissionManagement.loadData store st s).1.users = st.users) ∧
    (∀ st : LeadAssignment.State,
      (∃ r ∈ (settle [list store LeadRequest (some "-created_date"), User.list store] s).1,
        ∃ e, r = Except.error e) →
      (LeadAssignment.loadData store st s).1.leadRequests = st.leadRequests ∧
      (LeadAssignment.loadData store st s).1.users = st.users) ∧
    (∀ (loads : List (σ → Except PostgrestError Data × σ)) (values : List Data),
      (promiseAll loads s).1 = Except.ok values →
      (settle loads s).1 = values.map Except.ok) := by
  refine ⟨?_, ?_, ?_, ?_, ?_⟩
  · intro getSession st currentUser s1 hme hrole hfail
    obtain ⟨e, he⟩ := promiseAll_failed _ s1 hfail
    unfold Admin.loadAdminData
    rw [hme]
    simp only [hrole, ne_eq, not_true_eq_false, if_false]
    rw [he]
  · intro Stats compute st hfail
    obtain ⟨e, he⟩ := promiseAll_failed _ s hfail
    unfold AdminStats.loadStats
    simp only
    rw [he]
  · intro st hfail
    obtain ⟨e, he⟩ := promiseAll_failed _ s hfail
    unfold CommissionManagement.loadData
    rw [he]
    exact ⟨rfl, rfl⟩
  · intro st hfail
    obtain ⟨e, he⟩ := promiseAll_failed _ s hfail
    unfold LeadAssignment.loadData
    rw [he]
    exact ⟨rfl, rfl⟩
  · intro loads values h
    exact joinResults_ok _ values h

/-- With the `sales` table out of reach, for the sample admin:
`loadAdminData` leaves the stats of the fresh page, and `loadData` of
`CommissionManagement` leaves its empty collections, although the users were
read. -/
theorem all_or_nothing_witness :
    (Admin.loadAdminData sampleSession salesDownStore Admin.initial profileDb).1.stats =
      Admin.initial.stats ∧
    (CommissionManagement.loadData salesDownStore CommissionManagement.initial profileDb).1.sales =
      Data.rows [] ∧
    (CommissionManagement.loadData salesDownStore CommissionManagement.initial profileDb).1.users =
      Data.rows [] :=
  ⟨(all_or_nothing salesDownStore profileDb).1 sampleSession Admin.initial
      [("id", JsValue.num 7), ("email", JsValue.str "jo@example.com"),
        ("full_name", JsValue.str "Jo"), ("role", JsValue.str "admin")]
      (User.me sampleSession salesDownStore profileDb).2
      (Prod.ext (by decide) rfl) (by decide)
      ⟨Except.error { message := "connection lost", code := "08006" }, by decide, _, rfl⟩,
   ((all_or_nothing salesDownStore profileDb).2.2.1 CommissionManagement.initial
      ⟨Except.error { message := "connection lost", code := "08006" }, by decide, _, rfl⟩).1,
   ((all_or_nothing salesDownStore profileDb).2.2.1 CommissionManagement.initial
      ⟨Except.error { message := "connection lost", code := "08006" }, by decide, _, rfl⟩).2⟩

/-! ## The admin gate -/

/-- C25: `loadAdminData` on every store. For a current user whose role is not
`admin` it assigns `/` to the location and returns: the store is as `User.me`
left it, so none of the five reads is sent, and `user`, `stats`, `loading` and
the console are as before. For no user, and for a failed `User.me`, the
`catch` runs: again the store is as `User.me` left it, `user` and `stats` are as
before and `loading` ends. In each case a page that had no user does not
render the admin panel. -/
theorem admin_gate {σ : Type} (getSession : AuthResponse) (store : Store σ)
    (st : Admin.State) (s : σ) :
    (∀ currentUser, (User.me getSession store s).1 = Except.ok (some currentUser) →
      getProp currentUser "role" ≠ JsValue.str "admin" →
      (Admin.loadAdminData getSession store st s).2 = (User.me getSession store s).2 ∧
      (Admin.loadAdminData getSession store st s).1 = { st with location := some "/" } ∧
      (st.user = none →
        Admin.view (Admin.loadAdminData getSession store st s).1 ≠ Admin.View.panel)) ∧
    ((User.me getSession store s).1 = Except.ok none →
      (Admin.loadAdminData getSession store st s).2 = (User.me getSession store s).2 ∧
      (Admin.loadAdminData getSession store st s).1.user = st.user ∧
      (Admin.loadAdminData getSession store st s).1.stats = st.stats ∧
      (Admin.loadAdminData getSession store st s).1.loading = false ∧
      (st.user = none →
        Admin.view (Admin.loadAdminData getSession store st s).1 = Admin.View.accessDenied)) ∧
    (∀ e, (User.me getSession store s).1 = Except.error e →
      (Admin.loadAdminData getSession store st s).2 = (User.me getSession store s).2 ∧
      (Admin.loadAdminData getSession store st s).1.user = st.user ∧
      (Admin.loadAdminData getSession store st s).1.stats = st.stats ∧
      (st.user = none →
        Admin.view (Admin.loadAdminData getSession store st s).1 = Admin.View.accessDenied)) := by
  rcases hme : User.me getSession store s with ⟨result, s1⟩
  refine ⟨?_, ?_, ?_⟩
  · intro currentUser hres hrole
    simp only at hres
    subst hres
    have hload : Admin.loadAdminData getSession store st s =
        ({ st with location := some "/" }, s1) := by
      unfold Admin.loadAdminData
      rw [hme]
      simp only [hrole, ne_eq, not_false_eq_true, if_true]
    rw [hload]
    refine ⟨rfl, rfl, ?_⟩
    intro hu
    simp only [Admin.view, hu, Layout.configField]
    by_cases hl : st.loading = true <;> simp [hl]
  · intro hres
    simp only at hres
    subst hres
    have hload : Admin.loadAdminData getSession store st s =
        ({ st with
            console := st.console ++
              [Thrown.type { message := "Cannot read properties of null" }],
            loading := false }, s1) := by
      unfold Admin.loadAdminData
      rw [hme]
    rw [hload]
    refine ⟨rfl, rfl, rfl, rfl, ?_⟩
    intro hu
    simp [Admin.view, hu, Layout.configField]
  · intro e hres
    simp only at hres
    subst hres
    have hload : Admin.loadAdminData getSession store st s =
        ({ st with console := st.console ++ [Thrown.auth e], loading := false }, s1) := by
      unfold Admin.loadAdminData
      rw [hme]
    rw [hload]
    refine ⟨rfl, rfl, rfl, ?_⟩
    intro hu
    simp [Admin.view, hu, Layout.configField]

/-- On the recording reference store: for a signed-in user without the admin
role the only request is the profile read of `User.me`, the page is sent to
`/` and keeps its fresh state; without a session no request is sent and the
page shows the access-denied card. -/
theorem admin_gate_witness :
    Admin.loadAdminData repSession (logged refStore) Admin.initial (profileDb, []) =
      ({ Admin.initial with location := some "/" },
       (profileDb, [User.profileQuery (JsValue.str "al@example.com")])) ∧
    (Admin.loadAdminData noSession (logged refStore) Admin.initial (profileDb, [])).2.2 = [] ∧
    Admin.view (Admin.loadAdminData noSession (logged refStore) Admin.initial
      (profileDb, [])).1 = Admin.View.accessDenied :=
  ⟨Prod.ext
      (((admin_gate repSession (logged refStore) Admin.initial (profileDb, [])).1
        [("id", JsValue.str "u-1"), ("email", JsValue.str "al@example.com"),
          ("full_name", JsValue.str "Jo"), ("role", JsValue.str "user")]
        (by decide) (by decide)).2.1)
      ((((admin_gate repSession (logged refStore) Admin.initial (profileDb, [])).1
        [("id", JsValue.str "u-1"), ("email", JsValue.str "al@example.com"),
          ("full_name", JsValue.str "Jo"), ("role", JsValue.str "user")]
        (by decide) (by decide)).1).trans (Prod.ext rfl (by decide))),
   (congrArg Prod.snd ((admin_gate noSession (logged refStore) Admin.initial
      (profileDb, [])).2.1 (by decide)).1).trans (by decide),
   ((admin_gate noSession (logged refStore) Admin.initial (profileDb, [])).2.1
      (by decide)).2.2.2.2 rfl⟩

/-! ## Loads without a session -/

/-- Without a session error and without a session user `User.me()` is null
and sends nothing. -/
theorem me_of_no_session {σ : Type} (getSession : AuthResponse) (store : Store σ) (s : σ)
    (herr : getSession.error = none)
    (hs : getSession.session = none ∨ getSession.session = some { user := none }) :
    User.me getSession store s = (Except.ok none, s) := by
  unfold User.me
  rcases hs with hs | hs <;> simp [herr, hs]

/-- C24: what the loads do when `getSession` reports no error and no session
user. `User.me()` is null and throws nothing, so `loadUserAndConfig` of the
shell does not enter its `catch`: once the configuration read answers, it has
set the user to null and ended the load, and `User.loginWithRedirect` was not
called. When the configuration read fails the `catch` runs, and its call of
`User.loginWithRedirect`, which `entities.js` does not define, throws.
`loadData` of `Leads.jsx` logs the `TypeError` of reading `email` of the null
user to the console and sends no request. -/
theorem no_session_load (getSession : AuthResponse) (herr : getSession.error = none)
    (hs : getSession.session = none ∨ getSession.session = some { user := none })
    {σ : Type} (store : Store σ) (s : σ) :
    (∀ st configs s1, list store AppConfiguration none s = (Except.ok configs, s1) →
      (Layout.loadUserAndConfig getSession store st s).1.user = none ∧
      (Layout.loadUserAndConfig getSession store st s).1.loading = false ∧
      (Layout.loadUserAndConfig getSession store st s).1.uncaught = st.uncaught ∧
      (Layout.loadUserAndConfig getSession store st s).2 = s1) ∧
    (∀ st e s1, list store AppConfiguration none s = (Except.error e, s1) →
      Layout.loadUserAndConfig getSession store st s =
        ({ st with
            user := none,
            uncaught := some { message := "User.loginWithRedirect is not a function" } }, s1)) ∧
    (∀ st, Leads.loadData getSession store st s =
      ({ st with
          user := none,
          console := st.console ++
            [Thrown.type { message := "Cannot read properties of null" }],
          loading := false }, s)) := by
  have hme := me_of_no_session getSession store s herr hs
  refine ⟨?_, ?_, ?_⟩
  · intro st configs s1 hlist
    unfold Layout.loadUserAndConfig
    rw [hme]
    simp only [hlist]
    split <;> exact ⟨rfl, rfl, rfl, rfl⟩
  · intro st e s1 hlist
    unfold Layout.loadUserAndConfig
    rw [hme]
    simp only [hlist]
    rfl
  · intro st
    unfold Leads.loadData
    rw [hme]

/-- Without a session, on the recording reference store: the shell reads the
configuration, ends its load with no user and nothing thrown, and the leads
page logs one `TypeError` and sends nothing. -/
theorem no_session_load_witness :
    Layout.loadUserAndConfig noSession (logged refStore) Layout.initial (profileDb, []) =
      ({ user := none, config := none, loading := false, uncaught := none },
       (profileDb, [listQuery AppConfiguration none])) ∧
    Leads.loadData noSession (logged refStore) Leads.initial (profileDb, []) =
      ({ Leads.initial with
          console := [Thrown.type { message := "Cannot read properties of null" }],
          loading := false }, (profileDb, [])) :=
  ⟨Prod.ext
      (show (Layout.loadUserAndConfig noSession (logged refStore) Layout.initial
          (profileDb, [])).1 = _ from
        have h := (no_session_load noSession rfl (Or.inl rfl) (logged refStore)
          (profileDb, [])).1 Layout.initial (Data.rows [])
          (profileDb, [listQuery AppConfiguration none]) (Prod.ext (by decide) (Prod.ext rfl (by decide)))
        by
          rcases hr : (Layout.loadUserAndConfig noSession (logged refStore) Layout.initial
            (profileDb, [])).1 with ⟨u, c, l, t⟩
          rw [hr] at h
          obtain ⟨h1, h2, h3, _⟩ := h
          simp only at h1 h2 h3
          subst h1 h2 h3
          have hc : (Layout.loadUserAndConfig noSession (logged refStore) Layout.initial
            (profileDb, [])).1.config = none := by decide
          rw [hr] at hc
          simp only at hc
          subst hc
          rfl)
      (((no_session_load noSession rfl (Or.inl rfl) (logged refStore)
          (profileDb, [])).1 Layout.initial (Data.rows [])
          (profileDb, [listQuery AppConfiguration none])
          (Prod.ext (by decide) (Prod.ext rfl (by decide)))).2.2.2),
   (no_session_load noSession rfl (Or.inl rfl) (logged refStore) (profileDb, [])).2.2
      Leads.initial⟩

end ByteHub
